import Mathlib

/-!
# SHIP connection engine of eebus-go: embedding and properties

The definitions follow `ship/connection.go` and `ship/hs_init.go`.  A connection is a record
that is passed explicitly; every call the code makes on a collaborator (transport, hub, local
device, SHIP state machine, SPINE reader) is appended to the `trace` of the connection, in
program order.  Go byte slices and strings are lists of byte values.
-/

namespace Ship

/-- A Go byte slice (or string), as the list of its byte values. -/
abbrev Bytes := List Nat

/-! ## Declarations of the `model` package and of the state machine (not under src/) -/

/-- Modelled from the spec: message-type tag INIT of `ship/model` (§4.1, `INIT=0x00`). -/
def MsgTypeInit : Nat := 0

/-- Modelled from the spec: message-type tag CONTROL of `ship/model` (§4.1, `CONTROL=0x01`). -/
def MsgTypeControl : Nat := 1

/-- Modelled from the spec: message-type tag DATA of `ship/model` (§4.1, `DATA=0x02`). -/
def MsgTypeData : Nat := 2

/-- Modelled from the spec: message-type tag END of `ship/model` (§4.1, `END=0x03`). -/
def MsgTypeEnd : Nat := 3

/-- Modelled from the spec: the INIT frame `shipInit`, the type tag followed by a single zero
payload byte (§4.1, §6). -/
def shipInit : Bytes := [MsgTypeInit, 0]

/-- Modelled from the spec: the type `shipRole` (§4.2, roles Client and Server). -/
inductive shipRole where
  | ShipRoleClient
  | ShipRoleServer
  deriving DecidableEq, Repr

/-- Modelled from the spec: the type `shipMessageExchangeState`, the states of §4.2 in the order
the spec lists them.  The names used under src/ are kept (`cmiState...`, `smeHelloState`,
`smeComplete`); the other states carry the spec's names. -/
inductive shipMessageExchangeState where
  | cmiStateInitStart
  | cmiStateClientSend
  | cmiStateClientWait
  | cmiStateClientEvaluate
  | cmiStateServerWait
  | cmiStateServerEvaluate
  | smeHelloState
  | smeHelloPending
  | smeProtocolHandshake
  | smePinStateCheck
  | smePinOk
  | smeAccessMethodsRequest
  | smeAccessMethods
  | smeComplete
  | smeCloseAnnounce
  | smeClosed
  deriving DecidableEq, Repr

/-- The integer value of a state (the states are an integer enumeration in Go, compared
with `>` in `CloseConnection`). -/
def shipMessageExchangeState.toNat : shipMessageExchangeState → Nat
  | .cmiStateInitStart => 0
  | .cmiStateClientSend => 1
  | .cmiStateClientWait => 2
  | .cmiStateClientEvaluate => 3
  | .cmiStateServerWait => 4
  | .cmiStateServerEvaluate => 5
  | .smeHelloState => 6
  | .smeHelloPending => 7
  | .smeProtocolHandshake => 8
  | .smePinStateCheck => 9
  | .smePinOk => 10
  | .smeAccessMethodsRequest => 11
  | .smeAccessMethods => 12
  | .smeComplete => 13
  | .smeCloseAnnounce => 14
  | .smeClosed => 15

/-- Modelled from the spec: the three modes of the handshake timer (§4.2; they are also named in
the field comment of `ShipConnection`). -/
inductive timeoutTimerType where
  | timeoutTimerTypeWaitForReady
  | timeoutTimerTypeSendProlongationRequest
  | timeoutTimerTypeProlongRequestReply
  deriving DecidableEq, Repr

/-- Go `error` values that occur in the modelled code.  The text of the two handshake errors
built with `fmt.Errorf` is not modelled, only which check failed and on which data. -/
inductive ShipError where
  | invalidMessageType (msgType : Nat)
  | invalidMessageValue (data : Bytes)
  | connectionIsClosed
  | invalidData
  | noValidPayload
  | external (msg : String)
  deriving DecidableEq, Repr

/-- Modelled from the spec: `model.ConnectionClosePhaseType` (§6, phases announce and confirm). -/
inductive ConnectionClosePhaseType where
  | ConnectionClosePhaseTypeAnnounce
  | ConnectionClosePhaseTypeConfirm
  deriving DecidableEq, Repr

/-- Modelled from the spec: `model.ConnectionCloseType` (§6, `phase` and `reason`). -/
structure ConnectionCloseType where
  Phase : ConnectionClosePhaseType
  Reason : Option String
  deriving DecidableEq, Repr

set_option linter.dupNamespace false in
/-- Modelled from the spec: `model.ConnectionClose`. -/
structure ConnectionClose where
  ConnectionClose : ConnectionCloseType
  deriving DecidableEq, Repr

/-- The header of a SHIP data message, as built in `transformSpineDataIntoShipJson`. -/
structure HeaderType where
  ProtocolId : String
  deriving DecidableEq, Repr

/-- The body of a SHIP data message; `Payload` is a `json.RawMessage`, `none` when nil. -/
structure DataType where
  Header : HeaderType
  Payload : Option Bytes
  deriving DecidableEq, Repr

/-- The SHIP data message `model.ShipData`. -/
structure ShipData where
  Data : DataType
  deriving DecidableEq, Repr

/-- The values passed as `model interface{}` to `json.Marshal` in the modelled code. -/
inductive ShipModel where
  | connectionClose (m : ConnectionClose)
  | shipData (m : ShipData)
  deriving DecidableEq, Repr

/-- What the code uses from packages that are not under src/: the constants `ShipProtocolId` and
`cmiTimeout`, Go's `json.Marshal` and `json.Unmarshal` (into a `ShipData`), and the two
transformations of `ship/util`.  They are parameters of the model. -/
structure Deps where
  ShipProtocolId : String
  cmiTimeout : Nat
  jsonMarshal : ShipModel → Except ShipError Bytes
  jsonUnmarshalShipData : Bytes → Except ShipError ShipData
  JsonIntoEEBUSJson : Bytes → Except ShipError Bytes
  JsonFromEEBUSJson : Bytes → Bytes

/-! ## The connection -/

/-- A call made on a collaborator of the connection. -/
inductive Event where
  | stopHandshakeTimer
  | setHandshakeTimer (timerType : timeoutTimerType) (duration : Nat)
  | RemoveRemoteDeviceConnection (ski : String)
  | WriteMessageToDataConnection (message : Bytes)
  | CloseDataConnection
  | HandleConnectionClosed (completed : Bool)
  | endHandshakeWithError (err : ShipError)
  | handleState (timeout : Bool) (message : Option Bytes)
  | handleShipMessage (timeout : Bool) (message : Option Bytes)
  | HandleIncomingSpineMesssage (payload : Bytes)
  deriving DecidableEq, Repr

/-- The injected transport `ShipDataConnection`: the error (if any) it answers to a write of a
given frame, and whether it reports the data connection as closed. -/
structure ShipDataConnection where
  WriteMessageToDataConnection : Bytes → Option ShipError
  IsDataConnectionClosed : Bool

/-- The state of a `sync.Once`. -/
inductive OnceState where
  | idle
  | running
  | done
  deriving DecidableEq, Repr

/-- The fields of `ShipConnection` the modelled code reads or writes, and the trace of the calls
made on collaborators.  `spineDataProcessing` is `true` when the field is not nil. -/
structure ShipConnection where
  role : shipRole
  RemoteSKI : String
  DataHandler : ShipDataConnection
  smeState : shipMessageExchangeState
  handshakeTimerRunning : Bool
  handshakeTimerType : timeoutTimerType
  spineDataProcessing : Bool
  shutdownOnce : OnceState
  trace : List Event

/-- How a call ends: it returns, it panics (index out of range), or it blocks forever. -/
inductive Run (α : Type) where
  | done (c : ShipConnection) (ret : α)
  | panicked (c : ShipConnection)
  | deadlocked (c : ShipConnection)

/-- Sequencing: the rest of the code runs only when the call returns. -/
def Run.bind {α β : Type} (r : Run α) (f : ShipConnection → α → Run β) : Run β :=
  match r with
  | .done c ret => f c ret
  | .panicked c => .panicked c
  | .deadlocked c => .deadlocked c

/-- Append a call to the trace. -/
def ShipConnection.log (c : ShipConnection) (e : Event) : ShipConnection :=
  { c with trace := c.trace ++ [e] }

/-- The calls made between connection `c` and a later connection `r`. -/
def emitted (c r : ShipConnection) : List Event :=
  r.trace.drop c.trace.length

/-- Modelled from the spec: `setState` (not under src/) moves the machine to the given state. -/
def setState (newState : shipMessageExchangeState) (c : ShipConnection) : ShipConnection :=
  { c with smeState := newState }

/-- Modelled from the spec: `setHandshakeTimer` (not under src/) starts the single handshake
timer in the given mode, replacing any current timer (§4.2). -/
def setHandshakeTimer (timerType : timeoutTimerType) (duration : Nat) (c : ShipConnection) :
    ShipConnection :=
  { c with handshakeTimerRunning := true, handshakeTimerType := timerType }.log
    (.setHandshakeTimer timerType duration)

/-- Modelled from the spec: `stopHandshakeTimer` (not under src/) cancels the handshake
timer (§4.2, §5). -/
def stopHandshakeTimer (c : ShipConnection) : ShipConnection :=
  { c with handshakeTimerRunning := false }.log .stopHandshakeTimer

/-- Modelled from the spec: `endHandshakeWithError` (not under src/); the machine transitions to
`Closed` through it (§4.2).  The call is recorded with its error. -/
def endHandshakeWithError (err : ShipError) (c : ShipConnection) : ShipConnection :=
  { c with smeState := .smeClosed }.log (.endHandshakeWithError err)

/-- Modelled from the spec: `handleState` (not under src/) runs the SHIP state machine on the
current state.  The hand-over is recorded; the steps of the machine are outside this model. -/
def handleState (timeout : Bool) (message : Option Bytes) (c : ShipConnection) : ShipConnection :=
  c.log (.handleState timeout message)

/-- Modelled from the spec: `handleShipMessage` (not under src/) gives a message to the SHIP
state machine.  The hand-over is recorded; the steps of the machine are outside this model. -/
def handleShipMessage (timeout : Bool) (message : Option Bytes) (c : ShipConnection) :
    ShipConnection :=
  c.log (.handleShipMessage timeout message)

/-- The method `WriteMessageToDataConnection` of the transport: the call is recorded and the
transport's answer returned. -/
def WriteMessageToDataConnection (message : Bytes) (c : ShipConnection) :
    ShipConnection × Option ShipError :=
  (c.log (.WriteMessageToDataConnection message), c.DataHandler.WriteMessageToDataConnection message)

/-- The method `parseMessage`: the type byte and the rest of the message. -/
def parseMessage (deps : Deps) (msg : Bytes) (jsonFormat : Bool) : Nat × Bytes :=
  match msg with
  | [] => (0, [])
  | shipHeaderByte :: msg =>
    if jsonFormat then (shipHeaderByte, deps.JsonFromEEBUSJson msg) else (shipHeaderByte, msg)

/-- The method `handshakeInit_cmiStateEvaluate`.  Reading `data[0]` of an empty slice panics. -/
def handshakeInit_cmiStateEvaluate (deps : Deps) (message : Bytes) (c : ShipConnection) :
    Run Bool :=
  match parseMessage deps message false with
  | (msgType, data) =>
    if msgType ≠ MsgTypeInit then
      .done (endHandshakeWithError (.invalidMessageType msgType) c) false
    else
      match data with
      | [] => .panicked c
      | b :: _ =>
        if b ≠ 0 then
          .done (endHandshakeWithError (.invalidMessageValue data) c) false
        else
          .done c true

/-- The method `removeRemoteDeviceConnection`: the local device is told to drop the connection
of `RemoteSKI`. -/
def removeRemoteDeviceConnection (c : ShipConnection) : ShipConnection :=
  c.log (.RemoveRemoteDeviceConnection c.RemoteSKI)

/-- The method `CloseDataConnection` of the transport. -/
def CloseDataConnection (c : ShipConnection) : ShipConnection :=
  c.log .CloseDataConnection

/-- The method `HandleConnectionClosed` of the hub (`serviceDataProvider`). -/
def HandleConnectionClosed (completed : Bool) (c : ShipConnection) : ShipConnection :=
  c.log (.HandleConnectionClosed completed)

/-- The close message built in `CloseConnection`. -/
def closeMessage (reason : String) : ConnectionClose :=
  { ConnectionClose :=
      { Phase := .ConnectionClosePhaseTypeAnnounce
        Reason := some reason } }

mutual

/-- The method `CloseConnection`.  The body runs under `shutdownOnce.Do`: it is skipped when the
once is done, and a call made while the body is running blocks forever (`sync.Once`). -/
def CloseConnection (deps : Deps) (safe : Bool) (reason : String) (c : ShipConnection) :
    Run Unit :=
  match c.shutdownOnce with
  | .done => .done c ()
  | .running => .deadlocked c
  | .idle =>
    let c1 := removeRemoteDeviceConnection (stopHandshakeTimer { c with shutdownOnce := .running })
    if safe && decide (c1.smeState.toNat > shipMessageExchangeState.cmiStateInitStart.toNat) then
      (sendShipModel deps MsgTypeEnd (some (.connectionClose (closeMessage reason))) c1).bind
        fun c2 _ => .done { c2 with shutdownOnce := .done } ()
    else
      let c2 := CloseDataConnection c1
      let c3 := HandleConnectionClosed (decide (c2.smeState = .smeComplete)) c2
      .done { c3 with shutdownOnce := .done } ()
termination_by if safe then 3 else 0
decreasing_by all_goals simp_wf; all_goals simp_all

/-- The method `sendShipModel`. -/
def sendShipModel (deps : Deps) (typ : Nat) (model : Option ShipModel) (c : ShipConnection) :
    Run (Option ShipError) :=
  (shipMessage deps typ model c).bind fun c1 result =>
    match result with
    | .error err => .done c1 (some err)
    | .ok shipMsg =>
      match WriteMessageToDataConnection shipMsg c1 with
      | (c2, some err) => .done c2 (some err)
      | (c2, none) => .done c2 none
termination_by 2
decreasing_by all_goals simp_wf

/-- The method `shipMessage`. -/
def shipMessage (deps : Deps) (typ : Nat) (model : Option ShipModel) (c : ShipConnection) :
    Run (Except ShipError Bytes) :=
  if c.DataHandler.IsDataConnectionClosed then
    (CloseConnection deps false "" c).bind fun c1 _ => .done c1 (.error .connectionIsClosed)
  else
    match model with
    | none => .done c (.error .invalidData)
    | some m =>
      match deps.jsonMarshal m with
      | .error err => .done c (.error err)
      | .ok msg =>
        match deps.JsonIntoEEBUSJson msg with
        | .error err => .done c (.error err)
        | .ok eebusMsg => .done c (.ok (typ :: eebusMsg))
termination_by 1
decreasing_by all_goals simp_wf

end

/-- The method `ReportConnectionError`: the transport was closed from remote. -/
def ReportConnectionError (deps : Deps) (c : ShipConnection) : Run Unit :=
  CloseConnection deps false "" c

/-- The method `handshakeInit_cmiStateInitStart`. -/
def handshakeInit_cmiStateInitStart (deps : Deps) (c : ShipConnection) : ShipConnection :=
  match c.role with
  | .ShipRoleClient =>
    match WriteMessageToDataConnection shipInit (setState .cmiStateClientSend c) with
    | (c1, some err) => endHandshakeWithError err c1
    | (c1, none) =>
      setHandshakeTimer .timeoutTimerTypeWaitForReady deps.cmiTimeout
        (setState .cmiStateClientWait c1)
  | .ShipRoleServer =>
    setHandshakeTimer .timeoutTimerTypeWaitForReady deps.cmiTimeout
      (setState .cmiStateServerWait c)

/-- The method `handshakeInit_cmiStateServerWait`. -/
def handshakeInit_cmiStateServerWait (deps : Deps) (message : Bytes) (c : ShipConnection) :
    Run Unit :=
  (handshakeInit_cmiStateEvaluate deps message
      { c with smeState := .cmiStateServerEvaluate }).bind fun c1 valid =>
    if !valid then
      .done c1 ()
    else
      match WriteMessageToDataConnection shipInit c1 with
      | (c2, some err) => .done (endHandshakeWithError err c2) ()
      | (c2, none) => .done (handleState false none (setState .smeHelloState c2)) ()

/-- The method `handshakeInit_cmiStateClientWait`. -/
def handshakeInit_cmiStateClientWait (deps : Deps) (message : Bytes) (c : ShipConnection) :
    Run Unit :=
  (handshakeInit_cmiStateEvaluate deps message
      { c with smeState := .cmiStateClientEvaluate }).bind fun c1 valid =>
    if !valid then
      .done c1 ()
    else
      .done (handleState false none (setState .smeHelloState c1)) ()

/-- Go's `bytes.Contains`: some suffix of `s` starts with `sep`. -/
def bytesContains : Bytes → Bytes → Bool
  | [], sep => sep.isPrefixOf []
  | b :: rest, sep => sep.isPrefixOf (b :: rest) || bytesContains rest sep

/-- The bytes of the literal `datagram`. -/
def datagramLiteral : Bytes := [100, 97, 116, 97, 103, 114, 97, 109]

/-- The method `hasSpineDatagram`. -/
def hasSpineDatagram (message : Bytes) : Bool :=
  bytesContains message datagramLiteral

/-- The method `shipModelFromMessage` (its log lines are not modelled). -/
def shipModelFromMessage (deps : Deps) (message : Bytes) : Except ShipError ShipData :=
  match parseMessage deps message true with
  | (_, jsonData) =>
    match deps.jsonUnmarshalShipData jsonData with
    | .error err => .error err
    | .ok data =>
      match data.Data.Payload with
      | none => .error .noValidPayload
      | some _ => .ok data

/-- The method `HandleIncomingSpineMesssage` of the SPINE reader `spineDataProcessing`. -/
def HandleIncomingSpineMesssage (payload : Bytes) (c : ShipConnection) : ShipConnection :=
  c.log (.HandleIncomingSpineMesssage payload)

/-- The method `HandleIncomingShipMessage`. -/
def HandleIncomingShipMessage (deps : Deps) (message : Bytes) (c : ShipConnection) :
    ShipConnection :=
  if !hasSpineDatagram message then
    handleShipMessage false (some message) c
  else
    match shipModelFromMessage deps message with
    | .error _ => c
    | .ok data =>
      if !c.spineDataProcessing then
        c
      else
        HandleIncomingSpineMesssage (data.Data.Payload.getD []) c

/-- The bytes of the constant `payloadPlaceholder`, the text of the JSON object with the one
member "place" of value "holder". -/
def payloadPlaceholder : Bytes :=
  [123, 34, 112, 108, 97, 99, 101, 34, 58, 34, 104, 111, 108, 100, 101, 114, 34, 125]

/-- The scan of Go's `strings.Replace` for a non-empty pattern `old`: left to right, every
occurrence that does not overlap an earlier one is replaced, and replaced text is not
scanned again.  The first argument counts the bytes of a matched occurrence still to skip. -/
def replaceFrom (old new : Bytes) : Nat → Bytes → Bytes
  | _, [] => []
  | skip + 1, _ :: rest => replaceFrom old new skip rest
  | 0, b :: rest =>
    if old.isPrefixOf (b :: rest) then new ++ replaceFrom old new (old.length - 1) rest
    else b :: replaceFrom old new 0 rest

/-- Go's `strings.ReplaceAll`, for a non-empty pattern (the branch of an empty pattern, which
inserts at every rune, is not reached by the modelled code: there this definition returns `s`
with `new` before every byte). -/
def stringsReplaceAll (s old new : Bytes) : Bytes :=
  replaceFrom old new 0 s

/-- The SHIP data message built in `transformSpineDataIntoShipJson`. -/
def shipMessageEnvelope (deps : Deps) : ShipData :=
  { Data :=
      { Header := { ProtocolId := deps.ShipProtocolId }
        Payload := some payloadPlaceholder } }

/-- The pattern replaced in `transformSpineDataIntoShipJson`: the placeholder in brackets. -/
def bracketedPlaceholder : Bytes := [91] ++ payloadPlaceholder ++ [93]

/-- The method `transformSpineDataIntoShipJson`. -/
def transformSpineDataIntoShipJson (deps : Deps) (data : Bytes) : Except ShipError Bytes :=
  match deps.JsonIntoEEBUSJson data with
  | .error err => .error err
  | .ok spineMsg =>
    match deps.jsonMarshal (.shipData (shipMessageEnvelope deps)) with
    | .error err => .error err
    | .ok msg =>
      match deps.JsonIntoEEBUSJson msg with
      | .error err => .error err
      | .ok eebusMsg => .ok (stringsReplaceAll eebusMsg bracketedPlaceholder spineMsg)

/-- The method `sendSpineData`. -/
def sendSpineData (deps : Deps) (data : Bytes) (c : ShipConnection) : Run (Option ShipError) :=
  match transformSpineDataIntoShipJson deps data with
  | .error err => .done c (some err)
  | .ok eebusMsg =>
    if c.DataHandler.IsDataConnectionClosed then
      (CloseConnection deps false "" c).bind fun c1 _ => .done c1 (some .connectionIsClosed)
    else
      match WriteMessageToDataConnection (MsgTypeData :: eebusMsg) c with
      | (c1, some err) => .done c1 (some err)
      | (c1, none) => .done c1 none

/-! ## Sample values -/

/-- A transport that accepts every write and is open. -/
def openTransport : ShipDataConnection :=
  { WriteMessageToDataConnection := fun _ => none
    IsDataConnectionClosed := false }

/-- A transport that reports the data connection as closed. -/
def closedTransport : ShipDataConnection :=
  { WriteMessageToDataConnection := fun _ => some (.external "use of closed connection")
    IsDataConnectionClosed := true }

/-- The bytes of an ASCII text. -/
def ascii (s : String) : Bytes := s.data.map Char.toNat

/-- A sample of `json.Marshal` on the two SHIP models (texts without escapes). -/
def sampleMarshal : ShipModel → Except ShipError Bytes
  | .connectionClose m =>
    .ok (ascii "\x7b\"connectionClose\":\x7b\"phase\":\""
      ++ (match m.ConnectionClose.Phase with
          | .ConnectionClosePhaseTypeAnnounce => ascii "announce"
          | .ConnectionClosePhaseTypeConfirm => ascii "confirm")
      ++ ascii "\""
      ++ (match m.ConnectionClose.Reason with
          | some reason => ascii ",\"reason\":\"" ++ ascii reason ++ ascii "\""
          | none => [])
      ++ ascii "\x7d\x7d")
  | .shipData m =>
    .ok (ascii "\x7b\"data\":\x7b\"header\":\x7b\"protocolId\":\""
      ++ ascii m.Data.Header.ProtocolId
      ++ ascii "\"\x7d,\"payload\":"
      ++ m.Data.Payload.getD (ascii "null")
      ++ ascii "\x7d\x7d")

/-- A sample of `JsonIntoEEBUSJson` for JSON objects whose strings hold no brace and no comma:
every object becomes an array of one-member objects. -/
def sampleIntoEEBUS (text : Bytes) : Except ShipError Bytes :=
  if text.head? = some 123 ∧ text.getLast? = some 125 then
    let wrapped :=
      stringsReplaceAll
        (stringsReplaceAll (stringsReplaceAll text [123] [91, 123]) [125] [125, 93])
        [44] [125, 44, 123]
    .ok (wrapped.drop 1).dropLast
  else
    .error (.external "invalid JSON")

/-- A sample of `JsonFromEEBUSJson`: arrays of one-member objects become objects again. -/
def sampleFromEEBUS (text : Bytes) : Bytes :=
  stringsReplaceAll
    (stringsReplaceAll (stringsReplaceAll text [91, 123] [123]) [125, 44, 123] [44])
    [125, 93] [125]

/-- A sample of `json.Unmarshal` into a `ShipData`: it reads the texts `sampleMarshal` writes
for a SHIP data message of protocol "ee1.0", reads an empty object as a message without payload,
and rejects every other text. -/
def sampleUnmarshal (text : Bytes) : Except ShipError ShipData :=
  let opening := ascii "\x7b\"data\":\x7b\"header\":\x7b\"protocolId\":\"ee1.0\"\x7d,\"payload\":"
  let closing := ascii "\x7d\x7d"
  if text = ascii "\x7b\x7d" then
    .ok { Data := { Header := { ProtocolId := "" }, Payload := none } }
  else if opening.isPrefixOf text ∧ closing.isSuffixOf (text.drop opening.length) then
    .ok { Data :=
            { Header := { ProtocolId := "ee1.0" }
              Payload := some ((text.drop opening.length).take
                (text.length - opening.length - closing.length)) } }
  else
    .error (.external "invalid JSON")

/-- Sample values for what is not under src/. -/
def sampleDeps : Deps :=
  { ShipProtocolId := "ee1.0"
    cmiTimeout := 10
    jsonMarshal := sampleMarshal
    jsonUnmarshalShipData := sampleUnmarshal
    JsonIntoEEBUSJson := sampleIntoEEBUS
    JsonFromEEBUSJson := sampleFromEEBUS }

/-- A sample connection in its initial state: `NewConnectionHandler` sets `smeState` to
`cmiStateInitStart` and leaves the timer fields and the once at their zero values. -/
def newConnection (role : shipRole) (dataHandler : ShipDataConnection) : ShipConnection :=
  { role := role
    RemoteSKI := "ski"
    DataHandler := dataHandler
    smeState := .cmiStateInitStart
    handshakeTimerRunning := false
    handshakeTimerType := .timeoutTimerTypeWaitForReady
    spineDataProcessing := false
    shutdownOnce := .idle
    trace := [] }

/-- The frames written to the data connection among a list of calls. -/
def framesWritten : List Event → List Bytes
  | [] => []
  | .WriteMessageToDataConnection message :: rest => message :: framesWritten rest
  | _ :: rest => framesWritten rest

/-- The connection a call ends with, however it ends. -/
def Run.conn {α : Type} : Run α → ShipConnection
  | .done c _ => c
  | .panicked c => c
  | .deadlocked c => c

/-- The connection after the shutdown actions of an unsafe close. -/
def afterUnsafeClose (c : ShipConnection) : ShipConnection :=
  { c with
    handshakeTimerRunning := false
    shutdownOnce := .done
    trace := c.trace ++ [.stopHandshakeTimer, .RemoveRemoteDeviceConnection c.RemoteSKI,
      .CloseDataConnection, .HandleConnectionClosed (decide (c.smeState = .smeComplete))] }

/-- The connection after the timer stop and the removal that open every first close. -/
def afterCloseStart (c : ShipConnection) : ShipConnection :=
  { c with
    handshakeTimerRunning := false
    shutdownOnce := .running
    trace := c.trace ++ [.stopHandshakeTimer, .RemoveRemoteDeviceConnection c.RemoteSKI] }

/-- A connection in state `Complete` whose transport is open. -/
def completeConnection : ShipConnection :=
  { newConnection .ShipRoleClient openTransport with smeState := .smeComplete }

/-- A connection in state `Complete` whose transport reports the data connection as closed. -/
def completeClosedConnection : ShipConnection :=
  { newConnection .ShipRoleClient closedTransport with smeState := .smeComplete }

/-- The sample SPINE message, which itself holds the placeholder text. -/
def sampleSpineMessage : Bytes :=
  ascii "\x7b\"datagram\":\x7b\"payload\":\x7b\"place\":\"holder\"\x7d\x7d\x7d"

/-- The EEBUS text of the sample SPINE message under the sample codec. -/
def sampleSpineEEBUS : Bytes :=
  ascii "\x7b\"datagram\":[\x7b\"payload\":[\x7b\"place\":\"holder\"\x7d]\x7d]\x7d"

/-- The part of the sample envelope before the bracketed placeholder. -/
def sampleEnvelopeStart : Bytes :=
  ascii "\x7b\"data\":[\x7b\"header\":[\x7b\"protocolId\":\"ee1.0\"\x7d]\x7d,\x7b\"payload\":"

/-- The part of the sample envelope after the bracketed placeholder. -/
def sampleEnvelopeEnd : Bytes :=
  ascii "\x7d]\x7d"

/-- The DATA frame that carries the sample SPINE message in the sample envelope. -/
def sampleDataFrame : Bytes :=
  MsgTypeData :: (sampleEnvelopeStart ++ sampleSpineEEBUS ++ sampleEnvelopeEnd)

/-- A connection in state `Complete` whose SPINE reader is set. -/
def readingConnection : ShipConnection :=
  { completeConnection with spineDataProcessing := true }

end Ship

/-!
# SPINE model and remote device tree of eebus-go: embedding

The definitions follow `spine/feature_remote.go`, `spine/device_remote.go`,
`spine/nodemanagement_destinationlist.go` and `spine/model/measurement_updater.go`.  Go
pointers to optional values are `Option`s, a nil slice is `none`, and a call that panics (nil
dereference) has no result.
-/

namespace Spine

open Ship (Bytes)

/-! ## Maximum response delay of a remote feature -/

/-- What the code uses of the package `github.com/rickb777/date/period`: the type `Period`,
`Parse`, which returns a period together with an optional error, and `DurationApprox`, which
gives a period as a `time.Duration` (nanoseconds).  It is a parameter of the model. -/
structure PeriodPackage where
  Period : Type
  Parse : String → Period × Option String
  DurationApprox : Period → Int

/-- The constant `defaultMaxResponseDelay`: ten seconds, in nanoseconds. -/
def defaultMaxResponseDelay : Int := 1000000000 * 10

/-- Modelled from the spec: `model.EntityAddressType`, the device address and the entity path
(§3); the path is a slice and may be nil. -/
structure EntityAddressType where
  Device : Option String
  Entity : Option (List Nat)
  deriving DecidableEq, Repr

/-- Modelled from the spec: `model.FeatureAddressType`, an entity address and a feature
index (§3). -/
structure FeatureAddressType where
  Device : Option String
  Entity : Option (List Nat)
  Feature : Option Nat
  deriving DecidableEq, Repr

/-- Modelled from the spec: `model.PossibleOperationsType`; `Read` and `Write` are pointers
whose targets the code does not inspect. -/
structure PossibleOperationsType where
  Read : Option Unit
  Write : Option Unit
  deriving DecidableEq, Repr

/-- Modelled from the spec: `model.FunctionPropertyType`, an entry of the supported functions of
a feature description. -/
structure FunctionPropertyType where
  Function : Option String
  PossibleOperations : Option PossibleOperationsType
  deriving DecidableEq, Repr

/-- Modelled from the spec: `Operations`, the read and write flags of a function (§3). -/
structure Operations where
  Read : Bool
  Write : Bool
  deriving DecidableEq, Repr

/-- Modelled from the spec: `NewOperations` (not under src/) stores the two flags. -/
def NewOperations (read write : Bool) : Operations :=
  { Read := read, Write := write }

/-- The fields of `FeatureRemoteImpl` (and of the embedded `FeatureImpl`) the modelled code
reads or writes.  The map `operations` is a list of entries with distinct keys; the
back-pointer to the entity is left out. -/
structure FeatureRemoteImpl where
  address : FeatureAddressType
  ftype : String
  role : String
  description : Option String
  operations : List (String × Operations)
  maxResponseDelay : Option Int
  deriving DecidableEq, Repr

/-- A Go map assignment `m[key] = value` on a map kept as a list of entries. -/
def mapSet {β : Type} (m : List (String × β)) (key : String) (value : β) : List (String × β) :=
  match m with
  | [] => [(key, value)]
  | (k, v) :: rest => if k = key then (key, value) :: rest else (k, v) :: mapSet rest key value

/-- A Go map lookup `m[key]` on a map kept as a list of entries. -/
def mapGet {β : Type} (m : List (String × β)) (key : String) : Option β :=
  match m with
  | [] => none
  | (k, v) :: rest => if k = key then some v else mapGet rest key

/-- Modelled from the spec: `featureAddressType` (not under src/) builds the feature address
from the feature index and the address of the entity (§4.3). -/
def featureAddressType (id : Nat) (entityAddress : EntityAddressType) : FeatureAddressType :=
  { Device := entityAddress.Device, Entity := entityAddress.Entity, Feature := some id }

/-- The function `NewFeatureRemoteImpl`, given the address of the entity.  The function data
map is not modelled. -/
def NewFeatureRemoteImpl (id : Nat) (entityAddress : EntityAddressType) (ftype role : String) :
    FeatureRemoteImpl :=
  { address := featureAddressType id entityAddress
    ftype := ftype
    role := role
    description := none
    operations := []
    maxResponseDelay := none }

/-- Modelled from the spec: `SetDescription` of `FeatureImpl` (not under src/) stores the
optional description. -/
def FeatureRemoteImpl.SetDescription (r : FeatureRemoteImpl) (d : Option String) :
    FeatureRemoteImpl :=
  { r with description := d }

/-- The loop of `SetOperations`; `none` when `*sf.Function` or `sf.PossibleOperations.Read`
dereferences nil. -/
def setOperationsLoop (operations : List (String × Operations)) :
    List FunctionPropertyType → Option (List (String × Operations))
  | [] => some operations
  | sf :: rest =>
    match sf.Function, sf.PossibleOperations with
    | some function, some possible =>
      setOperationsLoop
        (mapSet operations function (NewOperations possible.Read.isSome possible.Write.isSome))
        rest
    | _, _ => none

/-- The method `SetOperations`; `none` when it panics.  The map is replaced before the loop, so
a panic leaves the entries written so far; that state is not returned here. -/
def FeatureRemoteImpl.SetOperations (r : FeatureRemoteImpl)
    (functions : List FunctionPropertyType) : Option FeatureRemoteImpl :=
  match setOperationsLoop [] functions with
  | some operations => some { r with operations := operations }
  | none => none

/-- The method `SetMaxResponseDelay`. -/
def FeatureRemoteImpl.SetMaxResponseDelay (period : PeriodPackage) (r : FeatureRemoteImpl)
    (delay : Option String) : FeatureRemoteImpl :=
  match delay with
  | none => r
  | some text =>
    match period.Parse text with
    | (p, some _) => { r with maxResponseDelay := some (period.DurationApprox p) }
    | (_, none) => r

/-- The method `MaxResponseDelayDuration`. -/
def FeatureRemoteImpl.MaxResponseDelayDuration (r : FeatureRemoteImpl) : Int :=
  match r.maxResponseDelay with
  | some delay => delay
  | none => defaultMaxResponseDelay

/-- A sample of the period package: periods are nanoseconds; the texts "PT0.1S", "PT4S" and
"PT10S" are read, every other text gives the zero period and an error. -/
def samplePeriod : PeriodPackage :=
  { Period := Int
    Parse := fun text =>
      if text = "PT0.1S" then (100000000, none)
      else if text = "PT4S" then (4000000000, none)
      else if text = "PT10S" then (10000000000, none)
      else (0, some "period: cannot parse")
    DurationApprox := fun p => p }

/-- A sample remote feature, as `NewFeatureRemoteImpl` builds it for feature 1 of entity [1]. -/
def sampleFeature : FeatureRemoteImpl :=
  NewFeatureRemoteImpl 1 { Device := some "Address", Entity := some [1] }
    "DeviceClassification" "server"

/-! ## Measurement list data and its updater -/

/-- Modelled from the spec: `model.MeasurementDataType` with the fields the code under src/
names.  All fields are pointers; the value is a number as in the spec's examples and the
other payloads are texts. -/
structure MeasurementDataType where
  MeasurementId : Option Nat
  ValueType : Option String
  Timestamp : Option String
  Value : Option Int
  EvaluationPeriod : Option String
  ValueTendency : Option String
  ValueState : Option String
  deriving DecidableEq, Repr

/-- Modelled from the spec: `model.MeasurementListDataType`. -/
structure MeasurementListDataType where
  MeasurementData : List MeasurementDataType
  deriving DecidableEq, Repr

/-- Modelled from the spec: `model.MeasurementListDataSelectorsType` with the two fields
`SelectorMatch` reads. -/
structure MeasurementListDataSelectorsType where
  MeasurementId : Option Nat
  ValueType : Option String
  deriving DecidableEq, Repr

/-- Modelled from the spec: `model.FilterType`, of which the updater reads the selectors of
the measurement list. -/
structure FilterType where
  MeasurementListDataSelectors : Option MeasurementListDataSelectorsType
  deriving DecidableEq, Repr

/-- Modelled from the spec: `model.FilterEnumType`, the two kinds of filter (§4.5). -/
inductive FilterEnumType where
  | FilterEnumTypePartial
  | FilterEnumTypeDelete
  deriving DecidableEq, Repr

/-- Modelled from the spec: `model.FilterProvider`, the partial and the delete filter of an
update. -/
structure FilterProvider where
  filterPartial : Option FilterType
  filterDelete : Option FilterType
  deriving DecidableEq, Repr

/-- Modelled from the spec: `FilterForEnumType` (not under src/) gives the filter of the
asked kind. -/
def FilterProvider.FilterForEnumType (r : FilterProvider) : FilterEnumType → Option FilterType
  | .FilterEnumTypePartial => r.filterPartial
  | .FilterEnumTypeDelete => r.filterDelete

/-- The type `MeasurementListDataType_Updater`. -/
structure MeasurementListDataType_Updater where
  MeasurementListDataType : MeasurementListDataType
  FilterProvider : FilterProvider
  newData : List MeasurementDataType
  deriving DecidableEq, Repr

/-- The method `NewUpdater`. -/
def MeasurementListDataType.NewUpdater (r : MeasurementListDataType)
    (newList : MeasurementListDataType) (filterPartial filterDelete : Option FilterType) :
    MeasurementListDataType_Updater :=
  { MeasurementListDataType := r
    newData := newList.MeasurementData
    FilterProvider := { filterPartial := filterPartial, filterDelete := filterDelete } }

/-- Go's `fmt.Sprintf("%d", n)` for an unsigned `n`: the decimal digits, as ASCII bytes. -/
def sprintfDecimal (n : Nat) : Bytes :=
  if n = 0 then [48] else (Nat.digits 10 n).reverse.map (fun d => d + 48)

/-- The function `measurementDataHashKey`; `none` when the id is nil and `*measurementId`
panics. -/
def measurementDataHashKey (measurementId : Option Nat) : Option Bytes :=
  match measurementId with
  | some id => some (sprintfDecimal id)
  | none => none

/-- The method `HashKey` of `MeasurementDataType`. -/
def MeasurementDataType.HashKey (r : MeasurementDataType) : Option Bytes :=
  measurementDataHashKey r.MeasurementId

/-- The method `HasSelector`. -/
def MeasurementListDataType_Updater.HasSelector (r : MeasurementListDataType_Updater)
    (filterType : FilterEnumType) : Bool :=
  match r.FilterProvider.FilterForEnumType filterType with
  | some filter => filter.MeasurementListDataSelectors.isSome
  | none => false

/-- The comparison `selector.Field != nil && *selector.Field != *item.Field` of
`SelectorMatch`; `none` when the field is set in the selector and nil in the item, so that
`*item.Field` panics. -/
def selectorFieldDiffers {α : Type} [DecidableEq α] (selector item : Option α) : Option Bool :=
  match selector, item with
  | none, _ => some false
  | some _, none => none
  | some wanted, some found => some (decide (wanted ≠ found))

/-- The method `SelectorMatch`; `none` when it panics. -/
def MeasurementListDataType_Updater.SelectorMatch (r : MeasurementListDataType_Updater)
    (filterType : FilterEnumType) (item : Option MeasurementDataType) : Option Bool :=
  match item, r.FilterProvider.FilterForEnumType filterType with
  | none, _ => some false
  | _, none => some false
  | some item, some filter =>
    match filter.MeasurementListDataSelectors with
    | none => some false
    | some selector =>
      match selectorFieldDiffers selector.MeasurementId item.MeasurementId with
      | none => none
      | some true => some false
      | some false =>
        match selectorFieldDiffers selector.ValueType item.ValueType with
        | none => none
        | some true => some false
        | some false => some true

/-- The method `HasIdentifier` (on a non-nil item). -/
def MeasurementListDataType_Updater.HasIdentifier (_r : MeasurementListDataType_Updater)
    (item : MeasurementDataType) : Bool :=
  item.MeasurementId.isSome

/-- The method `CopyData`: the destination after the call. -/
def MeasurementListDataType_Updater.CopyData (_r : MeasurementListDataType_Updater)
    (source dest : Option MeasurementDataType) : Option MeasurementDataType :=
  match source, dest with
  | some source, some dest =>
    some { dest with
      Timestamp := source.Timestamp
      EvaluationPeriod := source.EvaluationPeriod
      ValueState := source.ValueState
      Value := source.Value
      ValueTendency := source.ValueTendency }
  | _, _ => dest

/-- An updater without filters, for the samples. -/
def plainUpdater : MeasurementListDataType_Updater :=
  MeasurementListDataType.NewUpdater { MeasurementData := [] } { MeasurementData := [] }
    none none

/-- A measurement element that holds only an id and a value. -/
def measurement (id : Nat) (value : Int) : MeasurementDataType :=
  { MeasurementId := some id
    ValueType := none
    Timestamp := none
    Value := some value
    EvaluationPeriod := none
    ValueTendency := none
    ValueState := none }

/-- Modelled from the spec: the interface `UpdateDataProvider` that `UpdateList` is given; the
updater under src/ implements its four methods. -/
structure UpdateDataProvider (T : Type) where
  HasSelector : FilterEnumType → Bool
  SelectorMatch : FilterEnumType → Option T → Option Bool
  HasIdentifier : T → Bool
  CopyData : Option T → Option T → Option T

/-- The updater as the data provider it hands to `UpdateList` in `DoUpdate`. -/
def MeasurementListDataType_Updater.provider (r : MeasurementListDataType_Updater) :
    UpdateDataProvider MeasurementDataType :=
  { HasSelector := r.HasSelector
    SelectorMatch := r.SelectorMatch
    HasIdentifier := r.HasIdentifier
    CopyData := r.CopyData }

/-- Modelled from the spec: the natural key of a list element (§4.5), its `HashKey`; an element
without identifier has no natural key. -/
def naturalKey {T : Type} (hashKey : T → Option Bytes) (p : UpdateDataProvider T) (x : T) :
    Option Bytes :=
  if p.HasIdentifier x then hashKey x else none

/-- Modelled from the spec: the error kind `MissingIdentifier`, of a list element without
natural key (§4.5, §7). -/
inductive UpdateError where
  | MissingIdentifier
  deriving DecidableEq, Repr

/-- Modelled from the spec: the field-wise overwrite of §4.5 step 2 on a measurement element:
every field that is present in the incoming element replaces the field of the current element,
and every field that is absent in the incoming element leaves it as it is. -/
def MeasurementDataType.overwritePresent (incoming current : MeasurementDataType) :
    MeasurementDataType :=
  { MeasurementId := incoming.MeasurementId.or current.MeasurementId
    ValueType := incoming.ValueType.or current.ValueType
    Timestamp := incoming.Timestamp.or current.Timestamp
    Value := incoming.Value.or current.Value
    EvaluationPeriod := incoming.EvaluationPeriod.or current.EvaluationPeriod
    ValueTendency := incoming.ValueTendency.or current.ValueTendency
    ValueState := incoming.ValueState.or current.ValueState }

/-- Modelled from the spec: the overwrite of one current element by an incoming one (§4.5
step 2), field-wise and only of the fields present in the incoming element; with a partial
filter that has selectors only the current elements the filter selects are patched (step 4).
`none` when `SelectorMatch` panics. -/
def patchSelected {T : Type} (overwrite : T → T → T) (p : UpdateDataProvider T)
    (incoming current : T) : Option T :=
  if p.HasSelector .FilterEnumTypePartial then
    match p.SelectorMatch .FilterEnumTypePartial (some current) with
    | none => none
    | some true => some (overwrite incoming current)
    | some false => some current
  else
    some (overwrite incoming current)

/-- Modelled from the spec: an incoming element with key `k` overwrites the current elements
whose key matches (§4.5 step 2). -/
def patchCurrent {T : Type} (key : T → Option Bytes) (overwrite : T → T → T)
    (p : UpdateDataProvider T) (incoming : T) (k : Bytes) : List T → Option (List T)
  | [] => some []
  | x :: rest =>
    match (if key x = some k then patchSelected overwrite p incoming x else some x),
        patchCurrent key overwrite p incoming k rest with
    | some x1, some rest1 => some (x1 :: rest1)
    | _, _ => none

/-- Modelled from the spec: §4.5 steps 1 and 2, for every incoming element in order: an
element without natural key is rejected with `MissingIdentifier`; an element whose key is in
the index of the current list overwrites the current elements of that key; any other element
is appended, and is a current element from then on (the index is that of the list as it
stands).  The state is the current list and the errors so far. -/
def mergeIncoming {T : Type} (key : T → Option Bytes) (overwrite : T → T → T)
    (p : UpdateDataProvider T) :
    List T → List T × List UpdateError → Option (List T × List UpdateError)
  | [], state => some state
  | y :: rest, (current, errors) =>
    match key y with
    | none => mergeIncoming key overwrite p rest (current, errors ++ [.MissingIdentifier])
    | some k =>
      if k ∈ current.filterMap key then
        match patchCurrent key overwrite p y k current with
        | none => none
        | some current1 => mergeIncoming key overwrite p rest (current1, errors)
      else
        mergeIncoming key overwrite p rest (current ++ [y], errors)

/-- Modelled from the spec: §4.5 step 3, every current element that the delete filter selects is
removed.  `none` when `SelectorMatch` panics. -/
def removeSelected {T : Type} (p : UpdateDataProvider T) : List T → Option (List T)
  | [] => some []
  | x :: rest =>
    match p.SelectorMatch .FilterEnumTypeDelete (some x), removeSelected p rest with
    | some true, some rest1 => some rest1
    | some false, some rest1 => some (x :: rest1)
    | _, _ => none

/-- Modelled from the spec: `UpdateList` (not under src/), the list merge algorithm of §4.5,
given the field-wise overwrite of the element type.  Steps 1 and 2 are `mergeIncoming`;
step 3 applies the delete filter, when it has selectors, to the elements of the list after
step 2; step 4 is the restriction in `patchSelected`.  The result is the merged list and the
errors of the rejected elements, which the caller gets or logs (§7); `none` when a method of
the provider panics.  The overwrite is the field-wise one of step 2 and not the provider's
`CopyData`, which copies five fields whether they are present in the incoming element or not;
the two agree on an incoming element that has those five fields. -/
def UpdateList {T : Type} (hashKey : T → Option Bytes) (overwrite : T → T → T)
    (existingData newData : List T) (p : UpdateDataProvider T) :
    Option (List T × List UpdateError) :=
  match mergeIncoming (naturalKey hashKey p) overwrite p newData (existingData, []) with
  | none => none
  | some (merged, errors) =>
    if p.HasSelector .FilterEnumTypeDelete then
      match removeSelected p merged with
      | none => none
      | some kept => some (kept, errors)
    else
      some (merged, errors)

/-- The method `DoUpdate`: the updater after the call and the errors of the rejected
elements; `none` when the update panics. -/
def MeasurementListDataType_Updater.DoUpdate (r : MeasurementListDataType_Updater) :
    Option (MeasurementListDataType_Updater × List UpdateError) :=
  match UpdateList MeasurementDataType.HashKey MeasurementDataType.overwritePresent
      r.MeasurementListDataType.MeasurementData r.newData r.provider with
  | some (merged, errors) =>
    some ({ r with MeasurementListDataType := { MeasurementData := merged } }, errors)
  | none => none

/-- The measurement list after the update of the list `current` with the list `incoming` and
the given filters (`NewUpdater`, then `DoUpdate`), and the errors of the rejected elements. -/
def measurementListUpdate (current incoming : List MeasurementDataType)
    (filterPartial filterDelete : Option FilterType) :
    Option (List MeasurementDataType × List UpdateError) :=
  match (MeasurementListDataType.NewUpdater { MeasurementData := current }
      { MeasurementData := incoming } filterPartial filterDelete).DoUpdate with
  | some (r, errors) => some (r.MeasurementListDataType.MeasurementData, errors)
  | none => none

/-- The overwrite of a current element `x` by an incoming element `y` when `y` carries the
measurementId of `x`: the fields present in `y` replace those of `x`. -/
def overwriteWith (y x : MeasurementDataType) : MeasurementDataType :=
  if y.MeasurementId.isSome ∧ x.MeasurementId = y.MeasurementId then y.overwritePresent x
  else x

/-- The overwrite of a current element by every incoming element that carries its
measurementId, in the order of the incoming list. -/
def overwriteById (incoming : List MeasurementDataType) (x : MeasurementDataType) :
    MeasurementDataType :=
  incoming.foldl (fun x y => overwriteWith y x) x

/-- The elements that the update without filters appends: for every measurementId of the
incoming list that is not known, at its first appearance, the element that carries it,
overwritten by the later incoming elements of the same measurementId. -/
def appendedNew (known : List (Option Nat)) : List MeasurementDataType →
    List MeasurementDataType
  | [] => []
  | y :: rest =>
    match y.MeasurementId with
    | none => appendedNew known rest
    | some id =>
      if some id ∈ known then appendedNew known rest
      else overwriteById rest y :: appendedNew (known ++ [some id]) rest

/-- The errors of an update: `MissingIdentifier` for every incoming element without
measurementId. -/
def rejectedErrors (incoming : List MeasurementDataType) : List UpdateError :=
  (incoming.filter (fun y => y.MeasurementId.isNone)).map (fun _ => .MissingIdentifier)

/-- The measurement element in which no field is present. -/
def noMeasurement : MeasurementDataType :=
  { MeasurementId := none
    ValueType := none
    Timestamp := none
    Value := none
    EvaluationPeriod := none
    ValueTendency := none
    ValueState := none }

/-- The elements of a list that carry the measurementId `id`, laid over one another in the
order of the list: a field is that of the last such element in which it is present. -/
def combined (id : Nat) : List MeasurementDataType → MeasurementDataType
  | [] => noMeasurement
  | y :: rest =>
    (combined id rest).overwritePresent (if y.MeasurementId = some id then y else noMeasurement)

/-- A delete filter whose selector names one measurementId. -/
def deleteMeasurementId (id : Nat) : FilterType :=
  { MeasurementListDataSelectors := some { MeasurementId := some id, ValueType := none } }

/-! ## The remote device tree -/

/-- Modelled from the spec: the entity type DeviceInformation of `spine/model` (§3). -/
def EntityTypeTypeDeviceInformation : String := "DeviceInformation"

/-- Modelled from the spec: the entity type EVSE of `spine/model` (§8, S4). -/
def EntityTypeTypeEVSE : String := "EVSE"

/-- Modelled from the spec: the feature type NodeManagement of `spine/model` (§3). -/
def FeatureTypeTypeNodeManagement : String := "NodeManagement"

/-- Modelled from the spec: the role special of `spine/model` (§3). -/
def RoleTypeSpecial : String := "special"

/-- Modelled from the spec: `DeviceInformationEntityId`, the index of the device-information
entity (§3, entity 0). -/
def DeviceInformationEntityId : Nat := 0

/-- Modelled from the spec: `EntityRemoteImpl` (not under src/): the entity type, the address,
the optional description, the ordered features and the next-feature-id counter (§3).  The
back-pointer to the device is left out. -/
structure EntityRemoteImpl where
  eType : String
  address : EntityAddressType
  description : Option String
  features : List FeatureRemoteImpl
  fIdGenerator : Nat
  deriving DecidableEq, Repr

/-- Modelled from the spec: `NewEntityRemoteImpl` (not under src/) builds an entity of the given
type and entity path on the device, without features (§3). -/
def NewEntityRemoteImpl (deviceAddress : Option String) (eType : String)
    (entityAddress : Option (List Nat)) : EntityRemoteImpl :=
  { eType := eType
    address := { Device := deviceAddress, Entity := entityAddress }
    description := none
    features := []
    fIdGenerator := 0 }

/-- Modelled from the spec: `NextFeatureId` (not under src/) gives the entity's counter and
advances it (§3, invariant 2). -/
def EntityRemoteImpl.NextFeatureId (e : EntityRemoteImpl) : Nat × EntityRemoteImpl :=
  (e.fIdGenerator, { e with fIdGenerator := e.fIdGenerator + 1 })

/-- Modelled from the spec: `AddFeature` (not under src/) appends a feature to the ordered
features of the entity (§3). -/
def EntityRemoteImpl.AddFeature (e : EntityRemoteImpl) (f : FeatureRemoteImpl) :
    EntityRemoteImpl :=
  { e with features := e.features ++ [f] }

/-- Modelled from the spec: `RemoveAllFeatures` (not under src/) drops all features of the
entity; the counter is kept (§3). -/
def EntityRemoteImpl.RemoveAllFeatures (e : EntityRemoteImpl) : EntityRemoteImpl :=
  { e with features := [] }

/-- Modelled from the spec: `SetDescription` of the entity (not under src/) stores the optional
description. -/
def EntityRemoteImpl.SetDescription (e : EntityRemoteImpl) (d : Option String) :
    EntityRemoteImpl :=
  { e with description := d }

/-- The fields of `DeviceRemoteImpl` (and of the embedded `DeviceImpl`) the modelled code reads
or writes.  Entities are held by value; a pointer to an entity is its position in
`entities`. -/
structure DeviceRemoteImpl where
  address : Option String
  ski : String
  entities : List EntityRemoteImpl
  deriving DecidableEq, Repr

/-- The method `Entity`: the first entity whose entity path is deeply equal to `id`. -/
def DeviceRemoteImpl.Entity (d : DeviceRemoteImpl) (id : Option (List Nat)) :
    Option EntityRemoteImpl :=
  d.entities.find? (fun e => decide (e.address.Entity = id))

/-- The method `addEntity`: the device and the position of the added entity. -/
def DeviceRemoteImpl.addEntity (d : DeviceRemoteImpl) (entity : EntityRemoteImpl) :
    DeviceRemoteImpl × Nat :=
  ({ d with entities := d.entities ++ [entity] }, d.entities.length)

/-- The method `addNewEntity`. -/
def DeviceRemoteImpl.addNewEntity (d : DeviceRemoteImpl) (eType : String)
    (address : Option (List Nat)) : DeviceRemoteImpl × Nat :=
  d.addEntity (NewEntityRemoteImpl d.address eType address)

/-- A write through a pointer to an entity: the entity at the position is replaced. -/
def DeviceRemoteImpl.setEntity (d : DeviceRemoteImpl) (position : Nat)
    (entity : EntityRemoteImpl) : DeviceRemoteImpl :=
  { d with entities := d.entities.set position entity }

/-- The method `addNodeManagement`. -/
def DeviceRemoteImpl.addNodeManagement (d : DeviceRemoteImpl) : DeviceRemoteImpl :=
  match d.addNewEntity EntityTypeTypeDeviceInformation (some [DeviceInformationEntityId]) with
  | (d1, position) =>
    match d1.entities[position]? with
    | none => d1
    | some deviceInformation =>
      match deviceInformation.NextFeatureId with
      | (id, deviceInformation1) =>
        d1.setEntity position
          (deviceInformation1.AddFeature
            (NewFeatureRemoteImpl id deviceInformation1.address FeatureTypeTypeNodeManagement
              RoleTypeSpecial))

/-- The function `NewDeviceRemoteImpl`; the sender and the heartbeat sender are not
modelled. -/
def NewDeviceRemoteImpl (ski : String) : DeviceRemoteImpl :=
  DeviceRemoteImpl.addNodeManagement { address := none, ski := ski, entities := [] }

/-- The method `RemoveByAddress`: the device after the call and the removed entity. -/
def DeviceRemoteImpl.RemoveByAddress (d : DeviceRemoteImpl) (addr : Option (List Nat)) :
    DeviceRemoteImpl × Option EntityRemoteImpl :=
  match d.Entity addr with
  | none => (d, none)
  | some entityForRemoval =>
    ({ d with entities := d.entities.filter (fun item => decide (item ≠ entityForRemoval)) },
      some entityForRemoval)

/-- Modelled from the spec: `model.NetworkManagementEntityDescriptionDataType`, the description
of an entity in a detailed-discovery reply. -/
structure NetworkManagementEntityDescriptionDataType where
  EntityAddress : Option EntityAddressType
  EntityType : Option String
  Description : Option String
  deriving DecidableEq, Repr

/-- Modelled from the spec: `model.NodeManagementDetailedDiscoveryEntityInformationType`. -/
structure NodeManagementDetailedDiscoveryEntityInformationType where
  Description : Option NetworkManagementEntityDescriptionDataType
  deriving DecidableEq, Repr

/-- Modelled from the spec: `model.NetworkManagementFeatureDescriptionDataType`, the
description of a feature in a detailed-discovery reply. -/
structure NetworkManagementFeatureDescriptionDataType where
  FeatureAddress : Option FeatureAddressType
  FeatureType : Option String
  Role : Option String
  Description : Option String
  MaxResponseDelay : Option String
  SupportedFunction : List FunctionPropertyType
  deriving DecidableEq, Repr

/-- Modelled from the spec: `model.NodeManagementDetailedDiscoveryFeatureInformationType`. -/
structure NodeManagementDetailedDiscoveryFeatureInformationType where
  Description : Option NetworkManagementFeatureDescriptionDataType
  deriving DecidableEq, Repr

/-- Modelled from the spec: `model.NodeManagementDetailedDiscoveryDataType`, of which the code
reads the entity and the feature information. -/
structure NodeManagementDetailedDiscoveryDataType where
  EntityInformation : List NodeManagementDetailedDiscoveryEntityInformationType
  FeatureInformation : List NodeManagementDetailedDiscoveryFeatureInformationType
  deriving DecidableEq, Repr

/-- How a call on the device ends: it returns a value, it returns an error, or it panics.
A call that panics has no result. -/
inductive Outcome (α : Type) where
  | ok (d : DeviceRemoteImpl) (ret : α)
  | failed (d : DeviceRemoteImpl) (err : String)
  | panicked
  deriving DecidableEq

/-- The method `CheckEntityInformation`: the error, if any. -/
def DeviceRemoteImpl.CheckEntityInformation (d : DeviceRemoteImpl) (initialData : Bool)
    (entity : NodeManagementDetailedDiscoveryEntityInformationType) : Option String :=
  match entity.Description with
  | none =>
    some "nodemanagement.replyDetailedDiscoveryData: invalid EntityInformation.Description"
  | some description =>
    match description.EntityAddress with
    | none =>
      some ("nodemanagement.replyDetailedDiscoveryData: " ++
        "invalid EntityInformation.Description.EntityAddress")
    | some entityAddress =>
      match entityAddress.Entity with
      | none =>
        some ("nodemanagement.replyDetailedDiscoveryData: " ++
          "invalid EntityInformation.Description.EntityAddress.Entity")
      | some _ =>
        if initialData then none
        else
          match entityAddress.Device, d.address with
          | some device, some address =>
            if device ≠ address then
              some "nodemanagement.replyDetailedDiscoveryData: device address mismatch"
            else none
          | _, _ => none

/-- The function `unmarshalFeature`, given the address of the entity: `none` when it panics
(a nil feature address, feature index, feature type or role, or a panic of `SetOperations`),
`some none` when the description is nil. -/
def unmarshalFeature (period : PeriodPackage) (entityAddress : EntityAddressType)
    (featureData : NodeManagementDetailedDiscoveryFeatureInformationType) :
    Option (Option FeatureRemoteImpl) :=
  match featureData.Description with
  | none => some none
  | some fid =>
    match fid.FeatureAddress with
    | none => none
    | some featureAddress =>
      match featureAddress.Feature, fid.FeatureType, fid.Role with
      | some feature, some featureType, some role =>
        match (((NewFeatureRemoteImpl feature entityAddress featureType role).SetDescription
            fid.Description).SetMaxResponseDelay period fid.MaxResponseDelay).SetOperations
            fid.SupportedFunction with
        | none => none
        | some result => some (some result)
      | _, _, _ => none

/-- The inner loop of `AddEntityAndFeatures` on one entity: every feature information is read
(`fi.Description.FeatureAddress.Entity`, which panics on a nil description or feature address),
and the features of the entity's path are added.  `none` when it panics. -/
def addFeaturesLoop (period : PeriodPackage) (entityAddress : Option (List Nat)) :
    List NodeManagementDetailedDiscoveryFeatureInformationType → EntityRemoteImpl →
      Option EntityRemoteImpl
  | [], entity => some entity
  | fi :: rest, entity =>
    match fi.Description with
    | none => none
    | some fid =>
      match fid.FeatureAddress with
      | none => none
      | some featureAddress =>
        if featureAddress.Entity = entityAddress then
          match unmarshalFeature period entity.address fi with
          | none => none
          | some none => addFeaturesLoop period entityAddress rest entity
          | some (some f) => addFeaturesLoop period entityAddress rest (entity.AddFeature f)
        else
          addFeaturesLoop period entityAddress rest entity

/-- The position of the first entity whose entity path is deeply equal to `id`: the pointer
that `Entity` returns. -/
def entityPosition (id : Option (List Nat)) : List EntityRemoteImpl → Option Nat
  | [] => none
  | e :: rest =>
    if e.address.Entity = id then some 0
    else
      match entityPosition id rest with
      | some position => some (position + 1)
      | none => none

/-- The body of the outer loop of `AddEntityAndFeatures` for one entity information; the
second component of the state is `rEntites`, the pointers to the entities created so far. -/
def addEntityStep (period : PeriodPackage) (initialData : Bool)
    (featureInformation : List NodeManagementDetailedDiscoveryFeatureInformationType)
    (ei : NodeManagementDetailedDiscoveryEntityInformationType)
    (d : DeviceRemoteImpl) (rEntites : List Nat) : Outcome (List Nat) :=
  match d.CheckEntityInformation initialData ei with
  | some err => .failed d err
  | none =>
    match ei.Description with
    | none => .panicked
    | some description =>
      match description.EntityAddress with
      | none => .panicked
      | some address =>
        match
          (match entityPosition address.Entity d.entities with
            | some position => some (d, position, rEntites)
            | none =>
              match description.EntityType with
              | none => none
              | some entityType =>
                match d.addNewEntity entityType address.Entity with
                | (d1, position) => some (d1, position, rEntites ++ [position])) with
        | none => .panicked
        | some (d1, position, rEntites1) =>
          match d1.entities[position]? with
          | none => .panicked
          | some entity =>
            match addFeaturesLoop period address.Entity featureInformation
                ((entity.SetDescription description.Description).RemoveAllFeatures) with
            | none => .panicked
            | some entity1 => .ok (d1.setEntity position entity1) rEntites1

/-- The outer loop of `AddEntityAndFeatures`. -/
def addEntitiesLoop (period : PeriodPackage) (initialData : Bool)
    (featureInformation : List NodeManagementDetailedDiscoveryFeatureInformationType) :
    List NodeManagementDetailedDiscoveryEntityInformationType → DeviceRemoteImpl → List Nat →
      Outcome (List Nat)
  | [], d, rEntites => .ok d rEntites
  | ei :: rest, d, rEntites =>
    match addEntityStep period initialData featureInformation ei d rEntites with
    | .ok d1 rEntites1 => addEntitiesLoop period initialData featureInformation rest d1 rEntites1
    | .failed d1 err => .failed d1 err
    | .panicked => .panicked

/-- The method `AddEntityAndFeatures`: on success the device and the pointers (positions) to
the entities it created. -/
def DeviceRemoteImpl.AddEntityAndFeatures (period : PeriodPackage) (d : DeviceRemoteImpl)
    (initialData : Bool) (data : NodeManagementDetailedDiscoveryDataType) :
    Outcome (List Nat) :=
  addEntitiesLoop period initialData data.FeatureInformation data.EntityInformation d []

/-- The device has, on its entity of path [0], a feature of type NodeManagement and role
special. -/
def hasNodeManagement (d : DeviceRemoteImpl) : Bool :=
  match d.Entity (some [DeviceInformationEntityId]) with
  | some e =>
    e.features.any (fun f =>
      decide (f.ftype = FeatureTypeTypeNodeManagement ∧ f.role = RoleTypeSpecial))
  | none => false

/-- The entity path an entity information names, `none` when a pointer on the way is nil. -/
def listedAddress (ei : NodeManagementDetailedDiscoveryEntityInformationType) :
    Option (List Nat) :=
  match ei.Description with
  | some description =>
    match description.EntityAddress with
    | some address => address.Entity
    | none => none
  | none => none

/-- The entity path a feature information names, `none` when a pointer on the way is nil. -/
def featureEntityAddress (fi : NodeManagementDetailedDiscoveryFeatureInformationType) :
    Option (List Nat) :=
  match fi.Description with
  | some fid =>
    match fid.FeatureAddress with
    | some address => address.Entity
    | none => none
  | none => none

/-- The feature index a feature information names, `none` when a pointer on the way is nil. -/
def featureIndex (fi : NodeManagementDetailedDiscoveryFeatureInformationType) : Option Nat :=
  match fi.Description with
  | some fid =>
    match fid.FeatureAddress with
    | some address => address.Feature
    | none => none
  | none => none

/-- The features built by `unmarshalFeature` from the feature informations whose description
is present and whose entity path is `entityPath`, in the order of the list. -/
def builtFeatures (period : PeriodPackage) (entityAddress : EntityAddressType)
    (entityPath : Option (List Nat)) :
    List NodeManagementDetailedDiscoveryFeatureInformationType → List FeatureRemoteImpl
  | [] => []
  | fi :: rest =>
    match fi.Description with
    | some fid =>
      if (fid.FeatureAddress.map fun address => address.Entity) = some entityPath then
        match unmarshalFeature period entityAddress fi with
        | some (some f) => f :: builtFeatures period entityAddress entityPath rest
        | _ => builtFeatures period entityAddress entityPath rest
      else builtFeatures period entityAddress entityPath rest
    | none => builtFeatures period entityAddress entityPath rest

/-- The entity paths of a list that are not known, each once, in the order of their first
appearance. -/
def newAddresses (known : List (Option (List Nat))) :
    List (Option (List Nat)) → List (Option (List Nat))
  | [] => []
  | a :: rest =>
    if a ∈ known then newAddresses known rest else a :: newAddresses (known ++ [a]) rest

/-- A sample feature information: feature `index` of entity [1], of the given type, role
client, with a description and one readable function. -/
def sampleFeatureInformation (index : Nat) (featureType function : String) :
    NodeManagementDetailedDiscoveryFeatureInformationType :=
  { Description := some
      { FeatureAddress := some { Device := none, Entity := some [1], Feature := some index }
        FeatureType := some featureType
        Role := some "client"
        Description := some featureType
        MaxResponseDelay := none
        SupportedFunction :=
          [{ Function := some function
             PossibleOperations := some { Read := some (), Write := none } }] } }

/-- A sample entity information: an entity of the given type at the given path. -/
def sampleEntityInformation (entityType : String) (path : List Nat) :
    NodeManagementDetailedDiscoveryEntityInformationType :=
  { Description := some
      { EntityAddress := some { Device := none, Entity := some path }
        EntityType := some entityType
        Description := none } }

/-- The detailed-discovery data of scenario S4: one EVSE entity at [1] with a
DeviceClassification and a Measurement feature. -/
def sampleDiscoveryData : NodeManagementDetailedDiscoveryDataType :=
  { EntityInformation := [sampleEntityInformation EntityTypeTypeEVSE [1]]
    FeatureInformation :=
      [sampleFeatureInformation 1 "DeviceClassification" "deviceClassificationManufacturerData",
        sampleFeatureInformation 2 "Measurement" "measurementListData"] }

/-- The device a call ends with, when it returns a value or an error. -/
def Outcome.device? {α : Type} : Outcome α → Option DeviceRemoteImpl
  | .ok d _ => some d
  | .failed d _ => some d
  | .panicked => none

/-- A detailed-discovery reply that lists the entity of path [0] and no feature. -/
def bareDeviceInformationData : NodeManagementDetailedDiscoveryDataType :=
  { EntityInformation := [sampleEntityInformation EntityTypeTypeDeviceInformation [0]]
    FeatureInformation := [] }

/-- A detailed-discovery reply that names the feature index 1 twice for the entity of
path [1]. -/
def repeatedIndexData : NodeManagementDetailedDiscoveryDataType :=
  { EntityInformation := [sampleEntityInformation EntityTypeTypeEVSE [1]]
    FeatureInformation :=
      [sampleFeatureInformation 1 "DeviceClassification" "deviceClassificationManufacturerData",
        sampleFeatureInformation 1 "Measurement" "measurementListData"] }

/-- The feature indices of an entity. -/
def featureIndices (e : EntityRemoteImpl) : List (Option Nat) :=
  e.features.map (fun f => f.address.Feature)

/-- The feature indices that the feature informations with a description name for the entity
path `entityPath`, in the order of the list. -/
def listedFeatureIndices (entityPath : Option (List Nat)) :
    List NodeManagementDetailedDiscoveryFeatureInformationType → List (Option Nat)
  | [] => []
  | fi :: rest =>
    match fi.Description with
    | some fid =>
      if (fid.FeatureAddress.map fun address => address.Entity) = some entityPath then
        featureIndex fi :: listedFeatureIndices entityPath rest
      else listedFeatureIndices entityPath rest
    | none => listedFeatureIndices entityPath rest

/-! ## The operations map, the function data and incoming messages -/

/-- The last element of the supported functions that names the function `f`. -/
def lastNaming (f : String) : List FunctionPropertyType → Option FunctionPropertyType
  | [] => none
  | sf :: rest =>
    match lastNaming f rest with
    | some found => some found
    | none => if sf.Function = some f then some sf else none

/-- The operations that `SetOperations` stores for an element of the supported functions. -/
def operationsOf (sf : FunctionPropertyType) : Option Operations :=
  sf.PossibleOperations.map fun possible =>
    NewOperations possible.Read.isSome possible.Write.isSome

/-- A function property with the given flags, for the samples. -/
def functionProperty (function : String) (read write : Bool) : FunctionPropertyType :=
  { Function := some function
    PossibleOperations := some
      { Read := if read then some () else none, Write := if write then some () else none } }

/-- Modelled from the spec: `model.DeviceClassificationManufacturerDataType`, the manufacturer
data of a device; three of its optional texts are kept. -/
structure DeviceClassificationManufacturerDataType where
  DeviceName : Option String
  BrandName : Option String
  SerialNumber : Option String
  deriving DecidableEq, Repr

/-- The constant `model.FunctionTypeDeviceClassificationManufacturerData`. -/
def FunctionTypeDeviceClassificationManufacturerData : String :=
  "deviceClassificationManufacturerData"

/-- The constant `model.FunctionTypeMeasurementListData`. -/
def FunctionTypeMeasurementListData : String := "measurementListData"

/-- A value of Go's type `any` as `DataAny` returns it: the nil interface, or a pointer, which
may be nil, to the payload of a function.  Two payload types are told apart. -/
inductive AnyData where
  | nilInterface
  | manufacturerData (pointer : Option DeviceClassificationManufacturerDataType)
  | measurementListData (pointer : Option MeasurementListDataType)
  deriving DecidableEq, Repr

/-- Modelled from the spec: `FunctionData` (not under src/), the store of one function of a
remote feature, which holds at most one current value of the function's payload (§4.5). -/
structure FunctionData where
  function : String
  data : AnyData
  deriving DecidableEq, Repr

/-- Modelled from the spec: `DataAny` (not under src/) gives the current value of the store as
an `any` (§4.5). -/
def FunctionData.DataAny (fd : FunctionData) : AnyData :=
  fd.data

/-- The field `functionDataMap` of `FeatureRemoteImpl`, a map kept as a list of entries.  It is
kept apart from the record `FeatureRemoteImpl`, none of whose other fields the methods
`functionData` and `Data` read. -/
abbrev FunctionDataMap := List (String × FunctionData)

/-- The method `functionData` of `FeatureRemoteImpl`; `none` when the function is not found
and the method panics. -/
def functionData (functionDataMap : FunctionDataMap) (function : String) :
    Option FunctionData :=
  match mapGet functionDataMap function with
  | some fd => some fd
  | none => none

/-- The method `Data` of `FeatureRemoteImpl`; `none` when `functionData` panics. -/
def Data (functionDataMap : FunctionDataMap) (function : String) : Option AnyData :=
  match functionData functionDataMap function with
  | some fd => some fd.DataAny
  | none => none

/-- The constant `model.CmdClassifierTypeRead`. -/
def CmdClassifierTypeRead : String := "read"

/-- The constant `model.CmdClassifierTypeReply`. -/
def CmdClassifierTypeReply : String := "reply"

/-- The constant `model.CmdClassifierTypeNotify`. -/
def CmdClassifierTypeNotify : String := "notify"

/-- The constant `model.CmdClassifierTypeWrite`. -/
def CmdClassifierTypeWrite : String := "write"

/-- Modelled from the spec: `model.HeaderType`, the header of a datagram (§4.4); all fields are
pointers. -/
structure HeaderType where
  AddressSource : Option FeatureAddressType
  AddressDestination : Option FeatureAddressType
  MsgCounter : Option Nat
  MsgCounterReference : Option Nat
  CmdClassifier : Option String
  deriving DecidableEq, Repr

/-- Modelled from the spec: `model.NodeManagementDestinationDataType`, the destination record
of a device (§9), with the address, type and feature set of the device. -/
structure NodeManagementDestinationDataType where
  DeviceAddress : Option String
  DeviceType : Option String
  NetworkFeatureSet : Option String
  deriving DecidableEq, Repr

/-- Modelled from the spec: `model.NodeManagementDestinationListDataType`, the destination
list. -/
structure NodeManagementDestinationListDataType where
  NodeManagementDestinationData : List NodeManagementDestinationDataType
  deriving DecidableEq, Repr

/-- Modelled from the spec: `model.CmdType`, the container whose populated field picks the
function (§4.4); the fields for the destination list and for the manufacturer data are
kept. -/
structure CmdType where
  NodeManagementDestinationListData : Option NodeManagementDestinationListDataType
  DeviceClassificationManufacturerData : Option DeviceClassificationManufacturerDataType
  deriving DecidableEq, Repr

/-- Modelled from the spec: `model.DatagramType`, a header and a payload of commands (§4.4). -/
structure DatagramType where
  Header : HeaderType
  Payload : List CmdType
  deriving DecidableEq, Repr

set_option linter.dupNamespace false in
/-- Modelled from the spec: `model.Datagram`, the outer object of a SPINE message (§6). -/
structure Datagram where
  Datagram : DatagramType
  deriving DecidableEq, Repr

/-- Code that is not under src/ and is a parameter of the model: `json.Unmarshal` into a zero
`model.Datagram` (the datagram after the call and the error), `ProcessCmd` of the local device
(the remote device after the call and the error, or `none` when the call panics), and `Reply`
of the sender of a remote feature (the error). -/
structure SpineDeps where
  Unmarshal : Bytes → Datagram × Option String
  ProcessCmd : DatagramType → DeviceRemoteImpl → Option (DeviceRemoteImpl × Option String)
  Reply : FeatureRemoteImpl → Option HeaderType → Option FeatureAddressType → CmdType →
    Option String

/-- The calls to collaborators and to the reply processing that the handlers make, in
order.  `Reply featureRemote ..` is the call of `Reply` on `featureRemote.Sender()`. -/
inductive Call where
  | ProcessCmd (datagram : DatagramType)
  | LogTrace (err : String)
  | Remove (ski : String) (counter : Nat)
  | processReplyDestinationListData (data : NodeManagementDestinationListDataType)
  | Reply (featureRemote : FeatureRemoteImpl) (requestHeader : Option HeaderType)
      (source : Option FeatureAddressType) (cmd : CmdType)
  deriving DecidableEq, Repr

/-- What `HandleIncomingSpineMesssage` leaves: the remote device, the calls made and the two
returned values. -/
structure Handled where
  device : DeviceRemoteImpl
  calls : List Call
  msgCounter : Option Nat
  err : Option String
  deriving DecidableEq, Repr

/-- The method `HandleIncomingSpineMesssage` of `DeviceRemoteImpl`.  It has no `recover`: a
panic inside `ProcessCmd` ends the call, which then has no result (`none`). -/
def DeviceRemoteImpl.HandleIncomingSpineMesssage (deps : SpineDeps) (d : DeviceRemoteImpl)
    (message : Bytes) : Option Handled :=
  match deps.Unmarshal message with
  | (_, some err) => some { device := d, calls := [], msgCounter := none, err := some err }
  | (datagram, none) =>
    match deps.ProcessCmd datagram.Datagram d with
    | none => none
    | some (d1, some err) =>
      some
        { device := d1
          calls := [.ProcessCmd datagram.Datagram, .LogTrace err]
          msgCounter := datagram.Datagram.Header.MsgCounter
          err := none }
    | some (d1, none) =>
      some
        { device := d1
          calls := [.ProcessCmd datagram.Datagram]
          msgCounter := datagram.Datagram.Header.MsgCounter
          err := none }

/-- Modelled from the spec: an entry of the pending-request table, with its key: the SKI of
the remote device and the counter of the request (§3). -/
structure PendingRequest where
  ski : String
  counter : Nat
  deriving DecidableEq, Repr

/-- Whether an entry of the pending-request table has the key `(ski, counter)`. -/
def PendingRequest.hasKey (ski : String) (counter : Nat) (p : PendingRequest) : Bool :=
  decide (p.ski = ski ∧ p.counter = counter)

/-- Modelled from the spec: `Remove` of the pending requests (not under src/) removes the entry
keyed by `(ski, counter)`; it returns an error, given as the text of its `String()`, when no
such entry exists (§4.4). -/
def PendingRequestsRemove (table : List PendingRequest) (ski : String) (counter : Nat) :
    List PendingRequest × Option String :=
  if table.any (PendingRequest.hasKey ski counter) then
    (table.filter (fun p => !(PendingRequest.hasKey ski counter p)), none)
  else
    (table, some "No pending request with this message counter found")

/-- The fields of `spine.Message` (not under src/) that the handler reads. -/
structure Message where
  RequestHeader : Option HeaderType
  CmdClassifier : String
  FeatureRemote : Option FeatureRemoteImpl
  DeviceRemote : Option DeviceRemoteImpl
  deriving DecidableEq, Repr

/-- What the handler uses of `NodeManagementImpl`: its own address (`r.Address()`), the
destination data of its device (`r.Device().DestinationData()`) and the pending requests. -/
structure NodeManagementImpl where
  address : Option FeatureAddressType
  destinationData : NodeManagementDestinationDataType
  pendingRequests : List PendingRequest
  deriving DecidableEq, Repr

/-- What a handler leaves: the NodeManagement feature, the calls made, and the returned error
(`some none` is a nil error); `result` is `none` when the handler panics. -/
structure HandlerResult where
  node : NodeManagementImpl
  calls : List Call
  result : Option (Option String)
  deriving DecidableEq, Repr

/-- The command that `processReadDestinationListData` builds. -/
def destinationListCmd (r : NodeManagementImpl) : CmdType :=
  { NodeManagementDestinationListData := some
      { NodeManagementDestinationData := [r.destinationData] }
    DeviceClassificationManufacturerData := none }

/-- The method `processReadDestinationListData`.  `featureRemote.Sender()` on a nil feature
dereferences nil. -/
def NodeManagementImpl.processReadDestinationListData (deps : SpineDeps)
    (r : NodeManagementImpl) (featureRemote : Option FeatureRemoteImpl)
    (requestHeader : Option HeaderType) : HandlerResult :=
  match featureRemote with
  | none => { node := r, calls := [], result := none }
  | some feature =>
    { node := r
      calls := [.Reply feature requestHeader r.address (destinationListCmd r)]
      result := some (deps.Reply feature requestHeader r.address (destinationListCmd r)) }

/-- The method `processReplyDestinationListData`, with the calls made before it. -/
def NodeManagementImpl.processReplyDestinationListData (r : NodeManagementImpl)
    (calls : List Call) (_message : Message) (data : NodeManagementDestinationListDataType) :
    HandlerResult :=
  { node := r
    calls := calls ++ [.processReplyDestinationListData data]
    result := some (some "Not implemented") }

/-- The method `handleMsgDestinationListData`.  The arguments of `Remove` are read first
(`message.DeviceRemote.ski`, then `*message.RequestHeader.MsgCounterReference`), and `*data` is
read before the reply processing is called; each read of a nil pointer panics. -/
def NodeManagementImpl.handleMsgDestinationListData (deps : SpineDeps)
    (r : NodeManagementImpl) (message : Message)
    (data : Option NodeManagementDestinationListDataType) : HandlerResult :=
  if message.CmdClassifier = CmdClassifierTypeRead then
    r.processReadDestinationListData deps message.FeatureRemote message.RequestHeader
  else if message.CmdClassifier = CmdClassifierTypeReply then
    match message.DeviceRemote with
    | none => { node := r, calls := [], result := none }
    | some device =>
      match message.RequestHeader with
      | none => { node := r, calls := [], result := none }
      | some header =>
        match header.MsgCounterReference with
        | none => { node := r, calls := [], result := none }
        | some reference =>
          match PendingRequestsRemove r.pendingRequests device.ski reference with
          | (table, some err) =>
            { node := { r with pendingRequests := table }
              calls := [.Remove device.ski reference]
              result := some (some err) }
          | (table, none) =>
            match data with
            | none =>
              { node := { r with pendingRequests := table }
                calls := [.Remove device.ski reference]
                result := none }
            | some list =>
              NodeManagementImpl.processReplyDestinationListData
                { r with pendingRequests := table } [.Remove device.ski reference] message list
  else if message.CmdClassifier = CmdClassifierTypeNotify then
    match data with
    | none => { node := r, calls := [], result := none }
    | some list => r.processReplyDestinationListData [] message list
  else
    { node := r
      calls := []
      result := some (some
        ("nodemanagement.handleMsgDestinationListData: NodeManagementDestinationListDataType "
          ++ "CmdClassifierType not implemented: " ++ message.CmdClassifier)) }

/-- A remote device with the destination-list samples: the NodeManagement feature of a local
device with two pending requests. -/
def sampleNodeManagement : NodeManagementImpl :=
  { address := some { Device := some "d:_i:local", Entity := some [0], Feature := some 0 }
    destinationData :=
      { DeviceAddress := some "d:_i:local"
        DeviceType := some "EnergyManagementSystem"
        NetworkFeatureSet := some "smart" }
    pendingRequests := [{ ski := "ski", counter := 7 }, { ski := "ski", counter := 8 }] }

/-- A request header with the given counter and reference. -/
def sampleHeader (counter : Nat) (reference : Option Nat) (classifier : String) : HeaderType :=
  { AddressSource := none
    AddressDestination := none
    MsgCounter := some counter
    MsgCounterReference := reference
    CmdClassifier := some classifier }

/-- A message of the given classifier from the remote device of SKI "ski", to its
NodeManagement feature. -/
def sampleMessage (classifier : String) (reference : Option Nat) : Message :=
  { RequestHeader := some (sampleHeader 3 reference classifier)
    CmdClassifier := classifier
    FeatureRemote := some sampleFeature
    DeviceRemote := some (NewDeviceRemoteImpl "ski") }

/-- A read header with the given counter, addressed to the NodeManagement feature of the
local device. -/
def addressedHeader (counter : Nat) : HeaderType :=
  { AddressSource := none
    AddressDestination := some
      { Device := some "d:_i:local", Entity := some [0], Feature := some 0 }
    MsgCounter := some counter
    MsgCounterReference := none
    CmdClassifier := some CmdClassifierTypeRead }

/-- The zero value of `model.Datagram`. -/
def zeroDatagram : Datagram :=
  { Datagram :=
      { Header :=
          { AddressSource := none
            AddressDestination := none
            MsgCounter := none
            MsgCounterReference := none
            CmdClassifier := none }
        Payload := [] } }

/-- Sample collaborators: `Unmarshal` reads the one-byte message 1 as a datagram of counter 5
with a destination address, reads the one-byte message 3 as a datagram without header fields,
and rejects everything else; `ProcessCmd` panics on a datagram without destination address and
returns an error otherwise; `Reply` succeeds. -/
def sampleSpineDeps : SpineDeps :=
  { Unmarshal := fun message =>
      if message = [1] then
        ({ Datagram := { Header := addressedHeader 5, Payload := [] } }, none)
      else if message = [3] then
        (zeroDatagram, none)
      else
        (zeroDatagram, some "unexpected end of JSON input")
    ProcessCmd := fun datagram d =>
      match datagram.Header.AddressDestination with
      | none => none
      | some _ => some (d, some "no function found for cmd data")
    Reply := fun _ _ _ _ => none }

/-- The sample feature with an entry for the function "old" in its operations map. -/
def featureWithOperations : FeatureRemoteImpl :=
  { sampleFeature with operations := [("old", NewOperations true true)] }

/-- Supported functions that name "measurementListData" twice. -/
def sampleFunctions : List FunctionPropertyType :=
  [functionProperty "measurementListData" true true,
    functionProperty "measurementDescriptionListData" true true,
    functionProperty "measurementListData" true false]

/-- Whether a feature information describes, for the entity of path [0], a feature of type
NodeManagement with role special. -/
def namesNodeManagement (fi : NodeManagementDetailedDiscoveryFeatureInformationType) : Bool :=
  match fi.Description with
  | some fid =>
    decide ((fid.FeatureAddress.map fun address => address.Entity)
        = some (some [DeviceInformationEntityId]) ∧
      fid.FeatureType = some FeatureTypeTypeNodeManagement ∧
      fid.Role = some RoleTypeSpecial)
  | none => false

/-- A detailed-discovery reply that lists the entity of path [0] with its NodeManagement
feature of role special, and the EVSE entity of path [1] with one feature. -/
def fullDeviceInformationData : NodeManagementDetailedDiscoveryDataType :=
  { EntityInformation :=
      [sampleEntityInformation EntityTypeTypeDeviceInformation [0],
        sampleEntityInformation EntityTypeTypeEVSE [1]]
    FeatureInformation :=
      [{ Description := some
          { FeatureAddress := some { Device := none, Entity := some [0], Feature := some 0 }
            FeatureType := some FeatureTypeTypeNodeManagement
            Role := some RoleTypeSpecial
            Description := none
            MaxResponseDelay := none
            SupportedFunction := [] } },
        sampleFeatureInformation 1 "Measurement" "measurementListData"] }

/-- A detailed-discovery reply that lists the entity of path [1] twice and then an entity
information without description. -/
def repeatedEntityData : NodeManagementDetailedDiscoveryDataType :=
  { EntityInformation :=
      [sampleEntityInformation EntityTypeTypeEVSE [1],
        sampleEntityInformation EntityTypeTypeEVSE [1],
        { Description := none }]
    FeatureInformation := sampleDiscoveryData.FeatureInformation }

/-- An entity information of path [1] that names the device address `device`. -/
def entityInformationOfDevice (device : Option String) :
    NodeManagementDetailedDiscoveryEntityInformationType :=
  { Description := some
      { EntityAddress := some { Device := device, Entity := some [1] }
        EntityType := some EntityTypeTypeEVSE
        Description := none } }

end Spine

/-!
# Feature wrappers and service configuration of eebus-go: embedding

The definitions follow `features/deviceclassification.go` and `service/types.go`.
-/

namespace Features

open Spine (FunctionDataMap AnyData DeviceClassificationManufacturerDataType)

/-- Modelled from the spec: `ErrDataNotAvailable` (not under src/), the error of a `getData` on
a function that was never populated (§7). -/
def ErrDataNotAvailable : String := "data not available"

/-- What `GetManufacturerDetails` uses of `DeviceClassification`: the pointer `featureRemote`
of the embedded `FeatureImpl`, given by the function data map of the remote feature. -/
structure DeviceClassification where
  featureRemote : Option FunctionDataMap
  deriving DecidableEq, Repr

/-- The method `GetManufacturerDetails`: the returned data pointer and error.  `none` when it
panics: in `Data`, on a nil `featureRemote` or a function that is not in the map, or in the
type assertion, on a value of another type. -/
def DeviceClassification.GetManufacturerDetails (d : DeviceClassification) :
    Option (Option DeviceClassificationManufacturerDataType × Option String) :=
  match d.featureRemote with
  | none => none
  | some functionDataMap =>
    match Spine.Data functionDataMap Spine.FunctionTypeDeviceClassificationManufacturerData with
    | none => none
    | some .nilInterface => some (none, some ErrDataNotAvailable)
    | some (.manufacturerData none) => some (none, some ErrDataNotAvailable)
    | some (.manufacturerData (some data)) => some (some data, none)
    | some (.measurementListData _) => none

/-- The manufacturer data that a function data store holds, if any. -/
def storedManufacturerData (fd : Spine.FunctionData) :
    Option DeviceClassificationManufacturerDataType :=
  match fd.data with
  | .manufacturerData (some data) => some data
  | _ => none

/-- Sample manufacturer data. -/
def sampleManufacturerData : DeviceClassificationManufacturerDataType :=
  { DeviceName := some "Wallbox", BrandName := some "Brand", SerialNumber := some "12345" }

/-- A DeviceClassification wrapper on a remote feature whose store for the manufacturer data
holds `pointer`. -/
def sampleDeviceClassification (pointer : Option DeviceClassificationManufacturerDataType) :
    DeviceClassification :=
  { featureRemote := some
      [(Spine.FunctionTypeDeviceClassificationManufacturerData,
        { function := Spine.FunctionTypeDeviceClassificationManufacturerData
          data := .manufacturerData pointer })] }

end Features

namespace Service

open Ship (Bytes)

/-- The constant `defaultPort`. -/
def defaultPort : Int := 4711

/-- The constant `model.NetworkManagementFeatureSetTypeSmart`. -/
def NetworkManagementFeatureSetTypeSmart : String := "smart"

set_option linter.dupNamespace false in
/-- Go's `tls.Certificate`, of which the chain of encoded certificates is kept; the code only
stores the value. -/
structure Certificate where
  Certificate : List Bytes
  deriving DecidableEq, Repr

/-- The type `Configuration`. -/
structure Configuration where
  vendorCode : String
  deviceBrand : String
  deviceModel : String
  deviceSerialNumber : String
  alternateIdentifier : String
  alternateMdnsServiceName : String
  deviceType : String
  featureSet : String
  interfaces : Option (List String)
  port : Int
  certificate : Certificate
  registerAutoAccept : Bool
  voltage : Float

/-- Go's `len` of a string: its number of bytes. -/
def len (s : String) : Nat := s.utf8ByteSize

/-- The function `NewConfiguration`: the configuration, or the text of the error. -/
def NewConfiguration (vendorCode deviceBrand deviceModel serialNumber deviceType : String)
    (port : Int) (certificate : Certificate) (voltage : Float) :
    Except String Configuration :=
  let configuration : Configuration :=
    { vendorCode := ""
      deviceBrand := ""
      deviceModel := ""
      deviceSerialNumber := ""
      alternateIdentifier := ""
      alternateMdnsServiceName := ""
      deviceType := ""
      featureSet := ""
      interfaces := none
      port := port
      certificate := certificate
      registerAutoAccept := false
      voltage := voltage }
  let isRequired := "is required"
  if len vendorCode = 0 then .error ("vendorCode " ++ isRequired)
  else
    let configuration := { configuration with vendorCode := vendorCode }
    if len deviceBrand = 0 then .error ("brand " ++ isRequired)
    else
      let configuration := { configuration with deviceBrand := deviceBrand }
      if len deviceModel = 0 then .error ("model " ++ isRequired)
      else
        let configuration := { configuration with deviceModel := deviceModel }
        if len serialNumber = 0 then .error ("serialNumber " ++ isRequired)
        else
          let configuration := { configuration with deviceSerialNumber := serialNumber }
          if len deviceType = 0 then .error ("deviceType " ++ isRequired)
          else
            let configuration := { configuration with deviceType := deviceType }
            .ok { configuration with featureSet := NetworkManagementFeatureSetTypeSmart }

/-- The method `SetAlternateIdentifier`. -/
def Configuration.SetAlternateIdentifier (s : Configuration) (identifier : String) :
    Configuration :=
  { s with alternateIdentifier := identifier }

/-- The method `SetAlternateMdnsServiceName`. -/
def Configuration.SetAlternateMdnsServiceName (s : Configuration) (name : String) :
    Configuration :=
  { s with alternateMdnsServiceName := name }

/-- The method `generateIdentifier`. -/
def Configuration.generateIdentifier (s : Configuration) : String :=
  s.deviceBrand ++ "-" ++ s.deviceModel ++ "-" ++ s.deviceSerialNumber

/-- The method `Identifier`. -/
def Configuration.Identifier (s : Configuration) : String :=
  if len s.alternateIdentifier > 0 then s.alternateIdentifier else s.generateIdentifier

/-- The method `MdnsServiceName`. -/
def Configuration.MdnsServiceName (s : Configuration) : String :=
  if len s.alternateMdnsServiceName > 0 then s.alternateMdnsServiceName
  else s.generateIdentifier

/-- A sample certificate. -/
def sampleCertificate : Certificate := { Certificate := [[48, 130]] }

/-- The configuration that `NewConfiguration` returns for the sample values, or the zero
configuration when it fails. -/
def sampleConfiguration : Configuration :=
  match NewConfiguration "Vendor" "Brand" "Model" "Serial" "EnergyManagementSystem" defaultPort
    sampleCertificate 230 with
  | .ok configuration => configuration
  | .error _ =>
    { vendorCode := ""
      deviceBrand := ""
      deviceModel := ""
      deviceSerialNumber := ""
      alternateIdentifier := ""
      alternateMdnsServiceName := ""
      deviceType := ""
      featureSet := ""
      interfaces := none
      port := 0
      certificate := { Certificate := [] }
      registerAutoAccept := false
      voltage := 0 }

end Service

namespace Ship

/-! ## The INIT check -/

/-- C1 (as amended): for every message of at least two bytes, `handshakeInit_cmiStateEvaluate`
returns true if and only if the type tag and the first payload byte are both zero, whatever
follows them; for every other message of at least two bytes it ends the handshake with an
error and returns false. -/
theorem handshakeInit_cmiStateEvaluate_two_bytes (deps : Deps) (c : ShipConnection)
    (t b : Nat) (rest : Bytes) :
    ((∃ r, handshakeInit_cmiStateEvaluate deps (t :: b :: rest) c = .done r true)
        ↔ (t = 0 ∧ b = 0)) ∧
    (handshakeInit_cmiStateEvaluate deps (t :: b :: rest) c = .done c true
        ↔ (t = 0 ∧ b = 0)) ∧
    (¬ (t = 0 ∧ b = 0) →
      ∃ err, handshakeInit_cmiStateEvaluate deps (t :: b :: rest) c
        = .done (endHandshakeWithError err c) false) := by
  by_cases ht : t = 0
  · by_cases hb : b = 0
    · subst ht hb
      simp [handshakeInit_cmiStateEvaluate, parseMessage, MsgTypeInit]
    · simp [handshakeInit_cmiStateEvaluate, parseMessage, MsgTypeInit, ht, hb]
      exact ⟨_, rfl⟩
  · simp [handshakeInit_cmiStateEvaluate, parseMessage, MsgTypeInit, ht]
    exact ⟨_, rfl⟩

/-- C1 (counterexample): the three-byte message 0x00 0x00 0x01 is not the two bytes 0x00 0x00,
and `handshakeInit_cmiStateEvaluate` returns true on it without ending the handshake. -/
theorem handshakeInit_cmiStateEvaluate_accepts_longer_message :
    ([0, 0, 1] : Bytes) ≠ [0, 0] ∧
    handshakeInit_cmiStateEvaluate sampleDeps [0, 0, 1]
        (newConnection .ShipRoleServer openTransport)
      = .done (newConnection .ShipRoleServer openTransport) true :=
  ⟨by decide, rfl⟩

/-! ## Closing the connection -/

/-- With the once done, `CloseConnection` returns the connection as it is. -/
theorem CloseConnection_of_done (deps : Deps) (safe : Bool) (reason : String)
    (c : ShipConnection) (h : c.shutdownOnce = .done) :
    CloseConnection deps safe reason c = .done c () := by
  rw [CloseConnection]
  simp [h]

/-- While the body of the once is running, `CloseConnection` blocks. -/
theorem CloseConnection_of_running (deps : Deps) (safe : Bool) (reason : String)
    (c : ShipConnection) (h : c.shutdownOnce = .running) :
    CloseConnection deps safe reason c = .deadlocked c := by
  rw [CloseConnection]
  simp [h]

/-- The first `CloseConnection` that is unsafe, or is made in state `InitStart`. -/
theorem CloseConnection_not_safe (deps : Deps) (safe : Bool) (reason : String)
    (c : ShipConnection) (h : c.shutdownOnce = .idle)
    (hs : safe = false ∨ c.smeState = .cmiStateInitStart) :
    CloseConnection deps safe reason c = .done (afterUnsafeClose c) () := by
  rw [CloseConnection]
  rcases hs with hs | hs <;>
    simp [h, hs, afterUnsafeClose, removeRemoteDeviceConnection, stopHandshakeTimer,
      CloseDataConnection, HandleConnectionClosed, ShipConnection.log,
      shipMessageExchangeState.toNat]

/-- The first safe `CloseConnection` past `InitStart` is the send of the close message. -/
theorem CloseConnection_safe (deps : Deps) (reason : String)
    (c : ShipConnection) (h : c.shutdownOnce = .idle)
    (hs : c.smeState ≠ .cmiStateInitStart) :
    CloseConnection deps true reason c =
      (sendShipModel deps MsgTypeEnd (some (.connectionClose (closeMessage reason)))
          (afterCloseStart c)).bind
        fun c2 _ => .done { c2 with shutdownOnce := .done } () := by
  rw [CloseConnection]
  have hpos : 0 < c.smeState.toNat := by
    cases hc : c.smeState <;> simp_all [shipMessageExchangeState.toNat]
  have hzero : shipMessageExchangeState.cmiStateInitStart.toNat = 0 := rfl
  simp [h, hpos, hzero, afterCloseStart, removeRemoteDeviceConnection, stopHandshakeTimer,
    ShipConnection.log]

/-- The calls made up to a connection that extends the trace are the extension. -/
theorem emitted_append (c r : ShipConnection) (es : List Event)
    (h : r.trace = c.trace ++ es) : emitted c r = es := by
  simp [emitted, h]

/-- On an open transport `shipMessage` returns the frame, or the error of the encoding. -/
theorem shipMessage_open (deps : Deps) (typ : Nat) (m : ShipModel) (c : ShipConnection)
    (ho : c.DataHandler.IsDataConnectionClosed = false) :
    shipMessage deps typ (some m) c =
      .done c (match deps.jsonMarshal m with
        | .error err => .error err
        | .ok msg =>
          match deps.JsonIntoEEBUSJson msg with
          | .error err => .error err
          | .ok eebusMsg => .ok (typ :: eebusMsg)) := by
  rw [shipMessage]
  rcases hm : deps.jsonMarshal m with err | msg
  · simp [ho, hm]
  · rcases he : deps.JsonIntoEEBUSJson msg with err | eebusMsg <;> simp [ho, hm, he]

/-- On a transport reported closed, `shipMessage` called from the body of the once blocks. -/
theorem shipMessage_closed_running (deps : Deps) (typ : Nat) (model : Option ShipModel)
    (c : ShipConnection) (hc : c.DataHandler.IsDataConnectionClosed = true)
    (hr : c.shutdownOnce = .running) :
    shipMessage deps typ model c = .deadlocked c := by
  rw [shipMessage.eq_def]
  simp [hc, CloseConnection_of_running deps false "" c hr, Run.bind]

/-- The first safe close past `InitStart` on an open transport. -/
theorem CloseConnection_safe_open (deps : Deps) (reason : String) (c : ShipConnection)
    (h : c.shutdownOnce = .idle) (hs : c.smeState ≠ .cmiStateInitStart)
    (ho : c.DataHandler.IsDataConnectionClosed = false) :
    CloseConnection deps true reason c =
      .done (match deps.jsonMarshal (.connectionClose (closeMessage reason)) with
        | .error _ => { afterCloseStart c with shutdownOnce := .done }
        | .ok msg =>
          match deps.JsonIntoEEBUSJson msg with
          | .error _ => { afterCloseStart c with shutdownOnce := .done }
          | .ok eebusMsg =>
            { afterCloseStart c with
              shutdownOnce := .done
              trace := (afterCloseStart c).trace ++
                [.WriteMessageToDataConnection (MsgTypeEnd :: eebusMsg)] }) () := by
  rw [CloseConnection_safe deps reason c h hs, sendShipModel,
    shipMessage_open deps _ _ _ (by simpa [afterCloseStart] using ho)]
  rcases hm : deps.jsonMarshal (.connectionClose (closeMessage reason)) with err | msg
  · simp [Run.bind]
  · rcases he : deps.JsonIntoEEBUSJson msg with err | eebusMsg
    · simp [Run.bind, he]
    · simp only [WriteMessageToDataConnection, ShipConnection.log, Run.bind, he]
      rcases hw : (afterCloseStart c).DataHandler.WriteMessageToDataConnection
        (MsgTypeEnd :: eebusMsg) with _ | err <;> simp [hw]

/-- The first safe close past `InitStart` on a transport reported closed blocks forever, after
the timer stop and the removal. -/
theorem CloseConnection_safe_closed (deps : Deps) (reason : String) (c : ShipConnection)
    (h : c.shutdownOnce = .idle) (hs : c.smeState ≠ .cmiStateInitStart)
    (hc : c.DataHandler.IsDataConnectionClosed = true) :
    CloseConnection deps true reason c = .deadlocked (afterCloseStart c) := by
  rw [CloseConnection_safe deps reason c h hs, sendShipModel,
    shipMessage_closed_running deps _ _ _ (by simpa [afterCloseStart] using hc)
      (by simp [afterCloseStart])]
  rfl

/-- A `CloseConnection` that returns leaves the once done. -/
theorem CloseConnection_done_once (deps : Deps) (safe : Bool) (reason : String)
    (c c1 : ShipConnection) (h : CloseConnection deps safe reason c = .done c1 ()) :
    c1.shutdownOnce = .done := by
  cases ho : c.shutdownOnce with
  | done =>
    rw [CloseConnection_of_done deps safe reason c ho] at h
    cases h
    exact ho
  | running =>
    rw [CloseConnection_of_running deps safe reason c ho] at h
    cases h
  | idle =>
    by_cases hu : safe = false ∨ c.smeState = .cmiStateInitStart
    · rw [CloseConnection_not_safe deps safe reason c ho hu] at h
      cases h
      rfl
    · have hsafe : safe = true := by
        cases safe
        · exact absurd (Or.inl rfl) hu
        · rfl
      have hs : c.smeState ≠ .cmiStateInitStart := fun hh => hu (Or.inr hh)
      subst hsafe
      rw [CloseConnection_safe deps reason c ho hs] at h
      cases hsend : sendShipModel deps MsgTypeEnd
          (some (.connectionClose (closeMessage reason))) (afterCloseStart c) with
      | done c2 ret =>
        rw [hsend] at h
        simp only [Run.bind] at h
        cases h
        rfl
      | panicked c2 =>
        rw [hsend] at h
        simp only [Run.bind] at h
        cases h
      | deadlocked c2 =>
        rw [hsend] at h
        simp only [Run.bind] at h
        cases h

/-- Every `CloseConnection` on a connection whose once is idle moves the once. -/
theorem CloseConnection_moves_once (deps : Deps) (safe : Bool) (reason : String)
    (c : ShipConnection) (h : c.shutdownOnce = .idle) :
    (CloseConnection deps safe reason c).conn.shutdownOnce ≠ .idle := by
  by_cases hu : safe = false ∨ c.smeState = .cmiStateInitStart
  · rw [CloseConnection_not_safe deps safe reason c h hu]
    simp [Run.conn, afterUnsafeClose]
  · have hsafe : safe = true := by
      cases safe
      · exact absurd (Or.inl rfl) hu
      · rfl
    have hs : c.smeState ≠ .cmiStateInitStart := fun hh => hu (Or.inr hh)
    subst hsafe
    rcases hc : c.DataHandler.IsDataConnectionClosed with _ | _
    · rw [CloseConnection_safe_open deps reason c h hs hc]
      rcases hm : deps.jsonMarshal (.connectionClose (closeMessage reason)) with err | msg
      · simp [Run.conn]
      · rcases hj : deps.JsonIntoEEBUSJson msg with err | eebusMsg <;> simp [Run.conn, hj]
    · rw [CloseConnection_safe_closed deps reason c h hs hc]
      simp [Run.conn, afterCloseStart]

/-- However a `CloseConnection` call ends, it leaves the once running or done. -/
theorem CloseConnection_leaves_once (deps : Deps) (safe : Bool) (reason : String)
    (c : ShipConnection) :
    (CloseConnection deps safe reason c).conn.shutdownOnce ≠ .idle := by
  cases ho : c.shutdownOnce with
  | idle => exact CloseConnection_moves_once deps safe reason c ho
  | running =>
    rw [CloseConnection_of_running deps safe reason c ho]
    simp [Run.conn, ho]
  | done =>
    rw [CloseConnection_of_done deps safe reason c ho]
    simp [Run.conn, ho]

/-- A `CloseConnection` call on a connection whose once is not idle leaves the connection as it
is. -/
theorem CloseConnection_of_used (deps : Deps) (safe : Bool) (reason : String)
    (c : ShipConnection) (h : c.shutdownOnce ≠ .idle) :
    (CloseConnection deps safe reason c).conn = c := by
  cases ho : c.shutdownOnce with
  | idle => exact absurd ho h
  | running =>
    rw [CloseConnection_of_running deps safe reason c ho]
    rfl
  | done =>
    rw [CloseConnection_of_done deps safe reason c ho]
    rfl

/-- C2: a `CloseConnection` call made after an earlier `CloseConnection` call on the same
connection performs no action, for every connection state and every choice of the arguments
of the two calls, and however the earlier call ended: it leaves the connection exactly as the
earlier call left it (same state, same timer, no call on any collaborator added to the
trace); and when the earlier call returned, it returns. -/
theorem CloseConnection_second_call_does_nothing (deps : Deps) (safe : Bool) (reason : String)
    (c : ShipConnection) (safe2 : Bool) (reason2 : String) :
    (CloseConnection deps safe2 reason2 (CloseConnection deps safe reason c).conn).conn
      = (CloseConnection deps safe reason c).conn ∧
    emitted (CloseConnection deps safe reason c).conn
      (CloseConnection deps safe2 reason2 (CloseConnection deps safe reason c).conn).conn
      = [] ∧
    (∀ c1, CloseConnection deps safe reason c = .done c1 () →
      CloseConnection deps safe2 reason2 c1 = .done c1 ()) := by
  have hsame := CloseConnection_of_used deps safe2 reason2
    (CloseConnection deps safe reason c).conn (CloseConnection_leaves_once deps safe reason c)
  refine ⟨hsame, ?_, ?_⟩
  · rw [hsame]
    simp [emitted]
  · intro c1 h
    exact CloseConnection_of_done deps safe2 reason2 c1
      (CloseConnection_done_once deps safe reason c c1 h)

/-- C2 (witness): an unsafe close of a connection in state `Complete`, followed by a safe
close, which returns and changes nothing; and a safe close on a transport reported closed,
which blocks after the timer stop and the removal, followed by an unsafe close, which
changes nothing. -/
theorem CloseConnection_second_call_does_nothing_witness :
    CloseConnection sampleDeps false "" completeConnection
        = .done (afterUnsafeClose completeConnection) () ∧
    CloseConnection sampleDeps true "bye" (afterUnsafeClose completeConnection)
        = .done (afterUnsafeClose completeConnection) () ∧
    CloseConnection sampleDeps true "bye" completeClosedConnection
        = .deadlocked (afterCloseStart completeClosedConnection) ∧
    (CloseConnection sampleDeps false "" (afterCloseStart completeClosedConnection)).conn
        = afterCloseStart completeClosedConnection := by
  have h1 := CloseConnection_not_safe sampleDeps false "" completeConnection rfl (Or.inl rfl)
  have h2 := CloseConnection_safe_closed sampleDeps "bye" completeClosedConnection rfl
    (by decide) rfl
  have h3 := (CloseConnection_second_call_does_nothing sampleDeps true "bye"
    completeClosedConnection false "").1
  rw [h2] at h3
  exact ⟨h1,
    (CloseConnection_second_call_does_nothing sampleDeps false "" completeConnection
      true "bye").2.2 _ h1,
    h2, h3⟩

/-- The calls of the first safe close past `InitStart`, however it ends: the timer stop and the
removal, then at most one write. -/
theorem CloseConnection_safe_emitted (deps : Deps) (reason : String) (c : ShipConnection)
    (h : c.shutdownOnce = .idle) (hs : c.smeState ≠ .cmiStateInitStart) :
    emitted c (CloseConnection deps true reason c).conn
        = [.stopHandshakeTimer, .RemoveRemoteDeviceConnection c.RemoteSKI] ∨
    ∃ frame, emitted c (CloseConnection deps true reason c).conn
        = [.stopHandshakeTimer, .RemoveRemoteDeviceConnection c.RemoteSKI,
            .WriteMessageToDataConnection frame] := by
  rcases hc : c.DataHandler.IsDataConnectionClosed with _ | _
  · rw [CloseConnection_safe_open deps reason c h hs hc]
    rcases hm : deps.jsonMarshal (.connectionClose (closeMessage reason)) with err | msg
    · exact Or.inl (emitted_append _ _ _ (by simp [Run.conn, afterCloseStart]))
    · rcases he : deps.JsonIntoEEBUSJson msg with err | eebusMsg
      · exact Or.inl (emitted_append _ _ _ (by simp [Run.conn, afterCloseStart, he]))
      · exact Or.inr ⟨MsgTypeEnd :: eebusMsg,
          emitted_append _ _ _ (by simp [Run.conn, afterCloseStart, he])⟩
  · rw [CloseConnection_safe_closed deps reason c h hs hc]
    exact Or.inl (emitted_append _ _ _ (by simp [Run.conn, afterCloseStart]))

/-- The first safe close past `InitStart` returns when the transport is open. -/
theorem CloseConnection_safe_open_returns (deps : Deps) (reason : String) (c : ShipConnection)
    (h : c.shutdownOnce = .idle) (hs : c.smeState ≠ .cmiStateInitStart)
    (ho : c.DataHandler.IsDataConnectionClosed = false) :
    CloseConnection deps true reason c = .done (CloseConnection deps true reason c).conn () := by
  rw [CloseConnection_safe_open deps reason c h hs ho]
  rfl

/-- C3 (as amended): the first `CloseConnection(true, reason)` on a connection in state
`Complete` does not close the transport.  It stops the handshake timer and removes the remote
device connection, then makes at most one write (the close announce); it calls neither
`CloseDataConnection` on the data handler nor `HandleConnectionClosed` on the hub, and on an
open data connection it returns. -/
theorem CloseConnection_safe_leaves_transport_open (deps : Deps) (reason : String)
    (c : ShipConnection) (h : c.shutdownOnce = .idle) (hs : c.smeState = .smeComplete) :
    Event.CloseDataConnection ∉ emitted c (CloseConnection deps true reason c).conn ∧
    (∀ completed,
      Event.HandleConnectionClosed completed ∉ emitted c (CloseConnection deps true reason c).conn) ∧
    (emitted c (CloseConnection deps true reason c).conn).take 2
      = [.stopHandshakeTimer, .RemoveRemoteDeviceConnection c.RemoteSKI] ∧
    (framesWritten (emitted c (CloseConnection deps true reason c).conn)).length ≤ 1 ∧
    (c.DataHandler.IsDataConnectionClosed = false →
      CloseConnection deps true reason c
        = .done (CloseConnection deps true reason c).conn ()) := by
  have hne : c.smeState ≠ .cmiStateInitStart := by simp [hs]
  refine ⟨?_, ?_, ?_, ?_, CloseConnection_safe_open_returns deps reason c h hne⟩
  all_goals
    rcases CloseConnection_safe_emitted deps reason c h hne with he | ⟨frame, he⟩ <;>
      simp [he, framesWritten]

/-- C3 (witness): a safe close of a connection in state `Complete`. -/
theorem CloseConnection_safe_leaves_transport_open_witness :
    completeConnection.shutdownOnce = .idle ∧ completeConnection.smeState = .smeComplete ∧
    Event.CloseDataConnection ∉
      emitted completeConnection (CloseConnection sampleDeps true "bye" completeConnection).conn :=
  ⟨rfl, rfl,
    (CloseConnection_safe_leaves_transport_open sampleDeps "bye" completeConnection rfl rfl).1⟩

/-- C3 (counterexample): on a connection in state `Complete` with an open transport the first
`CloseConnection(true, "bye")` returns, and `CloseDataConnection` was not called. -/
theorem CloseConnection_safe_no_CloseDataConnection :
    completeConnection.shutdownOnce = .idle ∧ completeConnection.smeState = .smeComplete ∧
    ∃ r, CloseConnection sampleDeps true "bye" completeConnection = .done r () ∧
      Event.CloseDataConnection ∉ emitted completeConnection r := by
  refine ⟨rfl, rfl, _, CloseConnection_safe_open_returns sampleDeps "bye" completeConnection
    rfl (by decide) rfl, ?_⟩
  rcases CloseConnection_safe_emitted sampleDeps "bye" completeConnection rfl (by decide)
    with he | ⟨frame, he⟩ <;> simp [he]

/-- C4 (as amended): the first `CloseConnection(true, reason)` on a connection whose state is
past `InitStart`, whose data connection is not reported closed and whose close message
encodes, returns after writing exactly one frame to the data connection: its type byte is END
(0x03) and its body is the EEBUS JSON of `ConnectionClose` with phase announce and the given
reason. -/
theorem CloseConnection_safe_writes_announce (deps : Deps) (reason : String)
    (c : ShipConnection) (msg eebusMsg : Bytes)
    (h : c.shutdownOnce = .idle)
    (hs : c.smeState.toNat > shipMessageExchangeState.cmiStateInitStart.toNat)
    (ho : c.DataHandler.IsDataConnectionClosed = false)
    (hm : deps.jsonMarshal (.connectionClose
      { ConnectionClose :=
          { Phase := .ConnectionClosePhaseTypeAnnounce, Reason := some reason } }) = .ok msg)
    (he : deps.JsonIntoEEBUSJson msg = .ok eebusMsg) :
    ∃ r, CloseConnection deps true reason c = .done r () ∧
      framesWritten (emitted c r) = [3 :: eebusMsg] ∧
      emitted c r = [.stopHandshakeTimer, .RemoveRemoteDeviceConnection c.RemoteSKI,
        .WriteMessageToDataConnection (MsgTypeEnd :: eebusMsg)] := by
  have hne : c.smeState ≠ .cmiStateInitStart := by
    intro hh
    simp [hh] at hs
  have hm1 : deps.jsonMarshal (.connectionClose (closeMessage reason)) = .ok msg := hm
  refine ⟨_, CloseConnection_safe_open deps reason c h hne ho, ?_⟩
  have hem := emitted_append c
    (match deps.jsonMarshal (.connectionClose (closeMessage reason)) with
      | .error _ => { afterCloseStart c with shutdownOnce := .done }
      | .ok msg =>
        match deps.JsonIntoEEBUSJson msg with
        | .error _ => { afterCloseStart c with shutdownOnce := .done }
        | .ok eebusMsg =>
          { afterCloseStart c with
            shutdownOnce := .done
            trace := (afterCloseStart c).trace ++
              [.WriteMessageToDataConnection (MsgTypeEnd :: eebusMsg)] })
    [.stopHandshakeTimer, .RemoveRemoteDeviceConnection c.RemoteSKI,
        .WriteMessageToDataConnection (MsgTypeEnd :: eebusMsg)]
    (by simp [hm1, he, afterCloseStart])
  rw [hem]
  simp [framesWritten, MsgTypeEnd]

/-- C4 (witness): a safe close with reason "bye" of a connection in state `Complete` writes the
one frame 0x03 followed by the EEBUS text of the close announce. -/
theorem CloseConnection_safe_writes_announce_witness :
    ∃ r, CloseConnection sampleDeps true "bye" completeConnection = .done r () ∧
      framesWritten (emitted completeConnection r)
        = [3 :: ascii ("\x7b\"connectionClose\":[\x7b\"phase\":\"announce\"\x7d," ++
            "\x7b\"reason\":\"bye\"\x7d]\x7d")] ∧
      emitted completeConnection r
        = [.stopHandshakeTimer, .RemoveRemoteDeviceConnection completeConnection.RemoteSKI,
            .WriteMessageToDataConnection (MsgTypeEnd ::
              ascii ("\x7b\"connectionClose\":[\x7b\"phase\":\"announce\"\x7d," ++
                "\x7b\"reason\":\"bye\"\x7d]\x7d"))] :=
  CloseConnection_safe_writes_announce sampleDeps "bye" completeConnection
    (ascii "\x7b\"connectionClose\":\x7b\"phase\":\"announce\",\"reason\":\"bye\"\x7d\x7d")
    (ascii ("\x7b\"connectionClose\":[\x7b\"phase\":\"announce\"\x7d," ++
      "\x7b\"reason\":\"bye\"\x7d]\x7d"))
    rfl (by decide) rfl rfl rfl

/-- C4 (counterexample): on a connection in state `Complete` whose transport reports the data
connection as closed, the first `CloseConnection(true, "bye")` writes no frame: after the timer
stop and the removal it calls `CloseConnection` again from inside the once and blocks. -/
theorem CloseConnection_safe_closed_transport_writes_nothing :
    completeClosedConnection.shutdownOnce = .idle ∧
    completeClosedConnection.smeState.toNat > shipMessageExchangeState.cmiStateInitStart.toNat ∧
    CloseConnection sampleDeps true "bye" completeClosedConnection
      = .deadlocked (afterCloseStart completeClosedConnection) ∧
    framesWritten (emitted completeClosedConnection (afterCloseStart completeClosedConnection))
      = [] :=
  ⟨rfl, by decide,
    CloseConnection_safe_closed sampleDeps "bye" completeClosedConnection rfl (by decide) rfl,
    by decide⟩

/-- C5: the first `CloseConnection(false, _)` on a connection, in any state, returns after
exactly these calls, in this order: the handshake timer is stopped, the remote device
connection of `RemoteSKI` is removed, the data connection is closed, and the hub's
`HandleConnectionClosed` is called once, with `completed` true exactly when the state is
`Complete`; no frame is written and the state is unchanged.  `ReportConnectionError` is that
call, and a `CloseConnection(true, _)` made while the state is still `InitStart` does the
same. -/
theorem CloseConnection_unsafe_actions (deps : Deps) (reason : String) (c : ShipConnection)
    (h : c.shutdownOnce = .idle) :
    ∃ r, CloseConnection deps false reason c = .done r () ∧
      ReportConnectionError deps c = .done r () ∧
      (c.smeState = .cmiStateInitStart → CloseConnection deps true reason c = .done r ()) ∧
      emitted c r = [.stopHandshakeTimer, .RemoveRemoteDeviceConnection c.RemoteSKI,
        .CloseDataConnection, .HandleConnectionClosed (decide (c.smeState = .smeComplete))] ∧
      framesWritten (emitted c r) = [] ∧
      r.handshakeTimerRunning = false ∧
      r.smeState = c.smeState := by
  refine ⟨afterUnsafeClose c, CloseConnection_not_safe deps false reason c h (Or.inl rfl),
    CloseConnection_not_safe deps false "" c h (Or.inl rfl),
    fun hs => CloseConnection_not_safe deps true reason c h (Or.inr hs), ?_⟩
  rw [emitted_append c (afterUnsafeClose c) _ rfl]
  simp [framesWritten, afterUnsafeClose]

/-- C5 (witness): an unsafe close of a connection in state `Complete` notifies the hub with
`completed` true. -/
theorem CloseConnection_unsafe_actions_witness :
    ∃ r, CloseConnection sampleDeps false "" completeConnection = .done r () ∧
      emitted completeConnection r = [.stopHandshakeTimer, .RemoveRemoteDeviceConnection "ski",
        .CloseDataConnection, .HandleConnectionClosed true] := by
  obtain ⟨r, h1, _, _, h3, _⟩ :=
    CloseConnection_unsafe_actions sampleDeps "" completeConnection rfl
  exact ⟨r, h1, h3⟩

/-! ## Handshake initialisation -/

/-- C6: `handshakeInit_cmiStateInitStart`, from any state and so from `InitStart`.  In the
client role it writes exactly one frame, the INIT frame; when the write succeeds the state is
`ClientWait` and the handshake timer is armed as WaitForReady; when the write fails with an
error the handshake is ended with that error, the state is not `ClientWait` and no timer is
armed (`setHandshakeTimer` is not called, and the timer runs afterwards only if it ran
before).  In the server
role it writes nothing, the state is `ServerWait` and the timer is armed as WaitForReady. -/
theorem handshakeInit_cmiStateInitStart_roles (deps : Deps) (c : ShipConnection) :
    (c.role = .ShipRoleClient →
      framesWritten (emitted c (handshakeInit_cmiStateInitStart deps c)) = [shipInit]) ∧
    (c.role = .ShipRoleClient → c.DataHandler.WriteMessageToDataConnection shipInit = none →
      (handshakeInit_cmiStateInitStart deps c).smeState = .cmiStateClientWait ∧
      (handshakeInit_cmiStateInitStart deps c).handshakeTimerRunning = true ∧
      (handshakeInit_cmiStateInitStart deps c).handshakeTimerType
        = .timeoutTimerTypeWaitForReady ∧
      emitted c (handshakeInit_cmiStateInitStart deps c)
        = [.WriteMessageToDataConnection shipInit,
            .setHandshakeTimer .timeoutTimerTypeWaitForReady deps.cmiTimeout]) ∧
    (∀ err, c.role = .ShipRoleClient →
      c.DataHandler.WriteMessageToDataConnection shipInit = some err →
      (handshakeInit_cmiStateInitStart deps c).smeState ≠ .cmiStateClientWait ∧
      ((handshakeInit_cmiStateInitStart deps c).handshakeTimerRunning = true →
        c.handshakeTimerRunning = true) ∧
      emitted c (handshakeInit_cmiStateInitStart deps c)
        = [.WriteMessageToDataConnection shipInit, .endHandshakeWithError err]) ∧
    (c.role = .ShipRoleServer →
      framesWritten (emitted c (handshakeInit_cmiStateInitStart deps c)) = [] ∧
      (handshakeInit_cmiStateInitStart deps c).smeState = .cmiStateServerWait ∧
      (handshakeInit_cmiStateInitStart deps c).handshakeTimerRunning = true ∧
      (handshakeInit_cmiStateInitStart deps c).handshakeTimerType
        = .timeoutTimerTypeWaitForReady ∧
      emitted c (handshakeInit_cmiStateInitStart deps c)
        = [.setHandshakeTimer .timeoutTimerTypeWaitForReady deps.cmiTimeout]) := by
  refine ⟨?_, ?_, ?_, ?_⟩
  · intro hr
    rcases hw : c.DataHandler.WriteMessageToDataConnection shipInit with _ | err <;>
      simp [handshakeInit_cmiStateInitStart, hr, hw, WriteMessageToDataConnection, setState,
        setHandshakeTimer, endHandshakeWithError, ShipConnection.log, emitted, framesWritten]
  · intro hr hw
    simp [handshakeInit_cmiStateInitStart, hr, hw, WriteMessageToDataConnection, setState,
      setHandshakeTimer, ShipConnection.log, emitted]
  · intro err hr hw
    simp [handshakeInit_cmiStateInitStart, hr, hw, WriteMessageToDataConnection, setState,
      endHandshakeWithError, ShipConnection.log, emitted]
  · intro hr
    simp [handshakeInit_cmiStateInitStart, hr, setState, setHandshakeTimer,
      ShipConnection.log, emitted, framesWritten]

/-- C6 (witness): a client on an open transport writes the INIT frame 0x00 0x00, reaches
`ClientWait` and arms the WaitForReady timer; a server writes nothing and reaches
`ServerWait`. -/
theorem handshakeInit_cmiStateInitStart_roles_witness :
    (handshakeInit_cmiStateInitStart sampleDeps
      (newConnection .ShipRoleClient openTransport)).smeState = .cmiStateClientWait ∧
    emitted (newConnection .ShipRoleClient openTransport)
      (handshakeInit_cmiStateInitStart sampleDeps (newConnection .ShipRoleClient openTransport))
      = [.WriteMessageToDataConnection [0, 0],
          .setHandshakeTimer .timeoutTimerTypeWaitForReady 10] ∧
    (handshakeInit_cmiStateInitStart sampleDeps
      (newConnection .ShipRoleServer openTransport)).smeState = .cmiStateServerWait ∧
    framesWritten (emitted (newConnection .ShipRoleServer openTransport)
      (handshakeInit_cmiStateInitStart sampleDeps (newConnection .ShipRoleServer openTransport)))
      = [] :=
  ⟨((handshakeInit_cmiStateInitStart_roles sampleDeps
      (newConnection .ShipRoleClient openTransport)).2.1 rfl rfl).1,
    ((handshakeInit_cmiStateInitStart_roles sampleDeps
      (newConnection .ShipRoleClient openTransport)).2.1 rfl rfl).2.2.2,
    ((handshakeInit_cmiStateInitStart_roles sampleDeps
      (newConnection .ShipRoleServer openTransport)).2.2.2 rfl).2.1,
    ((handshakeInit_cmiStateInitStart_roles sampleDeps
      (newConnection .ShipRoleServer openTransport)).2.2.2 rfl).1⟩

/-- A message that passes the INIT check: the check returns true and changes nothing. -/
theorem handshakeInit_cmiStateEvaluate_pass (deps : Deps) (c : ShipConnection) (rest : Bytes) :
    handshakeInit_cmiStateEvaluate deps (0 :: 0 :: rest) c = .done c true := by
  simp [handshakeInit_cmiStateEvaluate, parseMessage, MsgTypeInit]

/-- A message with a wrong type tag fails the INIT check. -/
theorem handshakeInit_cmiStateEvaluate_wrong_type (deps : Deps) (c : ShipConnection)
    (t : Nat) (rest : Bytes) (ht : t ≠ 0) :
    handshakeInit_cmiStateEvaluate deps (t :: rest) c
      = .done (endHandshakeWithError (.invalidMessageType t) c) false := by
  simp [handshakeInit_cmiStateEvaluate, parseMessage, MsgTypeInit, ht]

/-- A message with the INIT tag and a wrong payload byte fails the INIT check. -/
theorem handshakeInit_cmiStateEvaluate_wrong_value (deps : Deps) (c : ShipConnection)
    (b : Nat) (rest : Bytes) (hb : b ≠ 0) :
    handshakeInit_cmiStateEvaluate deps (0 :: b :: rest) c
      = .done (endHandshakeWithError (.invalidMessageValue (b :: rest)) c) false := by
  simp [handshakeInit_cmiStateEvaluate, parseMessage, MsgTypeInit, hb]

/-- C7: the INIT wait states.  On a message that passes INIT validation (type tag 0x00 and
payload byte 0x00) the client writes nothing and sets the state to `Hello`; the server first
writes its own INIT frame, sets the state to `Hello` when that write succeeds, and ends the
handshake with the write error, without reaching `Hello`, when it fails.  On a message that
fails INIT validation (a wrong type tag, or the INIT tag with a wrong payload byte) both end the
handshake with an error as their only call: the state is not set to `Hello` and no frame is
written. -/
theorem handshakeInit_wait_states (deps : Deps) (c : ShipConnection) (rest : Bytes) :
    (∃ r, handshakeInit_cmiStateClientWait deps (0 :: 0 :: rest) c = .done r () ∧
      r.smeState = .smeHelloState ∧ emitted c r = [.handleState false none]) ∧
    (c.DataHandler.WriteMessageToDataConnection shipInit = none →
      ∃ r, handshakeInit_cmiStateServerWait deps (0 :: 0 :: rest) c = .done r () ∧
        r.smeState = .smeHelloState ∧
        emitted c r = [.WriteMessageToDataConnection shipInit, .handleState false none]) ∧
    (∀ err, c.DataHandler.WriteMessageToDataConnection shipInit = some err →
      ∃ r, handshakeInit_cmiStateServerWait deps (0 :: 0 :: rest) c = .done r () ∧
        r.smeState ≠ .smeHelloState ∧
        emitted c r = [.WriteMessageToDataConnection shipInit, .endHandshakeWithError err]) ∧
    (∀ t, t ≠ 0 →
      (∃ r, handshakeInit_cmiStateClientWait deps (t :: rest) c = .done r () ∧
        r.smeState ≠ .smeHelloState ∧
        emitted c r = [.endHandshakeWithError (.invalidMessageType t)]) ∧
      (∃ r, handshakeInit_cmiStateServerWait deps (t :: rest) c = .done r () ∧
        r.smeState ≠ .smeHelloState ∧
        emitted c r = [.endHandshakeWithError (.invalidMessageType t)])) ∧
    (∀ b, b ≠ 0 →
      (∃ r, handshakeInit_cmiStateClientWait deps (0 :: b :: rest) c = .done r () ∧
        r.smeState ≠ .smeHelloState ∧
        emitted c r = [.endHandshakeWithError (.invalidMessageValue (b :: rest))]) ∧
      (∃ r, handshakeInit_cmiStateServerWait deps (0 :: b :: rest) c = .done r () ∧
        r.smeState ≠ .smeHelloState ∧
        emitted c r = [.endHandshakeWithError (.invalidMessageValue (b :: rest))])) := by
  refine ⟨?_, ?_, ?_, ?_, ?_⟩
  · simp [handshakeInit_cmiStateClientWait, handshakeInit_cmiStateEvaluate_pass, Run.bind,
      handleState, setState, ShipConnection.log, emitted]
  · intro hw
    simp [handshakeInit_cmiStateServerWait, handshakeInit_cmiStateEvaluate_pass, Run.bind,
      WriteMessageToDataConnection, hw, handleState, setState, ShipConnection.log, emitted]
  · intro err hw
    simp [handshakeInit_cmiStateServerWait, handshakeInit_cmiStateEvaluate_pass, Run.bind,
      WriteMessageToDataConnection, hw, endHandshakeWithError, ShipConnection.log, emitted]
  · intro t ht
    simp [handshakeInit_cmiStateClientWait, handshakeInit_cmiStateServerWait,
      handshakeInit_cmiStateEvaluate_wrong_type _ _ _ _ ht, Run.bind,
      endHandshakeWithError, ShipConnection.log, emitted]
  · intro b hb
    simp [handshakeInit_cmiStateClientWait, handshakeInit_cmiStateServerWait,
      handshakeInit_cmiStateEvaluate_wrong_value _ _ _ _ hb, Run.bind,
      endHandshakeWithError, ShipConnection.log, emitted]

/-- C7 (witness): a server in its wait state receives the INIT frame 0x00 0x00 on an open
transport, writes its own INIT frame and reaches `Hello`; on the frame 0x00 0x01 it ends the
handshake and writes nothing. -/
theorem handshakeInit_wait_states_witness :
    (∃ r, handshakeInit_cmiStateServerWait sampleDeps [0, 0]
        (newConnection .ShipRoleServer openTransport) = .done r () ∧
      r.smeState = .smeHelloState ∧
      emitted (newConnection .ShipRoleServer openTransport) r
        = [.WriteMessageToDataConnection shipInit, .handleState false none]) ∧
    (∃ r, handshakeInit_cmiStateServerWait sampleDeps [0, 1]
        (newConnection .ShipRoleServer openTransport) = .done r () ∧
      r.smeState ≠ .smeHelloState ∧
      emitted (newConnection .ShipRoleServer openTransport) r
        = [.endHandshakeWithError (.invalidMessageValue [1])]) :=
  ⟨(handshakeInit_wait_states sampleDeps (newConnection .ShipRoleServer openTransport)
      []).2.1 rfl,
    ((handshakeInit_wait_states sampleDeps (newConnection .ShipRoleServer openTransport)
      []).2.2.2.2 1 (by decide)).2⟩

/-! ## Routing of incoming messages -/

/-- The scan `bytesContains` decides whether `sep` is a contiguous part of `s`. -/
theorem bytesContains_iff (s sep : Bytes) :
    bytesContains s sep = true ↔ sep <:+: s := by
  induction s with
  | nil =>
    cases sep <;> simp [bytesContains, List.isPrefixOf]
  | cons b rest ih =>
    rw [bytesContains, Bool.or_eq_true, ih, List.infix_cons_iff, List.isPrefixOf_iff_prefix]

/-- A message with the literal `datagram` in it is dropped or handed to the SPINE reader. -/
theorem HandleIncomingShipMessage_spine (deps : Deps) (message : Bytes) (c : ShipConnection)
    (h : hasSpineDatagram message = true) :
    HandleIncomingShipMessage deps message c = c ∨
    ∃ payload, HandleIncomingShipMessage deps message c
      = c.log (.HandleIncomingSpineMesssage payload) := by
  unfold HandleIncomingShipMessage
  simp only [h, Bool.not_true, Bool.false_eq_true, if_false]
  rcases shipModelFromMessage deps message with err | data
  · exact Or.inl rfl
  · cases hs : c.spineDataProcessing
    · exact Or.inl (by simp)
    · exact Or.inr ⟨data.Data.Payload.getD [], by simp [HandleIncomingSpineMesssage]⟩

set_option maxRecDepth 100000 in
/-- The sample DATA frame holds the literal `datagram`. -/
theorem sampleDataFrame_has_datagram : datagramLiteral <:+: sampleDataFrame :=
  (bytesContains_iff _ _).1 (by decide)

set_option maxRecDepth 100000 in
/-- The sample codec decodes the body of the sample DATA frame into a SHIP data message whose
payload is the sample SPINE message. -/
theorem sampleDataFrame_decodes :
    sampleDeps.jsonUnmarshalShipData (sampleDeps.JsonFromEEBUSJson
        (sampleEnvelopeStart ++ sampleSpineEEBUS ++ sampleEnvelopeEnd))
      = .ok { Data := { Header := { ProtocolId := "ee1.0" }
                        Payload := some sampleSpineMessage } } := by
  rfl

/-- A message with the literal `datagram` in it is decoded as a SHIP data message: when it
decodes and carries a payload and the SPINE reader is set, the payload is handed to the reader;
otherwise the connection is left as it is. -/
theorem HandleIncomingShipMessage_decodes (deps : Deps) (t : Nat) (body : Bytes)
    (c : ShipConnection) (h : hasSpineDatagram (t :: body) = true) :
    (∀ data payload, deps.jsonUnmarshalShipData (deps.JsonFromEEBUSJson body) = .ok data →
      data.Data.Payload = some payload → c.spineDataProcessing = true →
      HandleIncomingShipMessage deps (t :: body) c
        = c.log (.HandleIncomingSpineMesssage payload)) ∧
    (((∃ err, deps.jsonUnmarshalShipData (deps.JsonFromEEBUSJson body) = .error err) ∨
        (∃ data, deps.jsonUnmarshalShipData (deps.JsonFromEEBUSJson body) = .ok data ∧
          data.Data.Payload = none) ∨
        c.spineDataProcessing = false) →
      HandleIncomingShipMessage deps (t :: body) c = c) := by
  unfold HandleIncomingShipMessage shipModelFromMessage
  simp only [h, Bool.not_true, Bool.false_eq_true, if_false, parseMessage, if_true]
  constructor
  · intro data payload hdata hpayload hreader
    simp [hdata, hpayload, hreader, HandleIncomingSpineMesssage]
  · rintro (⟨err, herr⟩ | ⟨data, hdata, hpayload⟩ | hreader)
    · simp [herr]
    · simp [hdata, hpayload]
    · rcases deps.jsonUnmarshalShipData (deps.JsonFromEEBUSJson body) with err | data
      · rfl
      · cases hp : data.Data.Payload <;> simp [hreader, hp]

/-- C8: for every incoming message, `HandleIncomingShipMessage` gives the message to the SHIP
state machine if and only if the message does not contain the byte sequence "datagram"; then
that hand-over is its only call.  A message that contains the sequence is never given to the
SHIP state machine, whatever its type byte and the handshake state, and it is treated as SPINE
data: the bytes after the type byte are decoded as a SHIP data message, and when they decode
with a payload and the SPINE reader is set, the one call made is `HandleIncomingSpineMesssage`
with that payload; when they do not decode, carry no payload, or no reader is set, no call
is made. -/
theorem HandleIncomingShipMessage_routing (deps : Deps) (message : Bytes) (c : ShipConnection) :
    (Event.handleShipMessage false (some message)
        ∈ emitted c (HandleIncomingShipMessage deps message c)
      ↔ ¬ datagramLiteral <:+: message) ∧
    (¬ datagramLiteral <:+: message →
      emitted c (HandleIncomingShipMessage deps message c)
        = [.handleShipMessage false (some message)]) ∧
    (datagramLiteral <:+: message →
      (∀ timeout m, Event.handleShipMessage timeout m
        ∉ emitted c (HandleIncomingShipMessage deps message c)) ∧
      (∃ t body, message = t :: body ∧
        (∀ data payload,
          deps.jsonUnmarshalShipData (deps.JsonFromEEBUSJson body) = .ok data →
          data.Data.Payload = some payload → c.spineDataProcessing = true →
          emitted c (HandleIncomingShipMessage deps message c)
            = [.HandleIncomingSpineMesssage payload]) ∧
        (((∃ err, deps.jsonUnmarshalShipData (deps.JsonFromEEBUSJson body) = .error err) ∨
            (∃ data, deps.jsonUnmarshalShipData (deps.JsonFromEEBUSJson body) = .ok data ∧
              data.Data.Payload = none) ∨
            c.spineDataProcessing = false) →
          emitted c (HandleIncomingShipMessage deps message c) = []))) := by
  by_cases hd : datagramLiteral <:+: message
  · have hb : hasSpineDatagram message = true := (bytesContains_iff _ _).2 hd
    refine ⟨?_, fun hn => absurd hd hn, fun _ => ⟨?_, ?_⟩⟩
    · rcases HandleIncomingShipMessage_spine deps message c hb with he | ⟨payload, he⟩ <;>
        simp [he, hd, emitted, ShipConnection.log]
    · rcases HandleIncomingShipMessage_spine deps message c hb with he | ⟨payload, he⟩ <;>
        simp [he, emitted, ShipConnection.log]
    · cases message with
      | nil =>
        exfalso
        revert hb
        decide
      | cons t body =>
        have hdec := HandleIncomingShipMessage_decodes deps t body c hb
        refine ⟨t, body, rfl, ?_, ?_⟩
        · intro data payload hdata hpayload hreader
          rw [hdec.1 data payload hdata hpayload hreader]
          simp [emitted, ShipConnection.log]
        · intro hcase
          rw [hdec.2 hcase]
          simp [emitted]
  · have hb : hasSpineDatagram message = false := by
      rw [← Bool.not_eq_true]
      exact fun hh => hd ((bytesContains_iff _ _).1 hh)
    simp [HandleIncomingShipMessage, hb, hd, handleShipMessage, emitted, ShipConnection.log]

/-- C8 (witness): the CONTROL frame with body `hello` goes to the SHIP state machine; the
CONTROL frame with body `datagram` does not; and the DATA frame that carries the sample SPINE
message in the sample envelope is given, as that message, to the SPINE reader. -/
theorem HandleIncomingShipMessage_routing_witness :
    emitted completeConnection
        (HandleIncomingShipMessage sampleDeps (1 :: ascii "hello") completeConnection)
      = [.handleShipMessage false (some (1 :: ascii "hello"))] ∧
    (∀ timeout m, Event.handleShipMessage timeout m ∉ emitted completeConnection
        (HandleIncomingShipMessage sampleDeps (1 :: ascii "datagram") completeConnection)) ∧
    emitted readingConnection
        (HandleIncomingShipMessage sampleDeps sampleDataFrame readingConnection)
      = [.HandleIncomingSpineMesssage sampleSpineMessage] := by
  refine ⟨(HandleIncomingShipMessage_routing sampleDeps (1 :: ascii "hello")
      completeConnection).2.1 (by decide),
    ((HandleIncomingShipMessage_routing sampleDeps (1 :: ascii "datagram")
      completeConnection).2.2 (by decide)).1, ?_⟩
  obtain ⟨t, body, hm, hok, _⟩ := ((HandleIncomingShipMessage_routing sampleDeps
    sampleDataFrame readingConnection).2.2 sampleDataFrame_has_datagram).2
  have hbody : body = sampleEnvelopeStart ++ sampleSpineEEBUS ++ sampleEnvelopeEnd := by
    have := hm
    simp only [sampleDataFrame, List.cons.injEq] at this
    exact this.2.symm
  subst hbody
  exact hok _ sampleSpineMessage sampleDataFrame_decodes rfl rfl

/-- C9 (as amended): a codec error on an incoming frame drops the frame and does not close the
connection: whenever `HandleIncomingShipMessage` receives a frame classified as SPINE data
whose body fails to decode (malformed JSON, or no payload field), it returns the connection
exactly as it was; no shutdown action runs, `shutdownOnce` is untouched and nothing is given
to the SPINE reader. -/
theorem HandleIncomingShipMessage_codec_error_drops (deps : Deps) (message : Bytes)
    (c : ShipConnection) (err : ShipError)
    (hd : datagramLiteral <:+: message)
    (he : shipModelFromMessage deps message = .error err) :
    HandleIncomingShipMessage deps message c = c ∧
      emitted c (HandleIncomingShipMessage deps message c) = [] := by
  have hb : hasSpineDatagram message = true := (bytesContains_iff _ _).2 hd
  have hc : HandleIncomingShipMessage deps message c = c := by
    simp [HandleIncomingShipMessage, hb, he]
  rw [hc]
  exact ⟨rfl, by simp [emitted]⟩

/-- C9 (witness): the DATA frame whose body is the text `datagram`, which is not JSON. -/
theorem HandleIncomingShipMessage_codec_error_drops_witness :
    HandleIncomingShipMessage sampleDeps (2 :: ascii "datagram") completeConnection
      = completeConnection ∧
    emitted completeConnection
      (HandleIncomingShipMessage sampleDeps (2 :: ascii "datagram") completeConnection) = [] :=
  HandleIncomingShipMessage_codec_error_drops sampleDeps (2 :: ascii "datagram")
    completeConnection (.external "invalid JSON") ⟨[2], [], by decide⟩ rfl

/-- C9 (counterexample): the DATA frame whose body is the text `datagram` is classified as
SPINE data and fails to decode, and after `HandleIncomingShipMessage` the connection has made
no call and its `shutdownOnce` is still unused, which no `CloseConnection` call leaves so. -/
theorem HandleIncomingShipMessage_codec_error_no_close :
    hasSpineDatagram (2 :: ascii "datagram") = true ∧
    shipModelFromMessage sampleDeps (2 :: ascii "datagram") = .error (.external "invalid JSON") ∧
    (HandleIncomingShipMessage sampleDeps (2 :: ascii "datagram")
      completeConnection).shutdownOnce = .idle ∧
    (HandleIncomingShipMessage sampleDeps (2 :: ascii "datagram") completeConnection).trace
      = [] ∧
    ∀ safe reason,
      (CloseConnection sampleDeps safe reason completeConnection).conn.shutdownOnce ≠ .idle :=
  ⟨by decide, rfl, rfl, rfl,
    fun safe reason => CloseConnection_moves_once sampleDeps safe reason completeConnection rfl⟩

/-! ## The SHIP data envelope -/

/-- Skipping the rest of a matched occurrence. -/
theorem replaceFrom_skip (old new : Bytes) (xs ys : Bytes) :
    replaceFrom old new xs.length (xs ++ ys) = replaceFrom old new 0 ys := by
  induction xs with
  | nil => rfl
  | cons x xs ih => simpa [replaceFrom] using ih

/-- A text without an occurrence of the pattern is left as it is. -/
theorem replaceFrom_no_occurrence (old new : Bytes) (s : Bytes) (h : ¬ old <:+: s) :
    replaceFrom old new 0 s = s := by
  induction s with
  | nil => rfl
  | cons b rest ih =>
    have hp : ¬ old <+: b :: rest := fun hh => h hh.isInfix
    have hr : ¬ old <:+: rest := fun hh => h (List.infix_cons hh)
    have hf : old.isPrefixOf (b :: rest) = false := by
      rw [← Bool.not_eq_true, List.isPrefixOf_iff_prefix]
      exact hp
    simp [replaceFrom, hf, ih hr]

/-- The scan at an occurrence of the pattern. -/
theorem replaceFrom_at_occurrence (old new post : Bytes) (hne : old ≠ []) :
    replaceFrom old new 0 (old ++ post) = new ++ replaceFrom old new 0 post := by
  cases old with
  | nil => exact absurd rfl hne
  | cons o os =>
    have hp : (o :: os).isPrefixOf (o :: (os ++ post)) = true := by
      rw [List.isPrefixOf_iff_prefix]
      exact List.prefix_append (o :: os) post
    have hs := replaceFrom_skip (o :: os) new os post
    show replaceFrom (o :: os) new 0 (o :: (os ++ post)) = _
    rw [replaceFrom, if_pos hp]
    simp only [List.length_cons, Nat.add_sub_cancel]
    rw [hs]

/-- The scan before the first occurrence of the pattern copies the text. -/
theorem replaceFrom_before_occurrence (old new pre tail : Bytes)
    (h : ∀ pre1 pre2, pre = pre1 ++ pre2 → pre2 ≠ [] → ¬ old <+: pre2 ++ tail) :
    replaceFrom old new 0 (pre ++ tail) = pre ++ replaceFrom old new 0 tail := by
  induction pre with
  | nil => rfl
  | cons p pre ih =>
    have hp : ¬ old <+: (p :: pre) ++ tail := h [] (p :: pre) rfl (by simp)
    have hf : old.isPrefixOf (p :: (pre ++ tail)) = false := by
      rw [← Bool.not_eq_true, List.isPrefixOf_iff_prefix]
      exact hp
    have ih1 := ih (fun pre1 pre2 hpre hne => h (p :: pre1) pre2 (by simp [hpre]) hne)
    simp [replaceFrom, hf, ih1]

/-- Go's `strings.ReplaceAll` splices: when the pattern `old` stands between `pre` and `post`,
does not start earlier and does not occur in `post`, the result is `pre`, then the new text as
it is (the new text is not scanned), then `post`. -/
theorem stringsReplaceAll_splice (old new pre post : Bytes) (hne : old ≠ [])
    (h1 : ¬ old <:+: pre ++ old.dropLast) (h2 : ¬ old <:+: post) :
    stringsReplaceAll (pre ++ old ++ post) old new = pre ++ new ++ post := by
  have hpre : ∀ pre1 pre2, pre = pre1 ++ pre2 → pre2 ≠ [] → ¬ old <+: pre2 ++ (old ++ post) := by
    intro pre1 pre2 hp hne2 hpf
    apply h1
    have hlen : old.length ≤ (pre2 ++ old.dropLast).length := by
      have : 0 < pre2.length := List.length_pos.2 hne2
      have : 0 < old.length := List.length_pos.2 hne
      simp only [List.length_append, List.length_dropLast]
      omega
    have hsplit : pre2 ++ (old ++ post)
        = (pre2 ++ old.dropLast) ++ (old.getLast hne :: post) := by
      conv_lhs => rw [← List.dropLast_append_getLast hne]
      simp
    have hpf2 : old <+: pre2 ++ old.dropLast :=
      List.prefix_of_prefix_length_le hpf (hsplit ▸ List.prefix_append _ _) hlen
    obtain ⟨t, ht⟩ := hpf2
    exact ⟨pre1, t, by rw [hp, List.append_assoc, ht, List.append_assoc]⟩
  unfold stringsReplaceAll
  rw [List.append_assoc, replaceFrom_before_occurrence old new pre (old ++ post) hpre,
    replaceFrom_at_occurrence old new post hne, replaceFrom_no_occurrence old new post h2,
    List.append_assoc]

/-- An unsafe `CloseConnection` writes no frame, however it ends. -/
theorem CloseConnection_unsafe_writes_nothing (deps : Deps) (reason : String)
    (c : ShipConnection) :
    framesWritten (emitted c (CloseConnection deps false reason c).conn) = [] := by
  cases h : c.shutdownOnce with
  | idle =>
    rw [CloseConnection_not_safe deps false reason c h (Or.inl rfl),
      emitted_append c (Run.conn (.done (afterUnsafeClose c) ())) _ rfl]
    rfl
  | running =>
    rw [CloseConnection_of_running deps false reason c h]
    simp [Run.conn, emitted, framesWritten]
  | done =>
    rw [CloseConnection_of_done deps false reason c h]
    simp [Run.conn, emitted, framesWritten]

/-- On a transport reported closed `sendSpineData` writes nothing once the message is
transformed: it runs an unsafe close in place of the write. -/
theorem sendSpineData_closed (deps : Deps) (data out : Bytes) (c : ShipConnection)
    (ht : transformSpineDataIntoShipJson deps data = .ok out)
    (hc : c.DataHandler.IsDataConnectionClosed = true) :
    sendSpineData deps data c
        = (CloseConnection deps false "" c).bind
            (fun c1 _ => .done c1 (some .connectionIsClosed)) ∧
      framesWritten (emitted c (sendSpineData deps data c).conn) = [] := by
  have hs : sendSpineData deps data c
      = (CloseConnection deps false "" c).bind
          (fun c1 _ => .done c1 (some .connectionIsClosed)) := by
    simp [sendSpineData, ht, hc]
  refine ⟨hs, ?_⟩
  have hw := CloseConnection_unsafe_writes_nothing deps "" c
  rw [hs]
  cases hr : CloseConnection deps false "" c <;> simpa [hr, Run.bind, Run.conn] using hw

/-- C10 (as amended): with `msg` the JSON text of the SHIP data envelope, for every SPINE
message `d`: `transformSpineDataIntoShipJson(d)` fails exactly when `JsonIntoEEBUSJson` fails
on `d` or on the envelope; when both succeed it is the transformed envelope with the bracketed
placeholder replaced by `JsonIntoEEBUSJson(d)`, so that for an envelope `pre`, bracketed
placeholder, `post` it is `pre`, then `JsonIntoEEBUSJson(d)` verbatim (not wrapped again, and
unchanged whatever text it holds), then `post`; and `sendSpineData`, when the data connection is
not reported closed, makes exactly one call, the write of that result prefixed by the type
byte DATA (0x02), and returns the answer of the write.  When the data connection is reported
closed `sendSpineData` writes nothing. -/
theorem transformSpineDataIntoShipJson_splices (deps : Deps) (msg : Bytes)
    (hm : deps.jsonMarshal (.shipData (shipMessageEnvelope deps)) = .ok msg) :
    (∀ d, (∃ err, transformSpineDataIntoShipJson deps d = .error err) ↔
      ((∃ err, deps.JsonIntoEEBUSJson d = .error err) ∨
        (∃ err, deps.JsonIntoEEBUSJson msg = .error err))) ∧
    (∀ d spineMsg eebusMsg, deps.JsonIntoEEBUSJson d = .ok spineMsg →
      deps.JsonIntoEEBUSJson msg = .ok eebusMsg →
      transformSpineDataIntoShipJson deps d
        = .ok (stringsReplaceAll eebusMsg ([91] ++ payloadPlaceholder ++ [93]) spineMsg)) ∧
    (∀ d spineMsg pre post, deps.JsonIntoEEBUSJson d = .ok spineMsg →
      deps.JsonIntoEEBUSJson msg = .ok (pre ++ bracketedPlaceholder ++ post) →
      ¬ bracketedPlaceholder <:+: pre ++ bracketedPlaceholder.dropLast →
      ¬ bracketedPlaceholder <:+: post →
      transformSpineDataIntoShipJson deps d = .ok (pre ++ spineMsg ++ post)) ∧
    (∀ d out c, transformSpineDataIntoShipJson deps d = .ok out →
      c.DataHandler.IsDataConnectionClosed = false →
      ∃ r, sendSpineData deps d c
          = .done r (c.DataHandler.WriteMessageToDataConnection (2 :: out)) ∧
        emitted c r = [.WriteMessageToDataConnection (2 :: out)]) ∧
    (∀ d out c, transformSpineDataIntoShipJson deps d = .ok out →
      c.DataHandler.IsDataConnectionClosed = true →
      framesWritten (emitted c (sendSpineData deps d c).conn) = []) := by
  have hgen : ∀ d spineMsg eebusMsg, deps.JsonIntoEEBUSJson d = .ok spineMsg →
      deps.JsonIntoEEBUSJson msg = .ok eebusMsg →
      transformSpineDataIntoShipJson deps d
        = .ok (stringsReplaceAll eebusMsg bracketedPlaceholder spineMsg) := by
    intro d spineMsg eebusMsg hd he
    simp [transformSpineDataIntoShipJson, hd, hm, he]
  refine ⟨?_, hgen, ?_, ?_, ?_⟩
  · intro d
    rcases hd : deps.JsonIntoEEBUSJson d with err | spineMsg
    · simp [transformSpineDataIntoShipJson, hd]
    · rcases he : deps.JsonIntoEEBUSJson msg with err | eebusMsg
      · simp [transformSpineDataIntoShipJson, hd, hm, he]
      · simp [transformSpineDataIntoShipJson, hd, hm, he]
  · intro d spineMsg pre post hd he h1 h2
    rw [hgen d spineMsg _ hd he,
      stringsReplaceAll_splice bracketedPlaceholder spineMsg pre post (by decide) h1 h2]
  · intro d out c ht ho
    rcases hw : c.DataHandler.WriteMessageToDataConnection (2 :: out) with _ | err <;>
      simp [sendSpineData, ht, ho, hw, WriteMessageToDataConnection, MsgTypeData,
        ShipConnection.log, emitted]
  · intro d out c ht hc
    exact (sendSpineData_closed deps d out c ht hc).2

set_option maxRecDepth 100000 in
/-- C10 (witness): under the sample codec the sample SPINE message, which holds the
placeholder text itself, is spliced into the envelope unchanged. -/
theorem transformSpineDataIntoShipJson_splices_witness :
    transformSpineDataIntoShipJson sampleDeps sampleSpineMessage
      = .ok (sampleEnvelopeStart ++ sampleSpineEEBUS ++ sampleEnvelopeEnd) :=
  (transformSpineDataIntoShipJson_splices sampleDeps
    (ascii ("\x7b\"data\":\x7b\"header\":\x7b\"protocolId\":\"ee1.0\"\x7d," ++
      "\"payload\":\x7b\"place\":\"holder\"\x7d\x7d\x7d")) rfl).2.2.1
    sampleSpineMessage sampleSpineEEBUS sampleEnvelopeStart sampleEnvelopeEnd rfl rfl
    (by decide) (by decide)

/-- C10 (counterexample): the sample SPINE message is transformed without error, and on a
connection whose transport reports the data connection as closed `sendSpineData` returns the
error "connection is closed" after an unsafe close, without writing any frame. -/
theorem sendSpineData_closed_transport_writes_nothing :
    transformSpineDataIntoShipJson sampleDeps sampleSpineMessage
      = .ok (sampleEnvelopeStart ++ sampleSpineEEBUS ++ sampleEnvelopeEnd) ∧
    completeClosedConnection.DataHandler.IsDataConnectionClosed = true ∧
    sendSpineData sampleDeps sampleSpineMessage completeClosedConnection
      = .done (afterUnsafeClose completeClosedConnection) (some .connectionIsClosed) ∧
    framesWritten (emitted completeClosedConnection (afterUnsafeClose completeClosedConnection))
      = [] := by
  have ht : transformSpineDataIntoShipJson sampleDeps sampleSpineMessage
      = .ok (sampleEnvelopeStart ++ sampleSpineEEBUS ++ sampleEnvelopeEnd) := rfl
  refine ⟨ht, rfl, ?_, by decide⟩
  rw [(sendSpineData_closed sampleDeps sampleSpineMessage _ completeClosedConnection ht rfl).1,
    CloseConnection_not_safe sampleDeps false "" completeClosedConnection rfl (Or.inl rfl)]
  rfl

/-! ## The INIT check on short messages -/

/-- C29 (what the code does): on the empty message and on the lone type byte 0x00
`handshakeInit_cmiStateEvaluate` panics: `parseMessage` gives the type 0, which is INIT, and no
payload, and `data[0]` reads a byte that is not there; the handshake is not ended.  On a lone
type byte other than 0x00 it ends the handshake with an error and returns false. -/
theorem handshakeInit_cmiStateEvaluate_short_message (deps : Deps) (c : ShipConnection) :
    parseMessage deps [] false = (MsgTypeInit, []) ∧
    handshakeInit_cmiStateEvaluate deps [] c = .panicked c ∧
    handshakeInit_cmiStateEvaluate deps [0] c = .panicked c ∧
    (∀ t, t ≠ 0 →
      handshakeInit_cmiStateEvaluate deps [t] c
        = .done (endHandshakeWithError (.invalidMessageType t) c) false) ∧
    (∀ message : Bytes, message.length < 2 →
      ((∃ r, handshakeInit_cmiStateEvaluate deps message c = .done r false)
        ↔ ∃ t, message = [t] ∧ t ≠ 0)) := by
  refine ⟨rfl, rfl, rfl, ?_, ?_⟩
  · intro t ht
    exact handshakeInit_cmiStateEvaluate_wrong_type deps c t [] ht
  · intro message hlen
    match message, hlen with
    | [], _ => simp [handshakeInit_cmiStateEvaluate, parseMessage, MsgTypeInit]
    | [t], _ =>
      by_cases ht : t = 0
      · subst ht
        simp [handshakeInit_cmiStateEvaluate, parseMessage, MsgTypeInit]
      · simp [handshakeInit_cmiStateEvaluate, parseMessage, MsgTypeInit, ht]
    | _ :: _ :: _, h => exact absurd h (by simp)

end Ship

namespace Spine

open Ship (Bytes)

/-! ## Maximum response delay -/

/-- C11 (what the code does): for every remote feature and every duration text that the
period package parses without error, `SetMaxResponseDelay` leaves the feature as it is, so
`MaxResponseDelayDuration` stays what it was before the call (ten seconds on a feature
whose delay was never stored), whatever duration the text denotes. -/
theorem SetMaxResponseDelay_valid_text_is_dropped (period : PeriodPackage)
    (r : FeatureRemoteImpl) (text : String) (h : (period.Parse text).2 = none) :
    r.SetMaxResponseDelay period (some text) = r ∧
    (r.SetMaxResponseDelay period (some text)).MaxResponseDelayDuration
      = r.MaxResponseDelayDuration ∧
    (r.maxResponseDelay = none →
      (r.SetMaxResponseDelay period (some text)).MaxResponseDelayDuration
        = defaultMaxResponseDelay) := by
  have hr : r.SetMaxResponseDelay period (some text) = r := by
    unfold FeatureRemoteImpl.SetMaxResponseDelay
    rcases hp : period.Parse text with ⟨p, err⟩
    rw [hp] at h
    simp only at h
    subst h
    simp [hp]
  rw [hr]
  refine ⟨rfl, rfl, ?_⟩
  intro hn
  simp [FeatureRemoteImpl.MaxResponseDelayDuration, hn]

/-- C11 (failing input): the text "PT0.1S" denotes 100 ms; after `SetMaxResponseDelay` with it
on a new feature `MaxResponseDelayDuration` is still ten seconds. -/
theorem SetMaxResponseDelay_valid_text_is_dropped_witness :
    samplePeriod.DurationApprox (samplePeriod.Parse "PT0.1S").1 = (100000000 : Int) ∧
    (sampleFeature.SetMaxResponseDelay samplePeriod (some "PT0.1S")).MaxResponseDelayDuration
      = 10000000000 :=
  ⟨rfl,
    (SetMaxResponseDelay_valid_text_is_dropped samplePeriod sampleFeature "PT0.1S" rfl).2.2 rfl⟩

/-- C12 (what the code does): a feature whose delay was never set, or was set with nil,
reports ten seconds; a feature whose delay is set with a text the period package rejects
stores the duration of the period returned along with the error, and reports that duration
instead of ten seconds. -/
theorem SetMaxResponseDelay_invalid_text_is_stored (period : PeriodPackage)
    (r : FeatureRemoteImpl) (text err : String) (h : (period.Parse text).2 = some err) :
    (r.maxResponseDelay = none → r.MaxResponseDelayDuration = defaultMaxResponseDelay) ∧
    r.SetMaxResponseDelay period none = r ∧
    (r.SetMaxResponseDelay period (some text)).MaxResponseDelayDuration
      = period.DurationApprox (period.Parse text).1 := by
  refine ⟨?_, rfl, ?_⟩
  · intro hn
    simp [FeatureRemoteImpl.MaxResponseDelayDuration, hn]
  · unfold FeatureRemoteImpl.SetMaxResponseDelay
    rcases hp : period.Parse text with ⟨p, e⟩
    rw [hp] at h
    simp only at h
    subst h
    simp [FeatureRemoteImpl.MaxResponseDelayDuration, hp]

/-- C12 (failing input): after `SetMaxResponseDelay` with the text "abc", which is no duration,
a new feature reports zero, not ten seconds. -/
theorem SetMaxResponseDelay_invalid_text_is_stored_witness :
    (samplePeriod.Parse "abc").2 = some "period: cannot parse" ∧
    (sampleFeature.SetMaxResponseDelay samplePeriod (some "abc")).MaxResponseDelayDuration = 0 ∧
    defaultMaxResponseDelay = 10000000000 :=
  ⟨rfl,
    (SetMaxResponseDelay_invalid_text_is_stored samplePeriod sampleFeature "abc"
      "period: cannot parse" rfl).2.2,
    rfl⟩

/-! ## Measurement elements -/

/-- C13 (as amended): for every source and destination measurement element, `CopyData` gives
the destination the source's timestamp, evaluation period, value state, value and value
tendency, present or absent (an absent source field clears the destination's field), and
leaves the destination's measurementId and valueType as they were; with a nil source the
destination is unchanged. -/
theorem CopyData_overwrites_data_fields (r : MeasurementListDataType_Updater)
    (source dest : MeasurementDataType) :
    (∃ d, r.CopyData (some source) (some dest) = some d ∧
      d.Timestamp = source.Timestamp ∧
      d.EvaluationPeriod = source.EvaluationPeriod ∧
      d.ValueState = source.ValueState ∧
      d.Value = source.Value ∧
      d.ValueTendency = source.ValueTendency ∧
      d.MeasurementId = dest.MeasurementId ∧
      d.ValueType = dest.ValueType) ∧
    r.CopyData none (some dest) = some dest :=
  ⟨⟨_, rfl, rfl, rfl, rfl, rfl, rfl, rfl, rfl⟩, rfl⟩

/-- C13 (counterexample): the source holds only a measurementId, the destination holds the value
5; after `CopyData` the destination's value is absent. -/
theorem CopyData_clears_absent_fields :
    ({ measurement 1 0 with Value := none } : MeasurementDataType).Value = none ∧
    (measurement 1 5).Value = some 5 ∧
    plainUpdater.CopyData (some { measurement 1 0 with Value := none }) (some (measurement 1 5))
      = some { measurement 1 5 with Value := none } := by
  decide

/-! ## The measurement list update -/

/-- The decimal text of a number determines the number. -/
theorem sprintfDecimal_injective (a b : Nat) (h : sprintfDecimal a = sprintfDecimal b) :
    a = b := by
  have hmap : ∀ l1 l2 : List Nat,
      l1.map (fun d => d + 48) = l2.map (fun d => d + 48) → l1 = l2 := by
    intro l1 l2 hl
    exact List.map_injective_iff.2 (fun x y hxy => Nat.add_right_cancel hxy) hl
  have hzero : ∀ n : Nat, n ≠ 0 → sprintfDecimal n ≠ [48] := by
    intro n hn hs
    simp only [sprintfDecimal, hn, if_false] at hs
    have h1 : (Nat.digits 10 n).reverse = [0] := hmap _ [0] (by simpa using hs)
    have h2 : Nat.digits 10 n = [0] := by
      have := congrArg List.reverse h1
      simpa using this
    have h3 := Nat.getLast_digit_ne_zero 10 hn
    simp [h2] at h3
  by_cases ha : a = 0
  · by_cases hb : b = 0
    · rw [ha, hb]
    · exfalso
      apply hzero b hb
      rw [← h, ha]
      rfl
  · by_cases hb : b = 0
    · exfalso
      apply hzero a ha
      rw [h, hb]
      rfl
    · simp only [sprintfDecimal, ha, hb, if_false] at h
      have h1 := hmap _ _ h
      have h2 : Nat.digits 10 a = Nat.digits 10 b := by
        have := congrArg List.reverse h1
        simpa using this
      exact Nat.digits_inj_iff.1 h2

/-- The natural key of a measurement element is the decimal text of its measurementId. -/
theorem naturalKey_measurement (r : MeasurementListDataType_Updater)
    (x : MeasurementDataType) :
    naturalKey MeasurementDataType.HashKey r.provider x
      = x.MeasurementId.map sprintfDecimal := by
  cases hx : x.MeasurementId <;>
    simp [naturalKey, MeasurementListDataType_Updater.provider,
      MeasurementListDataType_Updater.HasIdentifier, MeasurementDataType.HashKey,
      measurementDataHashKey, hx]

/-- Two measurement elements have the same natural key when they carry the same id. -/
theorem naturalKey_eq_iff (r : MeasurementListDataType_Updater)
    (x y : MeasurementDataType) (k : Bytes)
    (hy : naturalKey MeasurementDataType.HashKey r.provider y = some k) :
    naturalKey MeasurementDataType.HashKey r.provider x = some k
      ↔ (y.MeasurementId.isSome ∧ x.MeasurementId = y.MeasurementId) := by
  rw [naturalKey_measurement] at hy ⊢
  cases hyi : y.MeasurementId with
  | none => simp [hyi] at hy
  | some j =>
    simp only [hyi, Option.map_some', Option.some.injEq] at hy
    subst hy
    cases hxi : x.MeasurementId with
    | none => simp
    | some i =>
      simp only [Option.map_some', Option.some.injEq, Option.isSome_some, true_and]
      exact ⟨fun h => sprintfDecimal_injective i j h, fun h => by rw [h]⟩

/-- An updater without partial filter has no partial selector. -/
theorem HasSelector_partial_of_none (r : MeasurementListDataType_Updater)
    (h : r.FilterProvider.filterPartial = none) :
    r.provider.HasSelector .FilterEnumTypePartial = false := by
  simp [MeasurementListDataType_Updater.provider, MeasurementListDataType_Updater.HasSelector,
    FilterProvider.FilterForEnumType, h]

/-- An updater without delete filter has no delete selector. -/
theorem HasSelector_delete_of_none (r : MeasurementListDataType_Updater)
    (h : r.FilterProvider.filterDelete = none) :
    r.provider.HasSelector .FilterEnumTypeDelete = false := by
  simp [MeasurementListDataType_Updater.provider, MeasurementListDataType_Updater.HasSelector,
    FilterProvider.FilterForEnumType, h]

/-- The key of an incoming element is in the index of the current list exactly when a current
element carries its measurementId. -/
theorem mem_index_iff (r : MeasurementListDataType_Updater)
    (current : List MeasurementDataType) (j : Nat) :
    sprintfDecimal j ∈ current.filterMap (naturalKey MeasurementDataType.HashKey r.provider)
      ↔ some j ∈ current.map (fun x => x.MeasurementId) := by
  simp only [List.mem_filterMap, List.mem_map, naturalKey_measurement]
  constructor
  · rintro ⟨x, hx, hk⟩
    refine ⟨x, hx, ?_⟩
    cases hi : x.MeasurementId with
    | none => simp [hi] at hk
    | some i =>
      simp only [hi, Option.map_some', Option.some.injEq] at hk
      rw [sprintfDecimal_injective i j hk]
  · rintro ⟨x, hx, hi⟩
    exact ⟨x, hx, by simp [hi]⟩

/-- The field-wise overwrite is associative. -/
theorem overwritePresent_assoc (a b c : MeasurementDataType) :
    (a.overwritePresent b).overwritePresent c = a.overwritePresent (b.overwritePresent c) := by
  simp [MeasurementDataType.overwritePresent, Option.or_assoc]

/-- Overwriting an element by itself changes nothing. -/
theorem overwritePresent_self (a : MeasurementDataType) : a.overwritePresent a = a := by
  cases a
  simp [MeasurementDataType.overwritePresent]

/-- An element without fields overwrites nothing. -/
theorem noMeasurement_overwritePresent (a : MeasurementDataType) :
    noMeasurement.overwritePresent a = a := by
  cases a
  simp [MeasurementDataType.overwritePresent, noMeasurement]

/-- Overwriting the element without fields gives the incoming element. -/
theorem overwritePresent_noMeasurement (a : MeasurementDataType) :
    a.overwritePresent noMeasurement = a := by
  cases a
  simp [MeasurementDataType.overwritePresent, noMeasurement]

/-- The overwrite keeps the measurementId. -/
theorem overwriteWith_id (y x : MeasurementDataType) :
    (overwriteWith y x).MeasurementId = x.MeasurementId := by
  unfold overwriteWith
  split
  · rename_i hc
    obtain ⟨j, hj⟩ := Option.isSome_iff_exists.1 hc.1
    simp [MeasurementDataType.overwritePresent, hc.2, hj]
  · rfl

/-- The overwrite by id, one incoming element at a time. -/
theorem overwriteById_cons (y : MeasurementDataType) (rest : List MeasurementDataType)
    (x : MeasurementDataType) :
    overwriteById (y :: rest) x = overwriteById rest (overwriteWith y x) := rfl

/-- The overwrite by id keeps the measurementId. -/
theorem overwriteById_id (incoming : List MeasurementDataType) (x : MeasurementDataType) :
    (overwriteById incoming x).MeasurementId = x.MeasurementId := by
  induction incoming generalizing x with
  | nil => rfl
  | cons y rest ih => rw [overwriteById_cons, ih, overwriteWith_id]

/-- An element that no incoming element matches is left as it is. -/
theorem overwriteById_of_no_match (incoming : List MeasurementDataType)
    (x : MeasurementDataType)
    (h : ∀ y ∈ incoming, y.MeasurementId.isSome → y.MeasurementId ≠ x.MeasurementId) :
    overwriteById incoming x = x := by
  induction incoming with
  | nil => rfl
  | cons y rest ih =>
    have hy : overwriteWith y x = x := by
      unfold overwriteWith
      rw [if_neg]
      rintro ⟨h1, h2⟩
      exact h y (List.mem_cons_self _ _) h1 h2.symm
    rw [overwriteById_cons, hy]
    exact ih (fun z hz => h z (List.mem_cons_of_mem _ hz))

/-- The overwrite by id over two lists in a row. -/
theorem overwriteById_append (before after : List MeasurementDataType)
    (x : MeasurementDataType) :
    overwriteById (before ++ after) x = overwriteById after (overwriteById before x) := by
  simp [overwriteById, List.foldl_append]

/-- The combined elements of a list with one more element in front. -/
theorem combined_cons (id : Nat) (y : MeasurementDataType) (rest : List MeasurementDataType) :
    combined id (y :: rest)
      = (combined id rest).overwritePresent
          (if y.MeasurementId = some id then y else noMeasurement) := rfl

/-- The measurementId of the combined elements is the one asked for, when it is present. -/
theorem combined_id (id : Nat) (l : List MeasurementDataType) :
    (combined id l).MeasurementId = none ∨ (combined id l).MeasurementId = some id := by
  induction l with
  | nil => exact Or.inl rfl
  | cons y rest ih =>
    rw [combined_cons]
    by_cases hy : y.MeasurementId = some id
    · rcases ih with h | h <;>
        simp [MeasurementDataType.overwritePresent, hy, h]
    · rcases ih with h | h <;>
        simp [MeasurementDataType.overwritePresent, hy, h, noMeasurement]

/-- No element carries the measurementId: the combined element has no field. -/
theorem combined_of_no_match (id : Nat) (l : List MeasurementDataType)
    (h : ∀ y ∈ l, y.MeasurementId ≠ some id) : combined id l = noMeasurement := by
  induction l with
  | nil => rfl
  | cons y rest ih =>
    rw [combined_cons, ih (fun z hz => h z (List.mem_cons_of_mem _ hz)),
      if_neg (h y (List.mem_cons_self _ _)), overwritePresent_self]

/-- The combined elements of two lists in a row. -/
theorem combined_append (id : Nat) (before after : List MeasurementDataType) :
    combined id (before ++ after)
      = (combined id after).overwritePresent (combined id before) := by
  induction before with
  | nil => simp [combined, overwritePresent_noMeasurement]
  | cons y rest ih =>
    simp only [List.cons_append]
    rw [combined_cons, combined_cons, ih, overwritePresent_assoc]

/-- The overwrite by id lays the combined incoming elements of the id over the element. -/
theorem overwriteById_eq_combined (incoming : List MeasurementDataType)
    (x : MeasurementDataType) (id : Nat) (hx : x.MeasurementId = some id) :
    overwriteById incoming x = (combined id incoming).overwritePresent x := by
  induction incoming generalizing x with
  | nil => simp [overwriteById, combined, noMeasurement_overwritePresent]
  | cons y rest ih =>
    rw [overwriteById_cons, ih _ (by rw [overwriteWith_id, hx]), combined_cons]
    unfold overwriteWith
    by_cases hy : y.MeasurementId = some id
    · simp [hy, hx, overwritePresent_assoc]
    · have hne : ¬ (y.MeasurementId.isSome ∧ x.MeasurementId = y.MeasurementId) := by
        rintro ⟨_, h2⟩
        exact hy (h2.symm.trans hx)
      simp [hy, hne, overwritePresent_noMeasurement]

/-- Overwriting twice by the same incoming list is overwriting once. -/
theorem overwriteById_twice (incoming : List MeasurementDataType) (x : MeasurementDataType) :
    overwriteById incoming (overwriteById incoming x) = overwriteById incoming x := by
  cases hx : x.MeasurementId with
  | none =>
    have h := overwriteById_of_no_match incoming x (by
      intro y _ hy hyx
      rw [hx] at hyx
      simp [hyx] at hy)
    rw [h, h]
  | some id =>
    rw [overwriteById_eq_combined incoming x id hx,
      overwriteById_eq_combined incoming _ id (by
        rw [← overwriteById_eq_combined incoming x id hx, overwriteById_id, hx]),
      ← overwritePresent_assoc, overwritePresent_self]

/-- Without partial filter, step 2 on the current elements is the overwrite by id. -/
theorem patchCurrent_plain (r : MeasurementListDataType_Updater)
    (h : r.FilterProvider.filterPartial = none) (y : MeasurementDataType) (k : Bytes)
    (hy : naturalKey MeasurementDataType.HashKey r.provider y = some k)
    (current : List MeasurementDataType) :
    patchCurrent (naturalKey MeasurementDataType.HashKey r.provider)
        MeasurementDataType.overwritePresent r.provider y k current
      = some (current.map (overwriteWith y)) := by
  induction current with
  | nil => rfl
  | cons x rest ih =>
    rw [patchCurrent, ih]
    by_cases hx : naturalKey MeasurementDataType.HashKey r.provider x = some k
    · have hc := (naturalKey_eq_iff r x y k hy).1 hx
      simp only [hx, if_true, patchSelected, HasSelector_partial_of_none r h,
        Bool.false_eq_true, if_false, List.map_cons]
      simp [overwriteWith, hc]
    · have hc := mt (naturalKey_eq_iff r x y k hy).2 hx
      simp [hx, overwriteWith, hc]

/-- Without partial filter, steps 1 and 2 overwrite the current elements by id, append the
elements of the new measurementIds and reject the elements without measurementId. -/
theorem mergeIncoming_plain (r : MeasurementListDataType_Updater)
    (h : r.FilterProvider.filterPartial = none)
    (incoming current : List MeasurementDataType) (errors : List UpdateError) :
    mergeIncoming (naturalKey MeasurementDataType.HashKey r.provider)
        MeasurementDataType.overwritePresent r.provider incoming (current, errors)
      = some (current.map (overwriteById incoming)
          ++ appendedNew (current.map (fun x => x.MeasurementId)) incoming,
          errors ++ rejectedErrors incoming) := by
  induction incoming generalizing current errors with
  | nil =>
    have hid : overwriteById [] = (id : MeasurementDataType → MeasurementDataType) := by
      funext x
      rfl
    simp [mergeIncoming, hid, appendedNew, rejectedErrors]
  | cons y rest ih =>
    rw [mergeIncoming]
    cases hy : naturalKey MeasurementDataType.HashKey r.provider y with
    | none =>
      have hid : y.MeasurementId = none := by
        rw [naturalKey_measurement] at hy
        simpa using hy
      have hstep : ∀ x, overwriteWith y x = x := by
        intro x
        simp [overwriteWith, hid]
      simp only [ih]
      simp [overwriteById_cons, hstep, appendedNew, hid, rejectedErrors]
    | some k =>
      obtain ⟨j, hj⟩ : ∃ j, y.MeasurementId = some j := by
        rw [naturalKey_measurement] at hy
        cases hyi : y.MeasurementId with
        | none => simp [hyi] at hy
        | some j => exact ⟨j, rfl⟩
      have hk : k = sprintfDecimal j := by
        rw [naturalKey_measurement, hj] at hy
        simpa using hy.symm
      have herr : rejectedErrors (y :: rest) = rejectedErrors rest := by
        simp [rejectedErrors, hj]
      have hmem := mem_index_iff r current j
      rw [← hk] at hmem
      by_cases hin : k ∈ current.filterMap (naturalKey MeasurementDataType.HashKey r.provider)
      · have hknown : some j ∈ current.map (fun x => x.MeasurementId) := hmem.1 hin
        have hids : (current.map (overwriteWith y)).map (fun x => x.MeasurementId)
            = current.map (fun x => x.MeasurementId) := by
          rw [List.map_map]
          apply List.map_congr_left
          intro x _
          exact overwriteWith_id y x
        simp only [hin, if_true, patchCurrent_plain r h y k hy current, ih, hids, herr]
        simp [List.map_map, Function.comp_def, overwriteById_cons, appendedNew, hj, hknown]
      · have hknown : some j ∉ current.map (fun x => x.MeasurementId) := mt hmem.2 hin
        have hstep : ∀ x ∈ current, overwriteWith y x = x := by
          intro x hx
          unfold overwriteWith
          rw [if_neg]
          rintro ⟨_, h2⟩
          exact hknown (List.mem_map.2 ⟨x, hx, h2.trans hj⟩)
        have hmap : current.map (overwriteById (y :: rest))
            = current.map (overwriteById rest) := by
          apply List.map_congr_left
          intro x hx
          rw [overwriteById_cons, hstep x hx]
        simp only [hin, if_false, ih, herr, hmap]
        simp [appendedNew, hj, hknown]

/-- The measurement list update without partial filter: every current element is overwritten by
the incoming elements that carry its measurementId, the elements of the new measurementIds
are appended, and the delete filter, when it has selectors, is applied to the result. -/
theorem measurementListUpdate_closed (current incoming : List MeasurementDataType)
    (filterDelete : Option FilterType) :
    measurementListUpdate current incoming none filterDelete
      = match
          (if (MeasurementListDataType.NewUpdater { MeasurementData := current }
                { MeasurementData := incoming } none filterDelete).HasSelector
                .FilterEnumTypeDelete then
            removeSelected
              (MeasurementListDataType.NewUpdater { MeasurementData := current }
                { MeasurementData := incoming } none filterDelete).provider
              (current.map (overwriteById incoming)
                ++ appendedNew (current.map (fun x => x.MeasurementId)) incoming)
          else some (current.map (overwriteById incoming)
            ++ appendedNew (current.map (fun x => x.MeasurementId)) incoming)) with
        | some kept => some (kept, rejectedErrors incoming)
        | none => none := by
  have hm := mergeIncoming_plain
    (MeasurementListDataType.NewUpdater { MeasurementData := current }
      { MeasurementData := incoming } none filterDelete) rfl incoming current []
  have h1 : (MeasurementListDataType.NewUpdater { MeasurementData := current }
      { MeasurementData := incoming } none filterDelete).MeasurementListDataType.MeasurementData
      = current := rfl
  have h2 : (MeasurementListDataType.NewUpdater { MeasurementData := current }
      { MeasurementData := incoming } none filterDelete).newData = incoming := rfl
  have h3 : (MeasurementListDataType.NewUpdater { MeasurementData := current }
      { MeasurementData := incoming } none filterDelete).provider.HasSelector
        = (MeasurementListDataType.NewUpdater { MeasurementData := current }
      { MeasurementData := incoming } none filterDelete).HasSelector := rfl
  unfold measurementListUpdate MeasurementListDataType_Updater.DoUpdate UpdateList
  rw [h1, h2, hm, h3]
  simp only [List.nil_append]
  split_ifs with hsel
  · cases removeSelected _ (current.map (overwriteById incoming)
      ++ appendedNew (current.map (fun x => x.MeasurementId)) incoming) <;> rfl
  · rfl

/-- The measurement list update without filters. -/
theorem measurementListUpdate_plain (current incoming : List MeasurementDataType) :
    measurementListUpdate current incoming none none
      = some (current.map (overwriteById incoming)
          ++ appendedNew (current.map (fun x => x.MeasurementId)) incoming,
          rejectedErrors incoming) := by
  rw [measurementListUpdate_closed]
  rfl

/-- No element is appended when every measurementId of the incoming list is known. -/
theorem appendedNew_of_known (known : List (Option Nat)) (incoming : List MeasurementDataType)
    (h : ∀ y ∈ incoming, ∀ id, y.MeasurementId = some id → some id ∈ known) :
    appendedNew known incoming = [] := by
  induction incoming with
  | nil => rfl
  | cons y rest ih =>
    have hrest := ih (fun z hz => h z (List.mem_cons_of_mem _ hz))
    unfold appendedNew
    cases hy : y.MeasurementId with
    | none => simpa using hrest
    | some id =>
      have := h y (List.mem_cons_self _ _) id hy
      simpa [this] using hrest

/-- Every measurementId of the incoming list is known or carried by an appended element. -/
theorem appendedNew_covers (known : List (Option Nat)) (incoming : List MeasurementDataType)
    (y : MeasurementDataType) (hy : y ∈ incoming) (id : Nat)
    (hid : y.MeasurementId = some id) :
    some id ∈ known ∨
      some id ∈ (appendedNew known incoming).map (fun x => x.MeasurementId) := by
  induction incoming generalizing known with
  | nil => cases hy
  | cons z rest ih =>
    unfold appendedNew
    cases hz : z.MeasurementId with
    | none =>
      rcases List.mem_cons.1 hy with rfl | hmem
      · rw [hid] at hz
        cases hz
      · simpa using ih known hmem
    | some j =>
      by_cases hj : some j ∈ known
      · simp only [hj, if_true]
        rcases List.mem_cons.1 hy with rfl | hmem
        · rw [hid] at hz
          cases hz
          exact Or.inl hj
        · exact ih known hmem
      · simp only [hj, if_false, List.map_cons, List.mem_cons, overwriteById_id]
        rcases List.mem_cons.1 hy with rfl | hmem
        · exact Or.inr (Or.inl hid.symm)
        · rcases ih (known ++ [some j]) hmem with h1 | h1
          · rcases List.mem_append.1 h1 with h2 | h2
            · exact Or.inl h2
            · simp only [List.mem_singleton] at h2
              exact Or.inr (Or.inl (h2.trans hz.symm))
          · exact Or.inr (Or.inr h1)

/-- An appended element is the first incoming element of a measurementId that is not known,
overwritten by the later incoming elements. -/
theorem appendedNew_mem (known : List (Option Nat)) (incoming : List MeasurementDataType)
    (z : MeasurementDataType) (hz : z ∈ appendedNew known incoming) :
    ∃ before y after id, incoming = before ++ y :: after ∧ y.MeasurementId = some id ∧
      some id ∉ known ∧ (∀ b ∈ before, b.MeasurementId ≠ some id) ∧
      z = overwriteById after y := by
  induction incoming generalizing known with
  | nil => simp [appendedNew] at hz
  | cons x rest ih =>
    unfold appendedNew at hz
    cases hx : x.MeasurementId with
    | none =>
      rw [hx] at hz
      obtain ⟨before, y, after, id, hsplit, hy, hknown, hbefore, hzy⟩ := ih known hz
      refine ⟨x :: before, y, after, id, by rw [hsplit]; rfl, hy, hknown, ?_, hzy⟩
      intro b hb
      rcases List.mem_cons.1 hb with rfl | hmem
      · rw [hx]
        simp
      · exact hbefore b hmem
    | some j =>
      rw [hx] at hz
      simp only at hz
      by_cases hj : some j ∈ known
      · simp only [hj, if_true] at hz
        obtain ⟨before, y, after, id, hsplit, hy, hknown, hbefore, hzy⟩ := ih known hz
        refine ⟨x :: before, y, after, id, by rw [hsplit]; rfl, hy, hknown, ?_, hzy⟩
        intro b hb
        rcases List.mem_cons.1 hb with rfl | hmem
        · rw [hx]
          intro hh
          exact hknown (hh ▸ hj)
        · exact hbefore b hmem
      · simp only [hj, if_false, List.mem_cons] at hz
        rcases hz with rfl | hz
        · exact ⟨[], x, rest, j, rfl, hx, hj, fun b hb => absurd hb (List.not_mem_nil b), rfl⟩
        · obtain ⟨before, y, after, id, hsplit, hy, hknown, hbefore, hzy⟩ :=
            ih (known ++ [some j]) hz
          refine ⟨x :: before, y, after, id, by rw [hsplit]; rfl, hy, ?_, ?_, hzy⟩
          · exact fun hh => hknown (List.mem_append_left _ hh)
          · intro b hb
            rcases List.mem_cons.1 hb with rfl | hmem
            · rw [hx]
              intro hh
              exact hknown (List.mem_append_right _ (by simp [hh]))
            · exact hbefore b hmem

/-- The first incoming element of a measurementId that is not known is appended, overwritten by
the later incoming elements. -/
theorem appendedNew_of_split (known : List (Option Nat))
    (before after : List MeasurementDataType) (y : MeasurementDataType) (id : Nat)
    (hy : y.MeasurementId = some id) (hknown : some id ∉ known)
    (hbefore : ∀ b ∈ before, b.MeasurementId ≠ some id) :
    overwriteById after y ∈ appendedNew known (before ++ y :: after) := by
  induction before generalizing known with
  | nil =>
    simp only [List.nil_append]
    unfold appendedNew
    simp [hy, hknown]
  | cons x rest ih =>
    have hrest : ∀ b ∈ rest, b.MeasurementId ≠ some id :=
      fun b hb => hbefore b (List.mem_cons_of_mem _ hb)
    simp only [List.cons_append]
    unfold appendedNew
    cases hx : x.MeasurementId with
    | none => exact ih known hknown hrest
    | some j =>
      simp only
      by_cases hj : some j ∈ known
      · simp only [hj, if_true]
        exact ih known hknown hrest
      · simp only [hj, if_false]
        apply List.mem_cons_of_mem
        apply ih _ _ hrest
        intro hh
        rcases List.mem_append.1 hh with h1 | h1
        · exact hknown h1
        · simp only [List.mem_singleton] at h1
          exact hbefore x (List.mem_cons_self _ _) (hx.trans h1.symm)

/-- The measurementIds of the appended elements are not known and pairwise distinct. -/
theorem appendedNew_ids (known : List (Option Nat)) (incoming : List MeasurementDataType) :
    ((appendedNew known incoming).map (fun x => x.MeasurementId)).Nodup ∧
    ∀ k ∈ (appendedNew known incoming).map (fun x => x.MeasurementId), k ∉ known := by
  induction incoming generalizing known with
  | nil => simp [appendedNew]
  | cons y rest ih =>
    unfold appendedNew
    cases hy : y.MeasurementId with
    | none => exact ih known
    | some j =>
      simp only
      by_cases hj : some j ∈ known
      · simp only [hj, if_true]
        exact ih known
      · simp only [hj, if_false, List.map_cons, overwriteById_id, hy]
        obtain ⟨hnodup, hnew⟩ := ih (known ++ [some j])
        constructor
        · refine List.nodup_cons.2 ⟨?_, hnodup⟩
          intro hmem
          exact hnew _ hmem (List.mem_append_right _ (by simp))
        · intro k hk
          rcases List.mem_cons.1 hk with rfl | hmem
          · exact hj
          · exact fun hh => hnew k hmem (List.mem_append_left _ hh)

/-- An appended element is left as it is by the overwrite with the whole incoming list. -/
theorem overwriteById_appended (known : List (Option Nat))
    (incoming : List MeasurementDataType) (z : MeasurementDataType)
    (hz : z ∈ appendedNew known incoming) : overwriteById incoming z = z := by
  obtain ⟨before, y, after, id, hsplit, hy, _, hbefore, rfl⟩ :=
    appendedNew_mem known incoming z hz
  have hzid : (overwriteById after y).MeasurementId = some id := by
    rw [overwriteById_id, hy]
  rw [overwriteById_eq_combined incoming _ id hzid, hsplit, combined_append,
    combined_of_no_match id before hbefore, overwritePresent_noMeasurement, combined_cons,
    if_pos hy, overwriteById_eq_combined after y id hy, overwritePresent_self]

/-- The measurement list update without filters, applied to its own result with the same
incoming list, gives that result again. -/
theorem measurementListUpdate_again (current incoming : List MeasurementDataType) :
    measurementListUpdate
        (current.map (overwriteById incoming)
          ++ appendedNew (current.map (fun x => x.MeasurementId)) incoming)
        incoming none none
      = some (current.map (overwriteById incoming)
          ++ appendedNew (current.map (fun x => x.MeasurementId)) incoming,
          rejectedErrors incoming) := by
  rw [measurementListUpdate_plain]
  have hids : (current.map (overwriteById incoming)
      ++ appendedNew (current.map (fun x => x.MeasurementId)) incoming).map
        (fun x => x.MeasurementId)
      = current.map (fun x => x.MeasurementId)
        ++ (appendedNew (current.map (fun x => x.MeasurementId)) incoming).map
          (fun x => x.MeasurementId) := by
    rw [List.map_append, List.map_map]
    congr 1
    apply List.map_congr_left
    intro x _
    exact overwriteById_id incoming x
  have hnew : appendedNew ((current.map (overwriteById incoming)
      ++ appendedNew (current.map (fun x => x.MeasurementId)) incoming).map
        (fun x => x.MeasurementId)) incoming = [] := by
    apply appendedNew_of_known
    intro y hy id hid
    rw [hids]
    exact List.mem_append.2 (appendedNew_covers _ incoming y hy id hid)
  have hsame : (current.map (overwriteById incoming)
      ++ appendedNew (current.map (fun x => x.MeasurementId)) incoming).map
        (overwriteById incoming)
      = current.map (overwriteById incoming)
        ++ appendedNew (current.map (fun x => x.MeasurementId)) incoming := by
    conv_rhs => rw [← List.map_id (current.map (overwriteById incoming)
      ++ appendedNew (current.map (fun x => x.MeasurementId)) incoming)]
    apply List.map_congr_left
    intro z hz
    rcases List.mem_append.1 hz with h1 | h1
    · obtain ⟨x, _, rfl⟩ := List.mem_map.1 h1
      exact overwriteById_twice incoming x
    · exact overwriteById_appended _ incoming z h1
  rw [hnew, hsame, List.append_nil]

/-- C14: for every current measurement list and every incoming list, with no partial and no
delete filter, the update returns, and applying it with the same incoming list to its own
result gives that result again: merge(merge(xs, ys), ys) = merge(xs, ys).  When the elements
of the incoming list all carry a measurementId, no element is rejected.  The incoming list
may carry a measurementId more than once: the values 5 and 7 for the id 1 on the empty list
give the one element of value 7, once and twice. -/
theorem measurementListUpdate_idempotent (current incoming : List MeasurementDataType) :
    (∃ once errors, measurementListUpdate current incoming none none = some (once, errors) ∧
      measurementListUpdate once incoming none none = some (once, errors) ∧
      ((∀ y ∈ incoming, y.MeasurementId.isSome) → errors = [])) ∧
    measurementListUpdate [] [measurement 1 5, measurement 1 7] none none
      = some ([measurement 1 7], []) ∧
    measurementListUpdate [measurement 1 7] [measurement 1 5, measurement 1 7] none none
      = some ([measurement 1 7], []) := by
  refine ⟨⟨_, _, measurementListUpdate_plain current incoming,
    measurementListUpdate_again current incoming, ?_⟩, ?_, ?_⟩
  · intro hall
    simp only [rejectedErrors, List.map_eq_nil_iff, List.filter_eq_nil_iff]
    intro y hy hnone
    have := hall y hy
    cases hyi : y.MeasurementId with
    | none => simp [hyi] at this
    | some j => simp [hyi] at hnone
  · rw [measurementListUpdate_plain]
    decide
  · rw [measurementListUpdate_plain]
    decide

/-- The overwrite by an incoming element that carries the measurementId and in which no value
is present keeps the value. -/
theorem overwriteById_value_kept (incoming : List MeasurementDataType)
    (x : MeasurementDataType)
    (h : ∀ z ∈ incoming, z.MeasurementId = x.MeasurementId → z.Value = none) :
    (overwriteById incoming x).Value = x.Value := by
  induction incoming generalizing x with
  | nil => rfl
  | cons z rest ih =>
    have hz : (overwriteWith z x).Value = x.Value := by
      unfold overwriteWith
      split
      · rename_i hc
        simp [MeasurementDataType.overwritePresent,
          h z (List.mem_cons_self _ _) hc.2.symm]
      · rfl
    rw [overwriteById_cons, ih, hz]
    intro w hw hid
    rw [overwriteWith_id] at hid
    exact h w (List.mem_cons_of_mem _ hw) hid

/-- The value of a current element after the overwrite is the value of the last incoming
element of its measurementId in which a value is present. -/
theorem overwriteById_value (before after : List MeasurementDataType)
    (y x : MeasurementDataType) (v : Int) (hsome : y.MeasurementId.isSome)
    (hid : y.MeasurementId = x.MeasurementId) (hv : y.Value = some v)
    (hafter : ∀ z ∈ after, z.MeasurementId = x.MeasurementId → z.Value = none) :
    (overwriteById (before ++ y :: after) x).Value = some v := by
  have hx : (overwriteById before x).MeasurementId = y.MeasurementId := by
    rw [overwriteById_id, hid]
  have hw : (overwriteWith y (overwriteById before x)).Value = some v := by
    unfold overwriteWith
    rw [if_pos ⟨hsome, hx⟩]
    simp [MeasurementDataType.overwritePresent, hv]
  rw [overwriteById_append, overwriteById_cons, overwriteById_value_kept, hw]
  intro z hz hzid
  rw [overwriteWith_id, overwriteById_id] at hzid
  exact hafter z hz hzid

/-- The field-wise overwrite and the method `CopyData` of the updater give the same element
when the incoming element carries the measurementId of the current one, has the five fields
that `CopyData` copies, and has no value type of its own. -/
theorem overwritePresent_eq_CopyData (r : MeasurementListDataType_Updater)
    (y x : MeasurementDataType) (hid : y.MeasurementId = x.MeasurementId)
    (htype : y.ValueType = none) (h1 : y.Timestamp.isSome) (h2 : y.EvaluationPeriod.isSome)
    (h3 : y.ValueState.isSome) (h4 : y.Value.isSome) (h5 : y.ValueTendency.isSome) :
    r.CopyData (some y) (some x) = some (y.overwritePresent x) := by
  obtain ⟨a1, e1⟩ := Option.isSome_iff_exists.1 h1
  obtain ⟨a2, e2⟩ := Option.isSome_iff_exists.1 h2
  obtain ⟨a3, e3⟩ := Option.isSome_iff_exists.1 h3
  obtain ⟨a4, e4⟩ := Option.isSome_iff_exists.1 h4
  obtain ⟨a5, e5⟩ := Option.isSome_iff_exists.1 h5
  cases x
  cases y
  simp only at hid htype e1 e2 e3 e4 e5
  subst hid htype e1 e2 e3 e4 e5
  simp [MeasurementListDataType_Updater.CopyData, MeasurementDataType.overwritePresent]

/-- The delete filter that names one measurementId removes the elements of that id from a list
whose elements all carry a measurementId. -/
theorem removeSelected_deleteMeasurementId (r : MeasurementListDataType_Updater) (id : Nat)
    (h : r.FilterProvider.filterDelete = some (deleteMeasurementId id))
    (l : List MeasurementDataType) (hl : ∀ x ∈ l, x.MeasurementId.isSome) :
    removeSelected r.provider l
      = some (l.filter (fun x => decide (x.MeasurementId ≠ some id))) := by
  induction l with
  | nil => rfl
  | cons x rest ih =>
    obtain ⟨j, hj⟩ := Option.isSome_iff_exists.1 (hl x (List.mem_cons_self _ _))
    have hrest := ih (fun z hz => hl z (List.mem_cons_of_mem _ hz))
    unfold removeSelected
    rw [hrest]
    by_cases hji : id = j
    · subst hji
      simp [MeasurementListDataType_Updater.provider,
        MeasurementListDataType_Updater.SelectorMatch, FilterProvider.FilterForEnumType, h,
        deleteMeasurementId, selectorFieldDiffers, hj]
    · have hji2 : ¬ j = id := fun hh => hji hh.symm
      simp [MeasurementListDataType_Updater.provider,
        MeasurementListDataType_Updater.SelectorMatch, FilterProvider.FilterForEnumType, h,
        deleteMeasurementId, selectorFieldDiffers, hj, hji, hji2]

set_option maxRecDepth 100000 in
/-- C15: with no filters and for every current and every incoming list the measurement list
update returns; the merged list is the current list, element by element and in its order,
each element overwritten by the incoming elements of its measurementId, followed by the
appended elements.  A current element whose measurementId no incoming element carries is kept
as it is; a current element whose measurementId an incoming element carries keeps its id and
takes the value of the last such element in which a value is present; every appended element
is the first incoming element of a measurementId that no current element carries, overwritten
by the later incoming elements of that id, and an incoming element that alone carries a new
measurementId is appended as it is; the incoming elements without measurementId are rejected
with `MissingIdentifier`.  With the delete filter that selects one measurementId, on lists
whose elements all carry a measurementId, the elements of that id are removed from the merged
list.  Current [{id:0,value:5},{id:1,value:7}] with incoming [{id:1,value:9}] gives
[{id:0,value:5},{id:1,value:9}], and with the delete filter selecting measurementId 0 it gives
[{id:1,value:9}]. -/
theorem measurementListUpdate_replaces_and_appends
    (current incoming : List MeasurementDataType) :
    (∃ merged, measurementListUpdate current incoming none none
        = some (merged, rejectedErrors incoming) ∧
      merged.length = current.length
        + (appendedNew (current.map (fun x => x.MeasurementId)) incoming).length ∧
      (merged.take current.length).map (fun x => x.MeasurementId)
        = current.map (fun x => x.MeasurementId) ∧
      (∀ (i : Nat) (x : MeasurementDataType), current[i]? = some x →
        (∀ y ∈ incoming, y.MeasurementId.isSome → y.MeasurementId ≠ x.MeasurementId) →
        merged[i]? = some x) ∧
      (∀ (i : Nat) (x : MeasurementDataType), current[i]? = some x →
        ∀ before y after v, incoming = before ++ y :: after →
          y.MeasurementId.isSome → y.MeasurementId = x.MeasurementId → y.Value = some v →
          (∀ z ∈ after, z.MeasurementId = x.MeasurementId → z.Value = none) →
          ∃ x1, merged[i]? = some x1 ∧ x1.MeasurementId = x.MeasurementId ∧
            x1.Value = some v) ∧
      (∀ z ∈ merged.drop current.length,
        ∃ before y after id, incoming = before ++ y :: after ∧ y.MeasurementId = some id ∧
          some id ∉ current.map (fun x => x.MeasurementId) ∧
          (∀ b ∈ before, b.MeasurementId ≠ some id) ∧ z = overwriteById after y) ∧
      ((merged.drop current.length).map (fun x => x.MeasurementId)).Nodup ∧
      (∀ y ∈ incoming, ∀ id, y.MeasurementId = some id →
        some id ∉ current.map (fun x => x.MeasurementId) →
        some id ∈ (merged.drop current.length).map (fun x => x.MeasurementId)) ∧
      (∀ before y after id, incoming = before ++ y :: after → y.MeasurementId = some id →
        some id ∉ current.map (fun x => x.MeasurementId) →
        (∀ b ∈ before, b.MeasurementId ≠ some id) →
        (∀ a ∈ after, a.MeasurementId ≠ some id) →
        y ∈ merged.drop current.length) ∧
      (∀ id, (∀ x ∈ current, x.MeasurementId.isSome) →
        measurementListUpdate current incoming none (some (deleteMeasurementId id))
          = some (merged.filter (fun x => decide (x.MeasurementId ≠ some id)),
              rejectedErrors incoming))) ∧
    measurementListUpdate [measurement 0 5, measurement 1 7] [measurement 1 9] none none
      = some ([measurement 0 5, measurement 1 9], []) ∧
    measurementListUpdate [measurement 0 5, measurement 1 7] [measurement 1 9] none
        (some (deleteMeasurementId 0))
      = some ([measurement 1 9], []) := by
  have hlen : (current.map (overwriteById incoming)).length = current.length :=
    List.length_map _ _
  have hdrop : (current.map (overwriteById incoming)
      ++ appendedNew (current.map (fun x => x.MeasurementId)) incoming).drop current.length
      = appendedNew (current.map (fun x => x.MeasurementId)) incoming := by
    rw [← hlen, List.drop_left]
  have htake : (current.map (overwriteById incoming)
      ++ appendedNew (current.map (fun x => x.MeasurementId)) incoming).take current.length
      = current.map (overwriteById incoming) := by
    rw [← hlen, List.take_left]
  have hget : ∀ (i : Nat) (x : MeasurementDataType), current[i]? = some x →
      (current.map (overwriteById incoming)
        ++ appendedNew (current.map (fun x => x.MeasurementId)) incoming)[i]?
        = some (overwriteById incoming x) := by
    intro i x hx
    have hi : i < current.length := (List.getElem?_eq_some_iff.1 hx).1
    rw [List.getElem?_append_left (by rw [hlen]; exact hi), List.getElem?_map, hx]
    rfl
  refine ⟨⟨_, measurementListUpdate_plain current incoming, ?_, ?_, ?_, ?_, ?_, ?_, ?_, ?_,
    ?_⟩, ?_, ?_⟩
  · rw [List.length_append, hlen]
  · rw [htake, List.map_map]
    apply List.map_congr_left
    intro x _
    exact overwriteById_id incoming x
  · intro i x hx hno
    rw [hget i x hx, overwriteById_of_no_match incoming x hno]
  · intro i x hx before y after v hsplit hsome hid hv hafter
    refine ⟨_, hget i x hx, overwriteById_id incoming x, ?_⟩
    rw [hsplit]
    exact overwriteById_value before after y x v hsome hid hv hafter
  · intro z hz
    rw [hdrop] at hz
    exact appendedNew_mem _ incoming z hz
  · rw [hdrop]
    exact (appendedNew_ids _ incoming).1
  · intro y hy id hid hnew
    rw [hdrop]
    exact (appendedNew_covers _ incoming y hy id hid).resolve_left hnew
  · intro before y after id hsplit hid hnew hbefore hafter
    rw [hdrop, hsplit]
    have hy : overwriteById after y = y := by
      apply overwriteById_of_no_match
      intro a ha _ hh
      exact hafter a ha (hh.trans hid)
    have := appendedNew_of_split (current.map (fun x => x.MeasurementId)) before after y id
      hid hnew hbefore
    rwa [hy] at this
  · intro id hcur
    rw [measurementListUpdate_closed]
    have hsel : (MeasurementListDataType.NewUpdater { MeasurementData := current }
        { MeasurementData := incoming } none (some (deleteMeasurementId id))).HasSelector
          .FilterEnumTypeDelete = true := rfl
    rw [if_pos hsel, removeSelected_deleteMeasurementId _ id rfl]
    intro x hx
    rcases List.mem_append.1 hx with h1 | h1
    · obtain ⟨x0, hx0, rfl⟩ := List.mem_map.1 h1
      rw [overwriteById_id]
      exact hcur x0 hx0
    · obtain ⟨_, y, after, j, _, hy, _, _, rfl⟩ := appendedNew_mem _ incoming x h1
      rw [overwriteById_id, hy]
      rfl
  · rw [measurementListUpdate_plain]
    decide
  · rw [measurementListUpdate_closed]
    decide

/-! ## The remote device tree -/

/-- C16: every remote device returned by `NewDeviceRemoteImpl` has exactly one entity, with
entity path [0] and type DeviceInformation, and that entity holds exactly one feature, of type
NodeManagement with role special. -/
theorem NewDeviceRemoteImpl_one_entity (ski : String) :
    ∃ e f, (NewDeviceRemoteImpl ski).entities = [e] ∧
      e.address.Entity = some [0] ∧
      e.eType = EntityTypeTypeDeviceInformation ∧
      e.features = [f] ∧
      f.ftype = FeatureTypeTypeNodeManagement ∧
      f.role = RoleTypeSpecial :=
  ⟨_, _, rfl, rfl, rfl, rfl, rfl, rfl⟩

/-- The position that `entityPosition` gives holds an entity of the asked path. -/
theorem entityPosition_get (id : Option (List Nat)) (l : List EntityRemoteImpl) (p : Nat)
    (h : entityPosition id l = some p) :
    ∃ e, l[p]? = some e ∧ e.address.Entity = id := by
  induction l generalizing p with
  | nil => simp [entityPosition] at h
  | cons x rest ih =>
    unfold entityPosition at h
    by_cases hx : x.address.Entity = id
    · simp only [hx, if_true, Option.some.injEq] at h
      subst h
      exact ⟨x, by simp, hx⟩
    · simp only [hx, if_false] at h
      cases hr : entityPosition id rest with
      | none => simp [hr] at h
      | some q =>
        simp only [hr, Option.some.injEq] at h
        subst h
        simpa using ih q hr

/-- Without position, no entity has the asked path. -/
theorem entityPosition_none (id : Option (List Nat)) (l : List EntityRemoteImpl)
    (h : entityPosition id l = none) : ∀ e ∈ l, e.address.Entity ≠ id := by
  induction l with
  | nil => simp
  | cons x rest ih =>
    unfold entityPosition at h
    by_cases hx : x.address.Entity = id
    · simp [hx] at h
    · simp only [hx, if_false] at h
      cases hr : entityPosition id rest with
      | none =>
        intro e he
        rcases List.mem_cons.1 he with rfl | hmem
        · exact hx
        · exact ih hr e hmem
      | some q => simp [hr] at h

/-- The method `Entity` returns the entity at the position `entityPosition` gives. -/
theorem find_eq_entityPosition (id : Option (List Nat)) (l : List EntityRemoteImpl) :
    l.find? (fun e => decide (e.address.Entity = id))
      = match entityPosition id l with
        | some p => l[p]?
        | none => none := by
  induction l with
  | nil => rfl
  | cons x rest ih =>
    unfold entityPosition
    by_cases hx : x.address.Entity = id
    · simp [hx]
    · simp only [List.find?_cons, hx, decide_False, if_false, ih]
      cases hr : entityPosition id rest <;> simp

/-- A found position stays the position when entities are appended. -/
theorem entityPosition_append_left (id : Option (List Nat)) (l l2 : List EntityRemoteImpl)
    (p : Nat) (h : entityPosition id l = some p) :
    entityPosition id (l ++ l2) = some p := by
  induction l generalizing p with
  | nil => simp [entityPosition] at h
  | cons x rest ih =>
    unfold entityPosition at h
    rw [List.cons_append, entityPosition]
    by_cases hx : x.address.Entity = id
    · simpa [hx] using h
    · simp only [hx, if_false] at h ⊢
      cases hr : entityPosition id rest with
      | none => simp [hr] at h
      | some q =>
        simp only [hr, Option.some.injEq] at h
        subst h
        rw [ih q hr]

/-- An appended entity of a path that no entity has is found at the end. -/
theorem entityPosition_append_new (id : Option (List Nat)) (l : List EntityRemoteImpl)
    (e : EntityRemoteImpl) (h : entityPosition id l = none) (he : e.address.Entity = id) :
    entityPosition id (l ++ [e]) = some l.length := by
  induction l with
  | nil => simp [entityPosition, he]
  | cons x rest ih =>
    unfold entityPosition at h
    rw [List.cons_append, entityPosition]
    by_cases hx : x.address.Entity = id
    · simp [hx] at h
    · simp only [hx, if_false] at h ⊢
      cases hr : entityPosition id rest with
      | none => simp [ih hr]
      | some q => simp [hr] at h

/-- A write to the first entity of a path that keeps the path puts the written entity first
for that path. -/
theorem find_set_first (id : Option (List Nat)) (l : List EntityRemoteImpl) (p : Nat)
    (e1 : EntityRemoteImpl) (h : entityPosition id l = some p) (he : e1.address.Entity = id) :
    (l.set p e1).find? (fun e => decide (e.address.Entity = id)) = some e1 := by
  induction l generalizing p with
  | nil => simp [entityPosition] at h
  | cons x rest ih =>
    unfold entityPosition at h
    by_cases hx : x.address.Entity = id
    · simp only [hx, if_true, Option.some.injEq] at h
      subst h
      simp [he]
    · simp only [hx, if_false] at h
      cases hr : entityPosition id rest with
      | none => simp [hr] at h
      | some q =>
        simp only [hr, Option.some.injEq] at h
        subst h
        simp [List.find?_cons, hx, ih q hr]

/-- A write to an entity of another path does not change what `Entity` finds. -/
theorem find_set_other (b : Option (List Nat)) (l : List EntityRemoteImpl) (p : Nat)
    (e e1 : EntityRemoteImpl) (h : l[p]? = some e) (he : e.address.Entity ≠ b)
    (he1 : e1.address.Entity ≠ b) :
    (l.set p e1).find? (fun x => decide (x.address.Entity = b))
      = l.find? (fun x => decide (x.address.Entity = b)) := by
  induction l generalizing p with
  | nil => simp at h
  | cons x rest ih =>
    cases p with
    | zero =>
      simp only [List.getElem?_cons_zero, Option.some.injEq] at h
      subst h
      simp [List.find?_cons, he, he1]
    | succ q =>
      simp only [List.getElem?_cons_succ] at h
      simp only [List.set_cons_succ, List.find?_cons, ih q h]

/-- When the inner loop returns, it has appended the features built from the feature
informations of the entity's path, in order. -/
theorem addFeaturesLoop_eq (period : PeriodPackage) (a : Option (List Nat))
    (fis : List NodeManagementDetailedDiscoveryFeatureInformationType)
    (e e1 : EntityRemoteImpl) (h : addFeaturesLoop period a fis e = some e1) :
    e1 = { e with features := e.features ++ builtFeatures period e.address a fis } := by
  induction fis generalizing e with
  | nil =>
    simp only [addFeaturesLoop, Option.some.injEq] at h
    subst h
    simp [builtFeatures]
  | cons fi rest ih =>
    unfold addFeaturesLoop at h
    unfold builtFeatures
    cases hd : fi.Description with
    | none => simp [hd] at h
    | some fid =>
      simp only [hd] at h ⊢
      cases hfa : fid.FeatureAddress with
      | none => simp [hfa] at h
      | some fa =>
        simp only [hfa, Option.map_some', Option.some.injEq] at h ⊢
        by_cases hent : fa.Entity = a
        · simp only [hent, if_true] at h ⊢
          cases hu : unmarshalFeature period e.address fi with
          | none => simp [hu] at h
          | some result =>
            cases result with
            | none =>
              simp only [hu] at h ⊢
              exact ih e h
            | some f =>
              simp only [hu] at h ⊢
              have := ih (e.AddFeature f) h
              rw [this]
              simp [EntityRemoteImpl.AddFeature]
        · simp only [hent, if_false] at h ⊢
          exact ih e h

/-- A step of the outer loop that returns an error leaves the device as it was. -/
theorem addEntityStep_failed (period : PeriodPackage) (initialData : Bool)
    (fis : List NodeManagementDetailedDiscoveryFeatureInformationType)
    (ei : NodeManagementDetailedDiscoveryEntityInformationType)
    (d d1 : DeviceRemoteImpl) (r : List Nat) (err : String)
    (h : addEntityStep period initialData fis ei d r = .failed d1 err) : d1 = d := by
  unfold addEntityStep at h
  split at h
  · cases h
    rfl
  · split at h
    · cases h
    · split at h
      · cases h
      · split at h
        · cases h
        · split at h
          · cases h
          · split at h
            · cases h
            · cases h

/-- What a step of the outer loop that returns has done: the entity of the listed path is the
first entity of that path, or a new entity at the end whose position is added to the
result; its description is set and its features are those built from the data. -/
theorem addEntityStep_ok (period : PeriodPackage) (initialData : Bool)
    (fis : List NodeManagementDetailedDiscoveryFeatureInformationType)
    (ei : NodeManagementDetailedDiscoveryEntityInformationType)
    (d d1 : DeviceRemoteImpl) (r r1 : List Nat)
    (h : addEntityStep period initialData fis ei d r = .ok d1 r1) :
    ∃ description address base position e,
      ei.Description = some description ∧
      description.EntityAddress = some address ∧
      ((entityPosition address.Entity d.entities = some position ∧ base = d.entities ∧
          r1 = r) ∨
        (entityPosition address.Entity d.entities = none ∧
          (∃ entityType, base = d.entities
            ++ [NewEntityRemoteImpl d.address entityType address.Entity]) ∧
          position = d.entities.length ∧ r1 = r ++ [position])) ∧
      entityPosition address.Entity base = some position ∧
      base[position]? = some e ∧
      e.address.Entity = address.Entity ∧
      d1 = { d with entities := (base.set position ({ e with
        description := description.Description
        features := builtFeatures period e.address address.Entity fis })) } := by
  unfold addEntityStep at h
  split at h
  · cases h
  · split at h
    · cases h
    · rename_i description hdesc
      split at h
      · cases h
      · rename_i address haddr
        split at h
        · cases h
        · rename_i d2 position r2 hfound
          split at h
          · cases h
          · rename_i e hget
            split at h
            · cases h
            · rename_i e1 hloop
              have he1 := addFeaturesLoop_eq period address.Entity fis _ e1 hloop
              simp only [Outcome.ok.injEq] at h
              obtain ⟨hd1, hr1⟩ := h
              cases hpos : entityPosition address.Entity d.entities with
              | some q =>
                simp only [hpos, Option.some.injEq, Prod.mk.injEq] at hfound
                obtain ⟨rfl, rfl, rfl⟩ := hfound
                obtain ⟨e0, hget0, haddr0⟩ := entityPosition_get _ _ _ hpos
                rw [hget0] at hget
                cases hget
                refine ⟨description, address, d.entities, q, e, hdesc, haddr,
                  Or.inl ⟨hpos, rfl, hr1.symm⟩, hpos, hget0, haddr0, ?_⟩
                rw [← hd1, he1]
                simp [DeviceRemoteImpl.setEntity, EntityRemoteImpl.SetDescription,
                  EntityRemoteImpl.RemoveAllFeatures]
              | none =>
                simp only [hpos] at hfound
                cases htype : description.EntityType with
                | none => simp [htype] at hfound
                | some entityType =>
                  simp only [htype, DeviceRemoteImpl.addNewEntity, DeviceRemoteImpl.addEntity,
                    Option.some.injEq, Prod.mk.injEq] at hfound
                  obtain ⟨rfl, rfl, rfl⟩ := hfound
                  simp only [List.getElem?_concat_length, Option.some.injEq] at hget
                  subst hget
                  refine ⟨description, address,
                    d.entities ++ [NewEntityRemoteImpl d.address entityType address.Entity],
                    d.entities.length,
                    NewEntityRemoteImpl d.address entityType address.Entity, hdesc, haddr,
                    Or.inr ⟨hpos, ⟨entityType, rfl⟩, rfl, hr1.symm⟩,
                    entityPosition_append_new _ _ _ hpos rfl, by simp, rfl, ?_⟩
                  rw [← hd1, he1]
                  simp [DeviceRemoteImpl.setEntity, EntityRemoteImpl.SetDescription,
                    EntityRemoteImpl.RemoveAllFeatures]

/-- The path that a returning step works on is the listed path of its entity information. -/
theorem listedAddress_of (ei : NodeManagementDetailedDiscoveryEntityInformationType)
    (description : NetworkManagementEntityDescriptionDataType) (address : EntityAddressType)
    (hd : ei.Description = some description) (ha : description.EntityAddress = some address) :
    listedAddress ei = address.Entity := by
  simp [listedAddress, hd, ha]

/-- A returning step leaves what `Entity` finds for every other path. -/
theorem addEntityStep_entity_other (period : PeriodPackage) (initialData : Bool)
    (fis : List NodeManagementDetailedDiscoveryFeatureInformationType)
    (ei : NodeManagementDetailedDiscoveryEntityInformationType)
    (d d1 : DeviceRemoteImpl) (r r1 : List Nat)
    (h : addEntityStep period initialData fis ei d r = .ok d1 r1)
    (b : Option (List Nat)) (hb : b ≠ listedAddress ei) :
    d1.Entity b = d.Entity b := by
  obtain ⟨description, address, base, position, e, hd, ha, hbase, _, hget, hea, rfl⟩ :=
    addEntityStep_ok period initialData fis ei d d1 r r1 h
  rw [listedAddress_of ei description address hd ha] at hb
  unfold DeviceRemoteImpl.Entity
  simp only
  rw [find_set_other b base position e _ hget (by rw [hea]; exact fun hh => hb hh.symm)
    (by simp only [hea]; exact fun hh => hb hh.symm)]
  rcases hbase with ⟨_, rfl, _⟩ | ⟨_, ⟨entityType, rfl⟩, _, _⟩
  · rfl
  · have hne : ¬ (address.Entity = b) := fun hh => hb hh.symm
    simp [List.find?_append, NewEntityRemoteImpl, hne]

/-- After a returning step `Entity` finds, for the listed path, an entity whose features are
those built from the data. -/
theorem addEntityStep_entity_listed (period : PeriodPackage) (initialData : Bool)
    (fis : List NodeManagementDetailedDiscoveryFeatureInformationType)
    (ei : NodeManagementDetailedDiscoveryEntityInformationType)
    (d d1 : DeviceRemoteImpl) (r r1 : List Nat)
    (h : addEntityStep period initialData fis ei d r = .ok d1 r1) :
    ∃ e, d1.Entity (listedAddress ei) = some e ∧
      e.features = builtFeatures period e.address (listedAddress ei) fis := by
  obtain ⟨description, address, base, position, e, hd, ha, _, hpos, _, hea, rfl⟩ :=
    addEntityStep_ok period initialData fis ei d d1 r r1 h
  rw [listedAddress_of ei description address hd ha]
  refine ⟨_, find_set_first address.Entity base position _ hpos hea, rfl⟩

/-- A returning step leaves every entity of another path where it is. -/
theorem addEntityStep_get_other (period : PeriodPackage) (initialData : Bool)
    (fis : List NodeManagementDetailedDiscoveryFeatureInformationType)
    (ei : NodeManagementDetailedDiscoveryEntityInformationType)
    (d d1 : DeviceRemoteImpl) (r r1 : List Nat)
    (h : addEntityStep period initialData fis ei d r = .ok d1 r1)
    (i : Nat) (x : EntityRemoteImpl) (hx : d.entities[i]? = some x)
    (hne : x.address.Entity ≠ listedAddress ei) :
    d1.entities[i]? = some x := by
  obtain ⟨description, address, base, position, e, hd, ha, hbase, _, hget, hea, rfl⟩ :=
    addEntityStep_ok period initialData fis ei d d1 r r1 h
  rw [listedAddress_of ei description address hd ha] at hne
  have hbx : base[i]? = some x := by
    rcases hbase with ⟨_, rfl, _⟩ | ⟨_, ⟨entityType, rfl⟩, _, _⟩
    · exact hx
    · have hlt : i < d.entities.length := by
        rcases Nat.lt_or_ge i d.entities.length with hlt | hge
        · exact hlt
        · rw [List.getElem?_eq_none hge] at hx
          cases hx
      rw [List.getElem?_append_left hlt]
      exact hx
  have hip : position ≠ i := by
    rintro rfl
    rw [hget] at hbx
    cases hbx
    exact hne hea
  simp only
  rw [List.getElem?_set_ne hip]
  exact hbx

/-- The entity paths of the device after a returning step, and the pointers returned so far:
a listed path that is new is appended, and its position is added to the result. -/
theorem addEntityStep_addresses (period : PeriodPackage) (initialData : Bool)
    (fis : List NodeManagementDetailedDiscoveryFeatureInformationType)
    (ei : NodeManagementDetailedDiscoveryEntityInformationType)
    (d d1 : DeviceRemoteImpl) (r r1 : List Nat)
    (h : addEntityStep period initialData fis ei d r = .ok d1 r1) :
    (listedAddress ei ∈ d.entities.map (fun e => e.address.Entity) ∧
      d1.entities.map (fun e => e.address.Entity)
        = d.entities.map (fun e => e.address.Entity) ∧ r1 = r) ∨
    (listedAddress ei ∉ d.entities.map (fun e => e.address.Entity) ∧
      d1.entities.map (fun e => e.address.Entity)
        = d.entities.map (fun e => e.address.Entity) ++ [listedAddress ei] ∧
      r1 = r ++ [d.entities.length]) := by
  obtain ⟨description, address, base, position, e, hd, ha, hbase, _, hget, hea, rfl⟩ :=
    addEntityStep_ok period initialData fis ei d d1 r r1 h
  rw [listedAddress_of ei description address hd ha]
  have hmap : (base.set position ({ e with
        description := description.Description
        features := builtFeatures period e.address address.Entity fis })).map
        (fun e => e.address.Entity) = base.map (fun e => e.address.Entity) := by
    rw [List.map_set]
    apply List.ext_getElem?
    intro n
    by_cases hn : position = n
    · subst hn
      rw [List.getElem?_set_self']
      simp [List.getElem?_map, hget]
    · rw [List.getElem?_set_ne hn]
  simp only [hmap]
  rcases hbase with ⟨hpos, rfl, rfl⟩ | ⟨hpos, ⟨entityType, rfl⟩, rfl, rfl⟩
  · left
    obtain ⟨e0, hget0, hea0⟩ := entityPosition_get _ _ _ hpos
    exact ⟨List.mem_map.2 ⟨e0, List.getElem?_mem hget0, hea0⟩, rfl, rfl⟩
  · right
    refine ⟨?_, by simp [NewEntityRemoteImpl], rfl⟩
    intro hmem
    obtain ⟨x, hx, hxa⟩ := List.mem_map.1 hmem
    exact entityPosition_none _ _ hpos x hx hxa

/-- The outer loop, when it returns a value or an error, leaves what `Entity` finds for every
path that the entity informations do not list. -/
theorem addEntitiesLoop_entity_other (period : PeriodPackage) (initialData : Bool)
    (fis : List NodeManagementDetailedDiscoveryFeatureInformationType)
    (eis : List NodeManagementDetailedDiscoveryEntityInformationType)
    (d d1 : DeviceRemoteImpl) (r : List Nat)
    (h : (addEntitiesLoop period initialData fis eis d r).device? = some d1)
    (b : Option (List Nat)) (hb : b ∉ eis.map listedAddress) :
    d1.Entity b = d.Entity b := by
  induction eis generalizing d r with
  | nil =>
    simp only [addEntitiesLoop, Outcome.device?, Option.some.injEq] at h
    rw [h]
  | cons ei rest ih =>
    unfold addEntitiesLoop at h
    have hb1 : b ≠ listedAddress ei := fun hh => hb (by simp [hh])
    have hb2 : b ∉ rest.map listedAddress := fun hh => hb (by simp at hh ⊢; exact Or.inr hh)
    cases hstep : addEntityStep period initialData fis ei d r with
    | ok d2 r2 =>
      rw [hstep] at h
      rw [ih d2 r2 h hb2]
      exact addEntityStep_entity_other period initialData fis ei d d2 r r2 hstep b hb1
    | failed d2 err =>
      rw [hstep] at h
      simp only [Outcome.device?, Option.some.injEq] at h
      rw [← h, addEntityStep_failed period initialData fis ei d d2 r err hstep]
    | panicked =>
      rw [hstep] at h
      simp [Outcome.device?] at h

/-- After the outer loop has returned, `Entity` finds for every listed path an entity whose
features are those built from the data. -/
theorem addEntitiesLoop_entity_listed (period : PeriodPackage) (initialData : Bool)
    (fis : List NodeManagementDetailedDiscoveryFeatureInformationType)
    (eis : List NodeManagementDetailedDiscoveryEntityInformationType)
    (d d1 : DeviceRemoteImpl) (r r1 : List Nat)
    (h : addEntitiesLoop period initialData fis eis d r = .ok d1 r1)
    (a : Option (List Nat)) (ha : a ∈ eis.map listedAddress) :
    ∃ e, d1.Entity a = some e ∧ e.features = builtFeatures period e.address a fis := by
  induction eis generalizing d r with
  | nil => simp at ha
  | cons ei rest ih =>
    unfold addEntitiesLoop at h
    cases hstep : addEntityStep period initialData fis ei d r with
    | ok d2 r2 =>
      simp only [hstep] at h
      by_cases hrest : a ∈ rest.map listedAddress
      · exact ih d2 r2 h hrest
      · have hae : a = listedAddress ei := by
          simp only [List.map_cons, List.mem_cons] at ha
          rcases ha with ha | ha
          · exact ha
          · exact absurd ha hrest
        have hframe := addEntitiesLoop_entity_other period initialData fis rest d2 d1 r2
          (by rw [h]; rfl) a hrest
        rw [hframe, hae]
        exact addEntityStep_entity_listed period initialData fis ei d d2 r r2 hstep
    | failed d2 err =>
      rw [hstep] at h
      cases h
    | panicked =>
      rw [hstep] at h
      cases h

/-- The outer loop, when it returns, leaves every entity of a path that is not listed where
it is. -/
theorem addEntitiesLoop_get_other (period : PeriodPackage) (initialData : Bool)
    (fis : List NodeManagementDetailedDiscoveryFeatureInformationType)
    (eis : List NodeManagementDetailedDiscoveryEntityInformationType)
    (d d1 : DeviceRemoteImpl) (r r1 : List Nat)
    (h : addEntitiesLoop period initialData fis eis d r = .ok d1 r1)
    (i : Nat) (x : EntityRemoteImpl) (hx : d.entities[i]? = some x)
    (hne : x.address.Entity ∉ eis.map listedAddress) :
    d1.entities[i]? = some x := by
  induction eis generalizing d r with
  | nil =>
    simp only [addEntitiesLoop, Outcome.ok.injEq] at h
    rw [← h.1]
    exact hx
  | cons ei rest ih =>
    unfold addEntitiesLoop at h
    have h1 : x.address.Entity ≠ listedAddress ei := fun hh => hne (by simp [hh])
    have h2 : x.address.Entity ∉ rest.map listedAddress :=
      fun hh => hne (by simp at hh ⊢; exact Or.inr hh)
    cases hstep : addEntityStep period initialData fis ei d r with
    | ok d2 r2 =>
      simp only [hstep] at h
      exact ih d2 r2 h
        (addEntityStep_get_other period initialData fis ei d d2 r r2 hstep i x hx h1) h2
    | failed d2 err =>
      rw [hstep] at h
      cases h
    | panicked =>
      rw [hstep] at h
      cases h

/-- The entity paths of the device after the outer loop has returned are the paths it had,
followed by the new listed paths, each once, in the order of their first appearance; the
pointers returned are the positions of the appended entities, in order. -/
theorem addEntitiesLoop_addresses (period : PeriodPackage) (initialData : Bool)
    (fis : List NodeManagementDetailedDiscoveryFeatureInformationType)
    (eis : List NodeManagementDetailedDiscoveryEntityInformationType)
    (d d1 : DeviceRemoteImpl) (r r1 : List Nat)
    (h : addEntitiesLoop period initialData fis eis d r = .ok d1 r1) :
    d1.entities.map (fun e => e.address.Entity)
      = d.entities.map (fun e => e.address.Entity)
        ++ newAddresses (d.entities.map (fun e => e.address.Entity))
            (eis.map listedAddress) ∧
    r1 = r ++ List.range' d.entities.length
      (newAddresses (d.entities.map (fun e => e.address.Entity))
        (eis.map listedAddress)).length := by
  induction eis generalizing d r with
  | nil =>
    simp only [addEntitiesLoop, Outcome.ok.injEq] at h
    obtain ⟨rfl, rfl⟩ := h
    simp [newAddresses]
  | cons ei rest ih =>
    unfold addEntitiesLoop at h
    cases hstep : addEntityStep period initialData fis ei d r with
    | ok d2 r2 =>
      simp only [hstep] at h
      obtain ⟨ih1, ih2⟩ := ih d2 r2 h
      rcases addEntityStep_addresses period initialData fis ei d d2 r r2 hstep with
        ⟨hmem, hmap, hr⟩ | ⟨hmem, hmap, hr⟩
      · rw [hmap] at ih1 ih2
        have hlen : d2.entities.length = d.entities.length := by
          have := congrArg List.length hmap
          simpa using this
        rw [hlen, hr] at ih2
        simp only [List.map_cons, newAddresses, hmem, if_true]
        exact ⟨ih1, ih2⟩
      · rw [hmap] at ih1 ih2
        have hlen : d2.entities.length = d.entities.length + 1 := by
          have := congrArg List.length hmap
          simpa using this
        rw [hlen, hr] at ih2
        simp only [List.map_cons, newAddresses, hmem, if_false]
        refine ⟨by rw [ih1]; simp, ?_⟩
        rw [ih2, List.length_cons, List.range'_succ]
        simp
    | failed d2 err =>
      rw [hstep] at h
      cases h
    | panicked =>
      rw [hstep] at h
      cases h

/-- Removing the entities equal to one that fails a test does not change the first entity that
passes it. -/
theorem find_filter_ne (P : EntityRemoteImpl → Bool) (e : EntityRemoteImpl) (he : P e = false)
    (l : List EntityRemoteImpl) :
    (l.filter (fun item => decide (item ≠ e))).find? P = l.find? P := by
  rw [List.find?_filter]
  congr 1
  funext a
  by_cases ha : a = e
  · subst ha
    simp [he]
  · simp [ha]

/-- `RemoveByAddress` leaves what `Entity` finds for every other path. -/
theorem RemoveByAddress_entity_other (d : DeviceRemoteImpl) (addr b : Option (List Nat))
    (hb : addr ≠ b) : (d.RemoveByAddress addr).1.Entity b = d.Entity b := by
  unfold DeviceRemoteImpl.RemoveByAddress
  cases hfind : d.Entity addr with
  | none => rfl
  | some e =>
    have hea : e.address.Entity = addr := by
      have := List.find?_some hfind
      simpa using this
    simp only [DeviceRemoteImpl.Entity]
    apply find_filter_ne
    simp only [decide_eq_false_iff_not]
    rw [hea]
    exact hb

/-- A feature that `unmarshalFeature` builds has the type and the role of the data; and the
call returns for every entity address when it returns for one. -/
theorem unmarshalFeature_some (period : PeriodPackage) (entityAddress : EntityAddressType)
    (fi : NodeManagementDetailedDiscoveryFeatureInformationType) (f : FeatureRemoteImpl)
    (h : unmarshalFeature period entityAddress fi = some (some f)) :
    ∃ fid, fi.Description = some fid ∧ fid.FeatureType = some f.ftype ∧
      fid.Role = some f.role ∧
      ∀ other, ∃ f2, unmarshalFeature period other fi = some (some f2) ∧
        f2.ftype = f.ftype ∧ f2.role = f.role := by
  unfold unmarshalFeature at h
  cases hd : fi.Description with
  | none =>
    rw [hd] at h
    cases h
  | some fid =>
    rw [hd] at h
    simp only at h
    cases ha : fid.FeatureAddress with
    | none =>
      rw [ha] at h
      cases h
    | some featureAddress =>
      rw [ha] at h
      simp only at h
      split at h
      · rename_i feature featureType role hf ht hr
        split at h
        · cases h
        · rename_i result hres
          simp only [Option.some.injEq] at h
          subst h
          unfold FeatureRemoteImpl.SetOperations at hres
          cases hloop : setOperationsLoop [] fid.SupportedFunction with
          | none =>
            rw [hloop] at hres
            cases hres
          | some operations =>
            rw [hloop] at hres
            simp only [Option.some.injEq] at hres
            subst hres
            have hkeep : ∀ (r : FeatureRemoteImpl),
                (r.SetMaxResponseDelay period fid.MaxResponseDelay).ftype = r.ftype ∧
                (r.SetMaxResponseDelay period fid.MaxResponseDelay).role = r.role := by
              intro r
              unfold FeatureRemoteImpl.SetMaxResponseDelay
              split
              · exact ⟨rfl, rfl⟩
              · split <;> exact ⟨rfl, rfl⟩
            have hk1 : ∀ ea : EntityAddressType,
                (((NewFeatureRemoteImpl feature ea featureType role).SetDescription
                  fid.Description).SetMaxResponseDelay period fid.MaxResponseDelay).ftype
                  = featureType := fun ea => (hkeep _).1
            have hk2 : ∀ ea : EntityAddressType,
                (((NewFeatureRemoteImpl feature ea featureType role).SetDescription
                  fid.Description).SetMaxResponseDelay period fid.MaxResponseDelay).role
                  = role := fun ea => (hkeep _).2
            refine ⟨fid, rfl, ?_, ?_, ?_⟩
            · rw [ht]
              exact congrArg some (hk1 entityAddress).symm
            · rw [hr]
              exact congrArg some (hk2 entityAddress).symm
            · intro other
              unfold unmarshalFeature
              simp only [hd, ha, hf, ht, hr, FeatureRemoteImpl.SetOperations, hloop]
              exact ⟨_, rfl, (hk1 other).trans (hk1 entityAddress).symm,
                (hk2 other).trans (hk2 entityAddress).symm⟩
      · cases h

/-- When the inner loop returns, `unmarshalFeature` has returned a feature for every feature
information of the entity's path. -/
theorem addFeaturesLoop_unmarshal (period : PeriodPackage) (a : Option (List Nat))
    (fis : List NodeManagementDetailedDiscoveryFeatureInformationType)
    (e e1 : EntityRemoteImpl) (h : addFeaturesLoop period a fis e = some e1)
    (fi : NodeManagementDetailedDiscoveryFeatureInformationType) (hfi : fi ∈ fis)
    (fid : NetworkManagementFeatureDescriptionDataType) (hd : fi.Description = some fid)
    (hfa : (fid.FeatureAddress.map fun address => address.Entity) = some a) :
    ∃ f, unmarshalFeature period e.address fi = some (some f) := by
  induction fis generalizing e with
  | nil => cases hfi
  | cons x rest ih =>
    unfold addFeaturesLoop at h
    cases hxd : x.Description with
    | none => simp [hxd] at h
    | some xid =>
      simp only [hxd] at h
      cases hxa : xid.FeatureAddress with
      | none => simp [hxa] at h
      | some xa =>
        simp only [hxa] at h
        rcases List.mem_cons.1 hfi with rfl | hmem
        · rw [hd] at hxd
          cases hxd
          rw [hxa] at hfa
          simp only [Option.map_some', Option.some.injEq] at hfa
          simp only [hfa, if_true] at h
          cases hu : unmarshalFeature period e.address fi with
          | none => simp [hu] at h
          | some result =>
            cases result with
            | none =>
              unfold unmarshalFeature at hu
              simp [hd] at hu
              rw [hxa] at hu
              simp only at hu
              split at hu
              · split at hu <;> cases hu
              · cases hu
            | some f => exact ⟨f, rfl⟩
        · by_cases hent : xa.Entity = a
          · simp only [hent, if_true] at h
            cases hu : unmarshalFeature period e.address x with
            | none => simp [hu] at h
            | some result =>
              cases result with
              | none =>
                simp only [hu] at h
                exact ih e h hmem
              | some f =>
                simp only [hu] at h
                exact ih (e.AddFeature f) h hmem
          · simp only [hent, if_false] at h
            exact ih e h hmem

/-- A feature that `unmarshalFeature` returns for a feature information of the path is among
the built features. -/
theorem builtFeatures_mem_of (period : PeriodPackage) (entityAddress : EntityAddressType)
    (a : Option (List Nat))
    (fis : List NodeManagementDetailedDiscoveryFeatureInformationType)
    (fi : NodeManagementDetailedDiscoveryFeatureInformationType) (hfi : fi ∈ fis)
    (fid : NetworkManagementFeatureDescriptionDataType) (hd : fi.Description = some fid)
    (hfa : (fid.FeatureAddress.map fun address => address.Entity) = some a)
    (f : FeatureRemoteImpl) (hu : unmarshalFeature period entityAddress fi = some (some f)) :
    f ∈ builtFeatures period entityAddress a fis := by
  induction fis with
  | nil => cases hfi
  | cons x rest ih =>
    unfold builtFeatures
    rcases List.mem_cons.1 hfi with rfl | hmem
    · simp [hd, hfa, hu]
    · have hrest := ih hmem
      cases hxd : x.Description with
      | none => simpa using hrest
      | some xid =>
        simp only
        split
        · cases hxu : unmarshalFeature period entityAddress x with
          | none => simpa using hrest
          | some o =>
            cases o with
            | none => simpa using hrest
            | some g => simp [hrest]
        · exact hrest

/-- Every built feature is what `unmarshalFeature` returns for a feature information of the
path. -/
theorem builtFeatures_mem (period : PeriodPackage) (entityAddress : EntityAddressType)
    (a : Option (List Nat))
    (fis : List NodeManagementDetailedDiscoveryFeatureInformationType)
    (f : FeatureRemoteImpl) (hf : f ∈ builtFeatures period entityAddress a fis) :
    ∃ fi ∈ fis, ∃ fid, fi.Description = some fid ∧
      (fid.FeatureAddress.map fun address => address.Entity) = some a ∧
      unmarshalFeature period entityAddress fi = some (some f) := by
  induction fis with
  | nil => simp [builtFeatures] at hf
  | cons x rest ih =>
    unfold builtFeatures at hf
    have hrest : f ∈ builtFeatures period entityAddress a rest →
        ∃ fi ∈ x :: rest, ∃ fid, fi.Description = some fid ∧
          (fid.FeatureAddress.map fun address => address.Entity) = some a ∧
          unmarshalFeature period entityAddress fi = some (some f) := by
      intro hmem
      obtain ⟨fi, hfi, fid, h1, h2, h3⟩ := ih hmem
      exact ⟨fi, List.mem_cons_of_mem _ hfi, fid, h1, h2, h3⟩
    cases hxd : x.Description with
    | none =>
      rw [hxd] at hf
      exact hrest hf
    | some xid =>
      rw [hxd] at hf
      simp only at hf
      split at hf
      · rename_i hpath
        cases hxu : unmarshalFeature period entityAddress x with
        | none =>
          rw [hxu] at hf
          exact hrest hf
        | some o =>
          cases o with
          | none =>
            rw [hxu] at hf
            exact hrest hf
          | some g =>
            rw [hxu] at hf
            rcases List.mem_cons.1 hf with rfl | hmem
            · exact ⟨x, List.mem_cons_self _ _, xid, hxd, hpath, hxu⟩
            · exact hrest hmem
      · exact hrest hf

/-- A step of the outer loop that returns has run the inner loop to its end on the listed
path. -/
theorem addEntityStep_loop (period : PeriodPackage) (initialData : Bool)
    (fis : List NodeManagementDetailedDiscoveryFeatureInformationType)
    (ei : NodeManagementDetailedDiscoveryEntityInformationType)
    (d d1 : DeviceRemoteImpl) (r r1 : List Nat)
    (h : addEntityStep period initialData fis ei d r = .ok d1 r1) :
    ∃ e0 e1, addFeaturesLoop period (listedAddress ei) fis e0 = some e1 := by
  unfold addEntityStep at h
  split at h
  · cases h
  · split at h
    · cases h
    · rename_i description hdesc
      split at h
      · cases h
      · rename_i address haddr
        split at h
        · cases h
        · split at h
          · cases h
          · split at h
            · cases h
            · rename_i e1 hloop
              rw [listedAddress_of ei description address hdesc haddr]
              exact ⟨_, e1, hloop⟩

/-- The features of the device's entity of path [0], when the device holds the NodeManagement
feature. -/
theorem hasNodeManagement_iff (d : DeviceRemoteImpl) :
    hasNodeManagement d = true ↔
      ∃ e, d.Entity (some [0]) = some e ∧
        ∃ f ∈ e.features, f.ftype = FeatureTypeTypeNodeManagement ∧ f.role = RoleTypeSpecial := by
  unfold hasNodeManagement
  rw [show DeviceInformationEntityId = 0 from rfl]
  cases hfind : d.Entity (some [0]) with
  | none => simp
  | some e => simp

/-- A feature information that names the NodeManagement feature of the entity [0]. -/
theorem namesNodeManagement_iff (fi : NodeManagementDetailedDiscoveryFeatureInformationType) :
    namesNodeManagement fi = true ↔
      ∃ fid, fi.Description = some fid ∧
        (fid.FeatureAddress.map fun address => address.Entity) = some (some [0]) ∧
        fid.FeatureType = some FeatureTypeTypeNodeManagement ∧
        fid.Role = some RoleTypeSpecial := by
  unfold namesNodeManagement
  rw [show DeviceInformationEntityId = 0 from rfl]
  cases hd : fi.Description with
  | none => simp
  | some fid => simp

/-- A returning step keeps the NodeManagement feature when its path is not [0], or when the
feature information names the NodeManagement feature of the entity [0]. -/
theorem addEntityStep_nodeManagement (period : PeriodPackage) (initialData : Bool)
    (fis : List NodeManagementDetailedDiscoveryFeatureInformationType)
    (ei : NodeManagementDetailedDiscoveryEntityInformationType)
    (d d1 : DeviceRemoteImpl) (r r1 : List Nat)
    (h : addEntityStep period initialData fis ei d r = .ok d1 r1)
    (hd : hasNodeManagement d = true)
    (hdata : listedAddress ei ≠ some [0] ∨ ∃ fi ∈ fis, namesNodeManagement fi = true) :
    hasNodeManagement d1 = true := by
  by_cases hl : listedAddress ei = some [0]
  · rcases hdata with hne | ⟨fi, hfi, hnm⟩
    · exact absurd hl hne
    · obtain ⟨fid, hdesc, hpath, htype, hrole⟩ := (namesNodeManagement_iff fi).1 hnm
      obtain ⟨e, hfind, hfeatures⟩ :=
        addEntityStep_entity_listed period initialData fis ei d d1 r r1 h
      obtain ⟨e0, e1, hloop⟩ := addEntityStep_loop period initialData fis ei d d1 r r1 h
      rw [hl] at hfind hfeatures hloop
      obtain ⟨f0, hu0⟩ := addFeaturesLoop_unmarshal period (some [0]) fis e0 e1 hloop fi hfi
        fid hdesc hpath
      obtain ⟨fid0, hdesc0, htype0, hrole0, hother⟩ :=
        unmarshalFeature_some period e0.address fi f0 hu0
      obtain ⟨f, hu, hft, hfr⟩ := hother e.address
      rw [hdesc] at hdesc0
      cases hdesc0
      have hmem := builtFeatures_mem_of period e.address (some [0]) fis fi hfi fid hdesc hpath
        f hu
      rw [← hfeatures] at hmem
      refine (hasNodeManagement_iff d1).2 ⟨e, hfind, f, hmem, ?_, ?_⟩
      · rw [hft]
        exact Option.some.inj (htype0.symm.trans htype)
      · rw [hfr]
        exact Option.some.inj (hrole0.symm.trans hrole)
  · have hframe := addEntityStep_entity_other period initialData fis ei d d1 r r1 h
      (some [0]) (fun hh => hl hh.symm)
    unfold hasNodeManagement at hd ⊢
    rw [show DeviceInformationEntityId = 0 from rfl] at hd ⊢
    rw [hframe]
    exact hd

/-- The outer loop, when it returns a value or an error, keeps the NodeManagement feature when
no listed path is [0], or when the feature information names the NodeManagement feature of
the entity [0]. -/
theorem addEntitiesLoop_nodeManagement (period : PeriodPackage) (initialData : Bool)
    (fis : List NodeManagementDetailedDiscoveryFeatureInformationType)
    (eis : List NodeManagementDetailedDiscoveryEntityInformationType)
    (d d1 : DeviceRemoteImpl) (r : List Nat)
    (h : (addEntitiesLoop period initialData fis eis d r).device? = some d1)
    (hd : hasNodeManagement d = true)
    (hdata : some [0] ∉ eis.map listedAddress ∨ ∃ fi ∈ fis, namesNodeManagement fi = true) :
    hasNodeManagement d1 = true := by
  induction eis generalizing d r with
  | nil =>
    simp only [addEntitiesLoop, Outcome.device?, Option.some.injEq] at h
    rw [← h]
    exact hd
  | cons ei rest ih =>
    unfold addEntitiesLoop at h
    have hstepdata : listedAddress ei ≠ some [0] ∨ ∃ fi ∈ fis, namesNodeManagement fi = true := by
      rcases hdata with hno | hfi
      · exact Or.inl (fun hh => hno (by simp [hh]))
      · exact Or.inr hfi
    have hrestdata : some [0] ∉ rest.map listedAddress ∨
        ∃ fi ∈ fis, namesNodeManagement fi = true := by
      rcases hdata with hno | hfi
      · exact Or.inl (fun hh => hno (by simp at hh ⊢; exact Or.inr hh))
      · exact Or.inr hfi
    cases hstep : addEntityStep period initialData fis ei d r with
    | ok d2 r2 =>
      rw [hstep] at h
      exact ih d2 r2 h
        (addEntityStep_nodeManagement period initialData fis ei d d2 r r2 hstep hd hstepdata)
        hrestdata
    | failed d2 err =>
      rw [hstep] at h
      simp only [Outcome.device?, Option.some.injEq] at h
      rw [← h, addEntityStep_failed period initialData fis ei d d2 r err hstep]
      exact hd
    | panicked =>
      rw [hstep] at h
      simp [Outcome.device?] at h

/-- After `RemoveByAddress` of a path, a device whose entity paths are pairwise distinct has no
entity of that path. -/
theorem RemoveByAddress_entity_removed (d : DeviceRemoteImpl) (addr : Option (List Nat))
    (hd : (d.entities.map (fun e => e.address.Entity)).Nodup) :
    (d.RemoveByAddress addr).1.Entity addr = none := by
  unfold DeviceRemoteImpl.RemoveByAddress
  cases hfind : d.Entity addr with
  | none => exact hfind
  | some e =>
    have hea : e.address.Entity = addr := by
      have := List.find?_some hfind
      simpa using this
    have hmem : e ∈ d.entities := List.mem_of_find?_eq_some hfind
    simp only [DeviceRemoteImpl.Entity]
    rw [List.find?_eq_none]
    intro x hx
    obtain ⟨hxd, hxe⟩ := List.mem_filter.1 hx
    simp only [decide_eq_true_eq] at hxe ⊢
    intro hxa
    exact hxe (List.inj_on_of_nodup_map hd hxd hmem (hxa.trans hea.symm))

/-- C17 (as amended): on a remote device that holds it, the NodeManagement feature with role
special stays present on the entity of path [0] after `AddEntityAndFeatures`, whether it
returns entities or an error, for every detailed-discovery data that does not list the entity
[0] or whose feature information describes, for the entity [0], a feature of type
NodeManagement with role special; a successful call with data that lists the entity [0] and
describes no such feature removes it.  It stays present after `RemoveByAddress` for every
address other than [0]; `RemoveByAddress` of [0] removes it with the entity, when the entity
paths of the device are pairwise distinct. -/
theorem nodeManagement_preserved (period : PeriodPackage) (d : DeviceRemoteImpl)
    (initialData : Bool) (data : NodeManagementDetailedDiscoveryDataType)
    (addr : Option (List Nat)) (h : hasNodeManagement d = true) :
    ((some [0] ∉ data.EntityInformation.map listedAddress ∨
        ∃ fi ∈ data.FeatureInformation, namesNodeManagement fi = true) →
      ∀ d1, (d.AddEntityAndFeatures period initialData data).device? = some d1 →
        hasNodeManagement d1 = true) ∧
    (some [0] ∈ data.EntityInformation.map listedAddress →
      (∀ fi ∈ data.FeatureInformation, namesNodeManagement fi = false) →
      ∀ d1 ret, d.AddEntityAndFeatures period initialData data = .ok d1 ret →
        hasNodeManagement d1 = false) ∧
    (addr ≠ some [0] → hasNodeManagement (d.RemoveByAddress addr).1 = true) ∧
    ((d.entities.map (fun e => e.address.Entity)).Nodup →
      hasNodeManagement (d.RemoveByAddress (some [0])).1 = false) := by
  refine ⟨?_, ?_, ?_, ?_⟩
  · intro hdata d1 hd1
    exact addEntitiesLoop_nodeManagement period initialData data.FeatureInformation
      data.EntityInformation d d1 [] hd1 h hdata
  · intro hlisted hnone d1 ret hok
    obtain ⟨e, hfind, hfeatures⟩ := addEntitiesLoop_entity_listed period initialData
      data.FeatureInformation data.EntityInformation d d1 [] ret hok (some [0]) hlisted
    rw [← Bool.not_eq_true]
    intro hnm
    obtain ⟨e2, hfind2, f, hf, htype, hrole⟩ := (hasNodeManagement_iff d1).1 hnm
    rw [hfind] at hfind2
    cases hfind2
    rw [hfeatures] at hf
    obtain ⟨fi, hfi, fid, hdesc, hpath, hu⟩ :=
      builtFeatures_mem period e.address (some [0]) data.FeatureInformation f hf
    obtain ⟨fid0, hdesc0, htype0, hrole0, _⟩ := unmarshalFeature_some period e.address fi f hu
    rw [hdesc] at hdesc0
    cases hdesc0
    have hnames : namesNodeManagement fi = true :=
      (namesNodeManagement_iff fi).2 ⟨fid, hdesc, hpath, by rw [htype0, htype],
        by rw [hrole0, hrole]⟩
    rw [hnone fi hfi] at hnames
    cases hnames
  · intro haddr
    have hframe := RemoveByAddress_entity_other d addr (some [0]) haddr
    unfold hasNodeManagement at h ⊢
    rw [show DeviceInformationEntityId = 0 from rfl] at h ⊢
    rw [hframe]
    exact h
  · intro hnodup
    unfold hasNodeManagement
    rw [show DeviceInformationEntityId = 0 from rfl,
      RemoveByAddress_entity_removed d (some [0]) hnodup]

/-- C17 (witness): a new remote device keeps its NodeManagement feature through the scenario's
discovery data, which lists only the entity of path [1], through a reply that lists the entity
of path [0] with its NodeManagement feature, and through the removal of the entity of
path [1]. -/
theorem nodeManagement_preserved_witness :
    (∀ d1, ((NewDeviceRemoteImpl "ski").AddEntityAndFeatures samplePeriod true
        sampleDiscoveryData).device? = some d1 → hasNodeManagement d1 = true) ∧
    (∃ d1, (NewDeviceRemoteImpl "ski").AddEntityAndFeatures samplePeriod true
        fullDeviceInformationData = .ok d1 [1] ∧ hasNodeManagement d1 = true) ∧
    hasNodeManagement ((NewDeviceRemoteImpl "ski").RemoveByAddress (some [1])).1 = true := by
  have hfull : (NewDeviceRemoteImpl "ski").AddEntityAndFeatures samplePeriod true
      fullDeviceInformationData
      = .ok (match ((NewDeviceRemoteImpl "ski").AddEntityAndFeatures samplePeriod true
          fullDeviceInformationData).device? with
        | some d1 => d1
        | none => NewDeviceRemoteImpl "ski") [1] := by
    decide
  exact ⟨(nodeManagement_preserved samplePeriod (NewDeviceRemoteImpl "ski") true
      sampleDiscoveryData (some [1]) (by decide)).1 (Or.inl (by decide)),
    ⟨_, hfull, (nodeManagement_preserved samplePeriod (NewDeviceRemoteImpl "ski") true
      fullDeviceInformationData (some [1]) (by decide)).1
      (Or.inr ⟨_, List.mem_cons_self _ _, by decide⟩) _ (by rw [hfull]; rfl)⟩,
    (nodeManagement_preserved samplePeriod (NewDeviceRemoteImpl "ski") true sampleDiscoveryData
      (some [1]) (by decide)).2.2.1 (by decide)⟩

/-- C17 (counterexample): on a new remote device, which holds the NodeManagement feature,
`AddEntityAndFeatures` with a reply that lists the entity of path [0] and no feature returns
without error and leaves that entity without features; and `RemoveByAddress` of path [0]
removes the entity. -/
theorem nodeManagement_lost :
    hasNodeManagement (NewDeviceRemoteImpl "ski") = true ∧
    (∃ d1, (NewDeviceRemoteImpl "ski").AddEntityAndFeatures samplePeriod true
        bareDeviceInformationData = .ok d1 [] ∧
      hasNodeManagement d1 = false) ∧
    hasNodeManagement ((NewDeviceRemoteImpl "ski").RemoveByAddress (some [0])).1 = false := by
  refine ⟨by decide, ⟨_, rfl, by decide⟩, by decide⟩

/-- C18: after a successful `AddEntityAndFeatures`, for every entity path listed in the entity
information the device has an entity of that path, and the features of the one `Entity`
finds are exactly the features that `unmarshalFeature` builds from the entries of the
feature information whose description is present and whose entity path is that path, in the
order of the feature information (so none of its earlier features remains); every entity
whose path is not listed is where it was, unchanged. -/
theorem AddEntityAndFeatures_rebuilds_features (period : PeriodPackage)
    (d d1 : DeviceRemoteImpl) (initialData : Bool)
    (data : NodeManagementDetailedDiscoveryDataType) (ret : List Nat)
    (h : d.AddEntityAndFeatures period initialData data = .ok d1 ret) :
    (∀ a ∈ data.EntityInformation.map listedAddress,
      ∃ e, d1.Entity a = some e ∧
        e.features = builtFeatures period e.address a data.FeatureInformation) ∧
    (∀ (i : Nat) (x : EntityRemoteImpl), d.entities[i]? = some x →
      x.address.Entity ∉ data.EntityInformation.map listedAddress →
      d1.entities[i]? = some x) :=
  ⟨fun a ha => addEntitiesLoop_entity_listed period initialData data.FeatureInformation
      data.EntityInformation d d1 [] ret h a ha,
    fun i x hx hne => addEntitiesLoop_get_other period initialData data.FeatureInformation
      data.EntityInformation d d1 [] ret h i x hx hne⟩

/-- C18 (witness): the scenario's discovery data on a new remote device; the entity of path [1]
gets the two features of the data and the entity of path [0] is unchanged. -/
theorem AddEntityAndFeatures_rebuilds_features_witness :
    ∃ d1 e,
      (NewDeviceRemoteImpl "ski").AddEntityAndFeatures samplePeriod true sampleDiscoveryData
        = .ok d1 [1] ∧
      d1.Entity (some [1]) = some e ∧
      e.features = builtFeatures samplePeriod e.address (some [1])
        sampleDiscoveryData.FeatureInformation ∧
      e.features.map (fun f => f.ftype) = ["DeviceClassification", "Measurement"] ∧
      d1.entities[0]? = (NewDeviceRemoteImpl "ski").entities[0]? := by
  have h : (NewDeviceRemoteImpl "ski").AddEntityAndFeatures samplePeriod true
      sampleDiscoveryData
      = .ok (match (NewDeviceRemoteImpl "ski").AddEntityAndFeatures samplePeriod true
          sampleDiscoveryData with
        | .ok d1 _ => d1
        | _ => NewDeviceRemoteImpl "ski") [1] := by
    decide
  obtain ⟨e, he, hf⟩ :=
    (AddEntityAndFeatures_rebuilds_features samplePeriod _ _ true sampleDiscoveryData [1] h).1
      (some [1]) (by decide)
  refine ⟨_, e, h, he, hf, ?_, by decide⟩
  have he2 : e = (match ((match (NewDeviceRemoteImpl "ski").AddEntityAndFeatures samplePeriod
      true sampleDiscoveryData with
        | .ok d1 _ => d1
        | _ => NewDeviceRemoteImpl "ski").Entity (some [1])) with
      | some e => e
      | none => NewEntityRemoteImpl none "" none) := by
    rw [he]
  rw [he2]
  decide

/-- C19: a successful `AddEntityAndFeatures` returns exactly the pointers to the entities it
created, in the order of creation: the entity paths of the device are those it had, in
place, followed by the listed paths that were new, each once, in the order of their first
appearance, and the returned pointers are the positions of these appended entities.  On a new
remote device the scenario's data (one EVSE entity of path [1] with two features) returns
exactly one entity, of path [1], holding two features. -/
theorem AddEntityAndFeatures_returns_created (period : PeriodPackage)
    (d d1 : DeviceRemoteImpl) (initialData : Bool)
    (data : NodeManagementDetailedDiscoveryDataType) (ret : List Nat)
    (h : d.AddEntityAndFeatures period initialData data = .ok d1 ret) :
    d1.entities.map (fun e => e.address.Entity)
      = d.entities.map (fun e => e.address.Entity)
        ++ newAddresses (d.entities.map (fun e => e.address.Entity))
            (data.EntityInformation.map listedAddress) ∧
    ret = List.range' d.entities.length
      (newAddresses (d.entities.map (fun e => e.address.Entity))
        (data.EntityInformation.map listedAddress)).length ∧
    d1.entities.length = d.entities.length + ret.length ∧
    (∃ d2 e, (NewDeviceRemoteImpl "ski").AddEntityAndFeatures samplePeriod true
        sampleDiscoveryData = .ok d2 [1] ∧
      d2.entities[1]? = some e ∧ e.address.Entity = some [1] ∧ e.features.length = 2 ∧
      d2.entities.length = 2) := by
  obtain ⟨h1, h2⟩ := addEntitiesLoop_addresses period initialData data.FeatureInformation
    data.EntityInformation d d1 [] ret h
  refine ⟨h1, by simpa using h2, ?_, ?_⟩
  · have := congrArg List.length h1
    simp only [List.length_map, List.length_append] at this
    rw [this, h2]
    simp
  · refine ⟨(match (NewDeviceRemoteImpl "ski").AddEntityAndFeatures samplePeriod true
        sampleDiscoveryData with
      | .ok d2 _ => d2
      | _ => NewDeviceRemoteImpl "ski"),
      (match (match (NewDeviceRemoteImpl "ski").AddEntityAndFeatures samplePeriod true
        sampleDiscoveryData with
      | .ok d2 _ => d2
      | _ => NewDeviceRemoteImpl "ski").entities[1]? with
      | some e => e
      | none => NewEntityRemoteImpl none "" none), ?_⟩
    decide

/-- C19 (witness): the data lists the path [1] twice and the path [0] once on a new remote
device; one entity is created, for the path [1], and the returned pointer is its
position 1. -/
theorem AddEntityAndFeatures_returns_created_witness :
    ∃ d1, (NewDeviceRemoteImpl "ski").AddEntityAndFeatures samplePeriod true
        { EntityInformation :=
            [sampleEntityInformation EntityTypeTypeEVSE [1],
              sampleEntityInformation EntityTypeTypeDeviceInformation [0],
              sampleEntityInformation EntityTypeTypeEVSE [1]]
          FeatureInformation := sampleDiscoveryData.FeatureInformation }
        = .ok d1 [1] ∧
      d1.entities.map (fun e => e.address.Entity) = [some [0], some [1]] := by
  have h : (NewDeviceRemoteImpl "ski").AddEntityAndFeatures samplePeriod true
        { EntityInformation :=
            [sampleEntityInformation EntityTypeTypeEVSE [1],
              sampleEntityInformation EntityTypeTypeDeviceInformation [0],
              sampleEntityInformation EntityTypeTypeEVSE [1]]
          FeatureInformation := sampleDiscoveryData.FeatureInformation }
      = .ok (match (NewDeviceRemoteImpl "ski").AddEntityAndFeatures samplePeriod true
        { EntityInformation :=
            [sampleEntityInformation EntityTypeTypeEVSE [1],
              sampleEntityInformation EntityTypeTypeDeviceInformation [0],
              sampleEntityInformation EntityTypeTypeEVSE [1]]
          FeatureInformation := sampleDiscoveryData.FeatureInformation } with
        | .ok d1 _ => d1
        | _ => NewDeviceRemoteImpl "ski") [1] := by
    decide
  refine ⟨_, h, ?_⟩
  rw [(AddEntityAndFeatures_returns_created samplePeriod _ _ true _ [1] h).1]
  decide

/-- The feature that `unmarshalFeature` builds has the feature index of the data. -/
theorem unmarshalFeature_index (period : PeriodPackage) (entityAddress : EntityAddressType)
    (fi : NodeManagementDetailedDiscoveryFeatureInformationType) (f : FeatureRemoteImpl)
    (h : unmarshalFeature period entityAddress fi = some (some f)) :
    f.address.Feature = featureIndex fi := by
  unfold unmarshalFeature at h
  unfold featureIndex
  cases hd : fi.Description with
  | none =>
    rw [hd] at h
    cases h
  | some fid =>
    rw [hd] at h
    simp only at h ⊢
    cases ha : fid.FeatureAddress with
    | none =>
      rw [ha] at h
      cases h
    | some featureAddress =>
      rw [ha] at h
      simp only at h ⊢
      split at h
      · rename_i feature featureType role hf _ _
        split at h
        · cases h
        · rename_i result hres
          simp only [Option.some.injEq] at h
          subst h
          unfold FeatureRemoteImpl.SetOperations at hres
          split at hres
          · simp only [Option.some.injEq] at hres
            subst hres
            rw [hf]
            unfold FeatureRemoteImpl.SetMaxResponseDelay
            split
            · rfl
            · split <;> rfl
          · cases hres
      · cases h

/-- The feature indices of the built features are among the indices the data names for the
path, in order. -/
theorem builtFeatures_indices_sublist (period : PeriodPackage)
    (entityAddress : EntityAddressType) (a : Option (List Nat))
    (fis : List NodeManagementDetailedDiscoveryFeatureInformationType) :
    ((builtFeatures period entityAddress a fis).map (fun f => f.address.Feature)).Sublist
      (listedFeatureIndices a fis) := by
  induction fis with
  | nil => simp [builtFeatures, listedFeatureIndices]
  | cons fi rest ih =>
    unfold builtFeatures listedFeatureIndices
    cases hd : fi.Description with
    | none => simpa using ih
    | some fid =>
      simp only
      split
      · cases hu : unmarshalFeature period entityAddress fi with
        | none => exact ih.trans (List.sublist_cons_self _ _)
        | some o =>
          cases o with
          | none => exact ih.trans (List.sublist_cons_self _ _)
          | some f =>
            simp only [List.map_cons]
            rw [unmarshalFeature_index period entityAddress fi f hu]
            exact ih.cons₂ _
      · exact ih

/-- A returning step keeps the feature indices pairwise distinct within every entity, when
the data names pairwise distinct indices for the path of the step. -/
theorem addEntityStep_indices (period : PeriodPackage) (initialData : Bool)
    (fis : List NodeManagementDetailedDiscoveryFeatureInformationType)
    (ei : NodeManagementDetailedDiscoveryEntityInformationType)
    (d d1 : DeviceRemoteImpl) (r r1 : List Nat)
    (h : addEntityStep period initialData fis ei d r = .ok d1 r1)
    (hd : ∀ e ∈ d.entities, (featureIndices e).Nodup)
    (hdata : (listedFeatureIndices (listedAddress ei) fis).Nodup) :
    ∀ e ∈ d1.entities, (featureIndices e).Nodup := by
  obtain ⟨description, address, base, position, e, hdesc, ha, hbase, _, _, _, rfl⟩ :=
    addEntityStep_ok period initialData fis ei d d1 r r1 h
  rw [listedAddress_of ei description address hdesc ha] at hdata
  have hb : ∀ x ∈ base, (featureIndices x).Nodup := by
    rcases hbase with ⟨_, rfl, _⟩ | ⟨_, ⟨entityType, rfl⟩, _, _⟩
    · exact hd
    · intro x hx
      rcases List.mem_append.1 hx with hx | hx
      · exact hd x hx
      · simp only [List.mem_singleton] at hx
        subst hx
        simp [featureIndices, NewEntityRemoteImpl]
  intro x hx
  rcases List.mem_or_eq_of_mem_set hx with hx | rfl
  · exact hb x hx
  · exact (builtFeatures_indices_sublist period e.address address.Entity fis).nodup hdata

/-- The outer loop, when it returns a value or an error, keeps the feature indices pairwise
distinct within every entity, when the data names pairwise distinct indices for every
listed path. -/
theorem addEntitiesLoop_indices (period : PeriodPackage) (initialData : Bool)
    (fis : List NodeManagementDetailedDiscoveryFeatureInformationType)
    (eis : List NodeManagementDetailedDiscoveryEntityInformationType)
    (d d1 : DeviceRemoteImpl) (r : List Nat)
    (h : (addEntitiesLoop period initialData fis eis d r).device? = some d1)
    (hd : ∀ e ∈ d.entities, (featureIndices e).Nodup)
    (hdata : ∀ a ∈ eis.map listedAddress, (listedFeatureIndices a fis).Nodup) :
    ∀ e ∈ d1.entities, (featureIndices e).Nodup := by
  induction eis generalizing d r with
  | nil =>
    simp only [addEntitiesLoop, Outcome.device?, Option.some.injEq] at h
    rw [← h]
    exact hd
  | cons ei rest ih =>
    unfold addEntitiesLoop at h
    cases hstep : addEntityStep period initialData fis ei d r with
    | ok d2 r2 =>
      rw [hstep] at h
      exact ih d2 r2 h
        (addEntityStep_indices period initialData fis ei d d2 r r2 hstep hd
          (hdata _ (by simp)))
        (fun a ha => hdata a (by simp at ha ⊢; exact Or.inr ha))
    | failed d2 err =>
      rw [hstep] at h
      simp only [Outcome.device?, Option.some.injEq] at h
      rw [← h, addEntityStep_failed period initialData fis ei d d2 r err hstep]
      exact hd
    | panicked =>
      rw [hstep] at h
      simp [Outcome.device?] at h

/-- C20 (amended): when the feature indices are pairwise distinct within every entity of the
device before the call, and for every entity path listed in the entity information the
feature informations of that path name pairwise distinct feature indices, then after
`AddEntityAndFeatures` has returned (a value or an error) the feature indices are pairwise
distinct within every entity of the device. -/
theorem AddEntityAndFeatures_indices_distinct (period : PeriodPackage)
    (d d1 : DeviceRemoteImpl) (initialData : Bool)
    (data : NodeManagementDetailedDiscoveryDataType)
    (h : (d.AddEntityAndFeatures period initialData data).device? = some d1)
    (hd : ∀ e ∈ d.entities, (featureIndices e).Nodup)
    (hdata : ∀ a ∈ data.EntityInformation.map listedAddress,
      (listedFeatureIndices a data.FeatureInformation).Nodup) :
    ∀ e ∈ d1.entities, (featureIndices e).Nodup :=
  addEntitiesLoop_indices period initialData data.FeatureInformation data.EntityInformation
    d d1 [] h hd hdata

/-- C20 (witness): the scenario's data, with the feature indices 1 and 2 for the path [1], on a
new remote device. -/
theorem AddEntityAndFeatures_indices_distinct_witness :
    (∀ e ∈ (NewDeviceRemoteImpl "ski").entities, (featureIndices e).Nodup) ∧
    (∀ a ∈ sampleDiscoveryData.EntityInformation.map listedAddress,
      (listedFeatureIndices a sampleDiscoveryData.FeatureInformation).Nodup) ∧
    ∃ d1, ((NewDeviceRemoteImpl "ski").AddEntityAndFeatures samplePeriod true
        sampleDiscoveryData).device? = some d1 ∧
      d1.entities.map featureIndices = [[some 0], [some 1, some 2]] ∧
      ∀ e ∈ d1.entities, (featureIndices e).Nodup := by
  have hd : ∀ e ∈ (NewDeviceRemoteImpl "ski").entities, (featureIndices e).Nodup := by
    decide
  have hdata : ∀ a ∈ sampleDiscoveryData.EntityInformation.map listedAddress,
      (listedFeatureIndices a sampleDiscoveryData.FeatureInformation).Nodup := by
    decide
  have h : ((NewDeviceRemoteImpl "ski").AddEntityAndFeatures samplePeriod true
      sampleDiscoveryData).device?
      = some (match (NewDeviceRemoteImpl "ski").AddEntityAndFeatures samplePeriod true
          sampleDiscoveryData with
        | .ok d1 _ => d1
        | _ => NewDeviceRemoteImpl "ski") := by
    decide
  exact ⟨hd, hdata, _, h, by decide,
    AddEntityAndFeatures_indices_distinct samplePeriod _ _ true sampleDiscoveryData h hd hdata⟩

/-- C20 (counterexample): a reply that names the feature index 1 twice for the entity of
path [1] is accepted on a new remote device, whose feature indices are distinct; the entity
of path [1] then holds two features of index 1. -/
theorem AddEntityAndFeatures_repeated_index :
    (∀ e ∈ (NewDeviceRemoteImpl "ski").entities, (featureIndices e).Nodup) ∧
    ∃ d1 e, (NewDeviceRemoteImpl "ski").AddEntityAndFeatures samplePeriod true
        repeatedIndexData = .ok d1 [1] ∧
      e ∈ d1.entities ∧ e.address.Entity = some [1] ∧
      featureIndices e = [some 1, some 1] ∧ ¬ (featureIndices e).Nodup := by
  refine ⟨by decide, (match (NewDeviceRemoteImpl "ski").AddEntityAndFeatures samplePeriod true
        repeatedIndexData with
      | .ok d1 _ => d1
      | _ => NewDeviceRemoteImpl "ski"),
    (match (match (NewDeviceRemoteImpl "ski").AddEntityAndFeatures samplePeriod true
        repeatedIndexData with
      | .ok d1 _ => d1
      | _ => NewDeviceRemoteImpl "ski").entities[1]? with
      | some e => e
      | none => NewEntityRemoteImpl none "" none), ?_⟩
  decide

/-! ## The operations map -/

/-- A lookup after a map assignment. -/
theorem mapGet_mapSet {β : Type} (m : List (String × β)) (key f : String) (value : β) :
    mapGet (mapSet m key value) f = if key = f then some value else mapGet m f := by
  induction m with
  | nil => simp [mapSet, mapGet]
  | cons entry rest ih =>
    obtain ⟨k, v⟩ := entry
    unfold mapSet
    by_cases hk : k = key
    · subst hk
      by_cases hf : k = f <;> simp [mapGet, hf]
    · simp only [hk, if_false]
      unfold mapGet
      rw [ih]
      by_cases hkf : k = f
      · subst hkf
        have : ¬ key = k := fun h => hk h.symm
        simp [this]
      · simp [hkf]

/-- The last element naming a function, in a list with one more element in front. -/
theorem lastNaming_cons (f : String) (sf : FunctionPropertyType)
    (rest : List FunctionPropertyType) :
    lastNaming f (sf :: rest)
      = match lastNaming f rest with
        | some found => some found
        | none => if sf.Function = some f then some sf else none := rfl

/-- The loop of `SetOperations` returns when every element carries a function and
possibleOperations; an entry of the resulting map is the one of the last element that names
its function, or the one the map had when no element names it. -/
theorem setOperationsLoop_get (fs : List FunctionPropertyType)
    (h : ∀ sf ∈ fs, sf.Function.isSome ∧ sf.PossibleOperations.isSome)
    (operations : List (String × Operations)) :
    ∃ result, setOperationsLoop operations fs = some result ∧
      ∀ f, mapGet result f
        = match lastNaming f fs with
          | some sf => operationsOf sf
          | none => mapGet operations f := by
  induction fs generalizing operations with
  | nil => exact ⟨operations, rfl, fun f => rfl⟩
  | cons sf rest ih =>
    have hsf := h sf (by simp)
    obtain ⟨function, hfn⟩ := Option.isSome_iff_exists.1 hsf.1
    obtain ⟨possible, hpo⟩ := Option.isSome_iff_exists.1 hsf.2
    obtain ⟨result, hres, hget⟩ := ih (fun x hx => h x (by simp [hx]))
      (mapSet operations function (NewOperations possible.Read.isSome possible.Write.isSome))
    refine ⟨result, ?_, ?_⟩
    · unfold setOperationsLoop
      rw [hfn, hpo]
      exact hres
    · intro f
      rw [hget f, lastNaming_cons]
      cases hlast : lastNaming f rest with
      | some found => rfl
      | none =>
        simp only
        rw [mapGet_mapSet, hfn]
        by_cases hf : function = f
        · subst hf
          simp [operationsOf, hpo]
        · have : ¬ some function = some f := fun hh => hf (Option.some.inj hh)
          simp [hf, this]

/-- No element names the function exactly when `lastNaming` finds none. -/
theorem lastNaming_eq_none (f : String) (fs : List FunctionPropertyType) :
    lastNaming f fs = none ↔ ∀ sf ∈ fs, sf.Function ≠ some f := by
  induction fs with
  | nil => simp [lastNaming]
  | cons sf rest ih =>
    rw [lastNaming_cons]
    cases hlast : lastNaming f rest with
    | some found =>
      simp only [false_iff, reduceCtorEq]
      intro hall
      have := ih.2 (fun x hx => hall x (by simp [hx]))
      rw [hlast] at this
      cases this
    | none =>
      have hrest := ih.1 hlast
      by_cases hf : sf.Function = some f
      · simp [hf]
      · simp only [hf, if_false, true_iff]
        intro x hx
        rcases List.mem_cons.1 hx with rfl | hx
        · exact hf
        · exact hrest x hx

/-- The element that `lastNaming` finds is the last one naming the function. -/
theorem lastNaming_of_split (f : String) (before after : List FunctionPropertyType)
    (sf : FunctionPropertyType) (hsf : sf.Function = some f)
    (hafter : ∀ x ∈ after, x.Function ≠ some f) :
    lastNaming f (before ++ sf :: after) = some sf := by
  induction before with
  | nil =>
    simp only [List.nil_append]
    rw [lastNaming_cons, (lastNaming_eq_none f after).2 hafter]
    simp [hsf]
  | cons x rest ih =>
    simp only [List.cons_append]
    rw [lastNaming_cons, ih]

/-- C21: when every element of the supported functions carries a function and
possibleOperations, `SetOperations` returns and changes only the operations map; the new map has
an entry for a function if and only if some element names it; the entry has the read flag
exactly when the last element naming the function has read in its possibleOperations, and the
write flag exactly when it has write; the map the feature had before the call plays no
role. -/
theorem SetOperations_entries (r : FeatureRemoteImpl) (fs : List FunctionPropertyType)
    (h : ∀ sf ∈ fs, sf.Function.isSome ∧ sf.PossibleOperations.isSome) :
    ∃ result, r.SetOperations fs = some result ∧
      result = { r with operations := result.operations } ∧
      (∀ f, (mapGet result.operations f).isSome ↔ ∃ sf ∈ fs, sf.Function = some f) ∧
      (∀ f before after sf possible, fs = before ++ sf :: after → sf.Function = some f →
        sf.PossibleOperations = some possible → (∀ x ∈ after, x.Function ≠ some f) →
        mapGet result.operations f
          = some { Read := possible.Read.isSome, Write := possible.Write.isSome }) ∧
      (∀ r2 : FeatureRemoteImpl, ∃ result2, r2.SetOperations fs = some result2 ∧
        result2.operations = result.operations) := by
  obtain ⟨operations, hloop, hget⟩ := setOperationsLoop_get fs h []
  have hset : ∀ r2 : FeatureRemoteImpl,
      r2.SetOperations fs = some { r2 with operations := operations } := by
    intro r2
    unfold FeatureRemoteImpl.SetOperations
    rw [hloop]
  refine ⟨_, hset r, rfl, ?_, ?_, fun r2 => ⟨_, hset r2, rfl⟩⟩
  · intro f
    simp only
    rw [hget f]
    cases hlast : lastNaming f fs with
    | none =>
      have hnone := (lastNaming_eq_none f fs).1 hlast
      simp only [mapGet, Option.isSome_none, Bool.false_eq_true, false_iff, not_exists, not_and]
      exact hnone
    | some found =>
      have hex : ∃ sf ∈ fs, sf.Function = some f := by
        by_contra hno
        have := (lastNaming_eq_none f fs).2 (fun x hx hxf => hno ⟨x, hx, hxf⟩)
        rw [hlast] at this
        cases this
      obtain ⟨x, hx, hxf⟩ := hex
      have hfound : found ∈ fs ∧ found.Function = some f := by
        clear hget hloop hset h hx hxf x
        induction fs with
        | nil => simp [lastNaming] at hlast
        | cons y rest ih =>
          rw [lastNaming_cons] at hlast
          cases hl : lastNaming f rest with
          | some z =>
            rw [hl] at hlast
            simp only [Option.some.injEq] at hlast
            subst hlast
            have := ih hl
            exact ⟨by simp [this.1], this.2⟩
          | none =>
            rw [hl] at hlast
            simp only at hlast
            split_ifs at hlast with hy
            simp only [Option.some.injEq] at hlast
            subst hlast
            exact ⟨by simp, hy⟩
      have hp := (h found hfound.1).2
      obtain ⟨possible, hpo⟩ := Option.isSome_iff_exists.1 hp
      simp only [operationsOf, hpo, Option.map_some', Option.isSome_some, true_iff]
      exact ⟨x, hx, hxf⟩
  · intro f before after sf possible hfs hsf hpo hafter
    simp only
    rw [hget f, hfs, lastNaming_of_split f before after sf hsf hafter]
    simp [operationsOf, hpo, NewOperations]

/-- C21 (witness): the feature holds an entry for the function "old"; the list names
"measurementListData" twice, last with read only, and "measurementDescriptionListData" once
with read and write. -/
theorem SetOperations_entries_witness :
    ∃ result,
      featureWithOperations.SetOperations sampleFunctions = some result ∧
      mapGet result.operations "measurementListData" = some { Read := true, Write := false } ∧
      mapGet result.operations "measurementDescriptionListData"
        = some { Read := true, Write := true } ∧
      mapGet result.operations "old" = none ∧
      mapGet featureWithOperations.operations "old" = some { Read := true, Write := true } := by
  obtain ⟨result, hres, _, hiff, hlast, _⟩ :=
    SetOperations_entries featureWithOperations sampleFunctions (by decide)
  refine ⟨result, hres, ?_, ?_, ?_, by decide⟩
  · exact hlast "measurementListData"
      [functionProperty "measurementListData" true true,
        functionProperty "measurementDescriptionListData" true true] []
      (functionProperty "measurementListData" true false) _ rfl rfl rfl (by simp)
  · exact hlast "measurementDescriptionListData"
      [functionProperty "measurementListData" true true]
      [functionProperty "measurementListData" true false]
      (functionProperty "measurementDescriptionListData" true true) _ rfl rfl rfl (by decide)
  · apply Option.not_isSome_iff_eq_none.1
    intro hs
    have hex := (hiff "old").1 hs
    revert hex
    decide

/-! ## Incoming messages and the destination list -/

/-- C23 (as amended): when `json.Unmarshal` returns an error, `HandleIncomingSpineMesssage`
returns that error and no counter and calls nothing, and in no other case does it return an
error; when the message decodes and `ProcessCmd` returns, with or without an error (which is
only logged), the call returns the msgCounter of the datagram's header and a nil error; when
the message decodes and `ProcessCmd` panics, the call panics and returns nothing. -/
theorem HandleIncomingSpineMesssage_result (deps : SpineDeps) (d : DeviceRemoteImpl)
    (message : Bytes) :
    (∀ datagram err, deps.Unmarshal message = (datagram, some err) →
      d.HandleIncomingSpineMesssage deps message
        = some { device := d, calls := [], msgCounter := none, err := some err }) ∧
    (∀ result, d.HandleIncomingSpineMesssage deps message = some result →
      (result.err.isSome ↔ (deps.Unmarshal message).2.isSome)) ∧
    (∀ datagram d1 perr, deps.Unmarshal message = (datagram, none) →
      deps.ProcessCmd datagram.Datagram d = some (d1, perr) →
      d.HandleIncomingSpineMesssage deps message
        = some
          { device := d1
            calls := .ProcessCmd datagram.Datagram ::
              (match perr with
                | some err => [.LogTrace err]
                | none => [])
            msgCounter := datagram.Datagram.Header.MsgCounter
            err := none }) ∧
    (∀ datagram, deps.Unmarshal message = (datagram, none) →
      deps.ProcessCmd datagram.Datagram d = none →
      d.HandleIncomingSpineMesssage deps message = none) := by
  unfold DeviceRemoteImpl.HandleIncomingSpineMesssage
  refine ⟨?_, ?_, ?_, ?_⟩
  · intro datagram err hu
    rw [hu]
  · intro result hres
    rcases hu : deps.Unmarshal message with ⟨datagram, err⟩
    rw [hu] at hres
    cases err with
    | some e =>
      simp only [Option.some.injEq] at hres
      subst hres
      simp
    | none =>
      simp only at hres
      rcases hp : deps.ProcessCmd datagram.Datagram d with _ | ⟨d1, perr⟩
      · rw [hp] at hres
        cases hres
      · rw [hp] at hres
        cases perr <;>
          · simp only [Option.some.injEq] at hres
            subst hres
            simp
  · intro datagram d1 perr hu hp
    rw [hu]
    simp only [hp]
    cases perr <;> rfl
  · intro datagram hu hp
    rw [hu]
    simp only [hp]

/-- C23 (counterexample): with the sample collaborators the message 3 decodes without error, to
a datagram without destination address; `ProcessCmd` panics on it, and
`HandleIncomingSpineMesssage` returns neither a counter nor an error.  The message 1 decodes
too, `ProcessCmd` returns an error on it, and the call returns the counter 5 and no error. -/
theorem HandleIncomingSpineMesssage_panics :
    sampleSpineDeps.Unmarshal [3] = (zeroDatagram, none) ∧
    sampleSpineDeps.ProcessCmd zeroDatagram.Datagram (NewDeviceRemoteImpl "ski") = none ∧
    (NewDeviceRemoteImpl "ski").HandleIncomingSpineMesssage sampleSpineDeps [3] = none ∧
    (NewDeviceRemoteImpl "ski").HandleIncomingSpineMesssage sampleSpineDeps [1]
      = some
        { device := NewDeviceRemoteImpl "ski"
          calls := [.ProcessCmd { Header := addressedHeader 5, Payload := [] },
            .LogTrace "no function found for cmd data"]
          msgCounter := some 5
          err := none } := by
  decide

/-- Removing the entry of a key leaves no entry of that key, and keeps every other entry. -/
theorem PendingRequestsRemove_table (table : List PendingRequest) (ski : String)
    (counter : Nat) :
    (PendingRequestsRemove table ski counter).1
      = table.filter (fun p => !(PendingRequest.hasKey ski counter p)) := by
  unfold PendingRequestsRemove
  split_ifs with h
  · rfl
  · simp only
    symm
    rw [List.filter_eq_self]
    intro p hp
    simp only [List.any_eq_true, not_exists, not_and] at h
    simpa using h p hp

/-- The method `Remove` returns an error exactly when the table has no entry of the key. -/
theorem PendingRequestsRemove_error (table : List PendingRequest) (ski : String)
    (counter : Nat) :
    ((PendingRequestsRemove table ski counter).2.isSome
      ↔ ¬ ∃ p ∈ table, p.ski = ski ∧ p.counter = counter) := by
  unfold PendingRequestsRemove
  split_ifs with h
  · simp only [List.any_eq_true, PendingRequest.hasKey, decide_eq_true_eq] at h
    simp only [Option.isSome_none, Bool.false_eq_true, false_iff, not_not]
    exact h
  · simp only [List.any_eq_true, PendingRequest.hasKey, decide_eq_true_eq] at h
    simp only [Option.isSome_some, true_iff]
    exact h

/-- C24: for a destination-list message with classifier reply (from a remote device, with a
request header that carries a msgCounterReference), `handleMsgDestinationListData` calls
`Remove` with the key (remote SKI, msgCounterReference) as its first call and calls it once;
afterwards the table has no entry of that key and every other entry as before.  When no such
entry exists it returns an error and the reply processing is not called; when one exists the
reply processing is called after the removal.  For classifier notify the table is left as it is
and `Remove` is not called. -/
theorem handleMsgDestinationListData_reply (deps : SpineDeps) (r : NodeManagementImpl)
    (message : Message) (data : Option NodeManagementDestinationListDataType)
    (device : DeviceRemoteImpl) (header : HeaderType) (reference : Nat)
    (hc : message.CmdClassifier = CmdClassifierTypeReply)
    (hd : message.DeviceRemote = some device) (hh : message.RequestHeader = some header)
    (hr : header.MsgCounterReference = some reference) :
    (r.handleMsgDestinationListData deps message data).calls.head?
      = some (.Remove device.ski reference) ∧
    ((r.handleMsgDestinationListData deps message data).calls.filter
      (fun call => match call with
        | .Remove _ _ => true
        | _ => false)) = [.Remove device.ski reference] ∧
    (r.handleMsgDestinationListData deps message data).node.pendingRequests
      = r.pendingRequests.filter (fun p => !(PendingRequest.hasKey device.ski reference p)) ∧
    ((¬ ∃ p ∈ r.pendingRequests, p.ski = device.ski ∧ p.counter = reference) →
      (r.handleMsgDestinationListData deps message data).node = r ∧
      (r.handleMsgDestinationListData deps message data).calls
        = [.Remove device.ski reference] ∧
      ∃ err, (r.handleMsgDestinationListData deps message data).result = some (some err)) ∧
    ((∃ p ∈ r.pendingRequests, p.ski = device.ski ∧ p.counter = reference) →
      ∀ list, data = some list →
        (r.handleMsgDestinationListData deps message data).calls
          = [.Remove device.ski reference, .processReplyDestinationListData list]) ∧
    (∀ (message2 : Message) (data2 : Option NodeManagementDestinationListDataType),
      message2.CmdClassifier = CmdClassifierTypeNotify →
      (r.handleMsgDestinationListData deps message2 data2).node = r ∧
      ∀ ski counter,
        Call.Remove ski counter ∉ (r.handleMsgDestinationListData deps message2 data2).calls) := by
  have hne : ¬ CmdClassifierTypeReply = CmdClassifierTypeRead := by decide
  have htable := PendingRequestsRemove_table r.pendingRequests device.ski reference
  have herr := PendingRequestsRemove_error r.pendingRequests device.ski reference
  have hunfold : r.handleMsgDestinationListData deps message data
      = match PendingRequestsRemove r.pendingRequests device.ski reference with
        | (table, some err) =>
          { node := { r with pendingRequests := table }
            calls := [.Remove device.ski reference]
            result := some (some err) }
        | (table, none) =>
          match data with
          | none =>
            { node := { r with pendingRequests := table }
              calls := [.Remove device.ski reference]
              result := none }
          | some list =>
            NodeManagementImpl.processReplyDestinationListData
              { r with pendingRequests := table } [.Remove device.ski reference] message
              list := by
    unfold NodeManagementImpl.handleMsgDestinationListData
    simp only [hc, hne, if_false, if_true, hd, hh, hr]
  rw [hunfold]
  rcases hrem : PendingRequestsRemove r.pendingRequests device.ski reference with ⟨table, err⟩
  rw [hrem] at htable herr
  simp only at htable herr
  refine ⟨?_, ?_, ?_, ?_, ?_, ?_⟩
  · cases err with
    | some e => rfl
    | none => cases data <;> rfl
  · cases err with
    | some e => rfl
    | none => cases data <;> rfl
  · cases err with
    | some e => exact htable
    | none => cases data <;> exact htable
  · intro habsent
    have hsome := herr.2 habsent
    cases err with
    | none => simp at hsome
    | some e =>
      refine ⟨?_, rfl, e, rfl⟩
      simp only
      have hsame : table = r.pendingRequests := by
        rw [htable, List.filter_eq_self]
        intro p hp
        simp only [PendingRequest.hasKey, Bool.not_eq_true', decide_eq_false_iff_not]
        exact fun hk => habsent ⟨p, hp, hk⟩
      rw [hsame]
  · intro hpresent list hdata
    cases err with
    | some e =>
      have := herr.1 rfl
      exact absurd hpresent this
    | none =>
      subst hdata
      rfl
  · intro message2 data2 hc2
    have h1 : ¬ CmdClassifierTypeNotify = CmdClassifierTypeRead := by decide
    have h2 : ¬ CmdClassifierTypeNotify = CmdClassifierTypeReply := by decide
    unfold NodeManagementImpl.handleMsgDestinationListData
    simp only [hc2, h1, h2, if_false, if_true]
    cases data2 with
    | none => exact ⟨rfl, fun _ _ => by simp⟩
    | some list =>
      exact ⟨rfl, fun _ _ => by
        simp [NodeManagementImpl.processReplyDestinationListData]⟩

/-- C24 (witness): the reply to the pending request 7 of the remote device of SKI "ski"; the
entry of counter 7 is removed, the one of counter 8 stays, and the reply processing follows
the removal. -/
theorem handleMsgDestinationListData_reply_witness :
    (sampleNodeManagement.handleMsgDestinationListData sampleSpineDeps
        (sampleMessage CmdClassifierTypeReply (some 7))
        (some { NodeManagementDestinationData := [] })).node.pendingRequests
      = [{ ski := "ski", counter := 8 }] ∧
    (sampleNodeManagement.handleMsgDestinationListData sampleSpineDeps
        (sampleMessage CmdClassifierTypeReply (some 7))
        (some { NodeManagementDestinationData := [] })).calls
      = [.Remove "ski" 7, .processReplyDestinationListData { NodeManagementDestinationData := [] }] := by
  obtain ⟨_, _, htable, _, hpresent, _⟩ := handleMsgDestinationListData_reply sampleSpineDeps
    sampleNodeManagement (sampleMessage CmdClassifierTypeReply (some 7))
    (some { NodeManagementDestinationData := [] }) (NewDeviceRemoteImpl "ski")
    (sampleHeader 3 (some 7) CmdClassifierTypeReply) 7 rfl rfl rfl rfl
  refine ⟨?_, ?_⟩
  · rw [htable]
    decide
  · exact hpresent (by decide) _ rfl

/-- C25: for a read of the destination list from a remote feature, `handleMsgDestinationListData`
makes exactly one call, `Reply` on the sender of the remote feature, with the request header of
the message, the NodeManagement feature's own address as source and a command whose
destination list holds exactly one record, the destination data of the local device; it
returns what that `Reply` returns and leaves the pending requests as they are. -/
theorem handleMsgDestinationListData_read (deps : SpineDeps) (r : NodeManagementImpl)
    (message : Message) (data : Option NodeManagementDestinationListDataType)
    (featureRemote : FeatureRemoteImpl)
    (hc : message.CmdClassifier = CmdClassifierTypeRead)
    (hf : message.FeatureRemote = some featureRemote) :
    r.handleMsgDestinationListData deps message data
      = { node := r
          calls := [.Reply featureRemote message.RequestHeader r.address
            { NodeManagementDestinationListData := some
                { NodeManagementDestinationData := [r.destinationData] }
              DeviceClassificationManufacturerData := none }]
          result := some (deps.Reply featureRemote message.RequestHeader r.address
            { NodeManagementDestinationListData := some
                { NodeManagementDestinationData := [r.destinationData] }
              DeviceClassificationManufacturerData := none }) } := by
  unfold NodeManagementImpl.handleMsgDestinationListData
  simp only [hc, if_true, NodeManagementImpl.processReadDestinationListData, hf]
  rfl

/-- C25 (witness): a read from the sample remote feature; one reply is sent, with the request
header of counter 3, and its nil error is the result. -/
theorem handleMsgDestinationListData_read_witness :
    (sampleNodeManagement.handleMsgDestinationListData sampleSpineDeps
        (sampleMessage CmdClassifierTypeRead none) none).calls
      = [.Reply sampleFeature (some (sampleHeader 3 none CmdClassifierTypeRead))
          sampleNodeManagement.address
          { NodeManagementDestinationListData := some
              { NodeManagementDestinationData := [sampleNodeManagement.destinationData] }
            DeviceClassificationManufacturerData := none }] ∧
    (sampleNodeManagement.handleMsgDestinationListData sampleSpineDeps
        (sampleMessage CmdClassifierTypeRead none) none).result = some none := by
  rw [handleMsgDestinationListData_read sampleSpineDeps sampleNodeManagement
    (sampleMessage CmdClassifierTypeRead none) none sampleFeature rfl rfl]
  exact ⟨rfl, rfl⟩

/-! ## Selectors of the measurement list -/

/-- C30 (what the code does): `SelectorMatch` panics, instead of returning a boolean, exactly
when the item and the filter of the kind exist, the filter has measurement-list selectors, and
either the selector's measurementId is set and the item's is absent, or the measurementId
check passes and the selector's valueType is set and the item's is absent.  It returns true
exactly when item, filter and selectors exist and every selector field that is set equals the
item's field.  A delete filter that selects measurementId 0 panics on an item without
measurementId. -/
theorem SelectorMatch_panics_on_absent_field (r : MeasurementListDataType_Updater)
    (filterType : FilterEnumType) (item : Option MeasurementDataType) :
    (r.SelectorMatch filterType item = none ↔
      ∃ it filter selector, item = some it ∧
        r.FilterProvider.FilterForEnumType filterType = some filter ∧
        filter.MeasurementListDataSelectors = some selector ∧
        ((selector.MeasurementId.isSome ∧ it.MeasurementId = none) ∨
          ((selector.MeasurementId = none ∨ selector.MeasurementId = it.MeasurementId) ∧
            selector.ValueType.isSome ∧ it.ValueType = none))) ∧
    (r.SelectorMatch filterType item = some true ↔
      ∃ it filter selector, item = some it ∧
        r.FilterProvider.FilterForEnumType filterType = some filter ∧
        filter.MeasurementListDataSelectors = some selector ∧
        (∀ id, selector.MeasurementId = some id → it.MeasurementId = some id) ∧
        (∀ v, selector.ValueType = some v → it.ValueType = some v)) ∧
    (MeasurementListDataType.NewUpdater { MeasurementData := [] } { MeasurementData := [] }
        none (some (deleteMeasurementId 0))).SelectorMatch .FilterEnumTypeDelete
      (some { measurement 1 5 with MeasurementId := none }) = none := by
  refine ⟨?_, ?_, rfl⟩
  · unfold MeasurementListDataType_Updater.SelectorMatch
    cases item with
    | none => simp
    | some it =>
      cases hf : r.FilterProvider.FilterForEnumType filterType with
      | none => simp
      | some filter =>
        cases hs : filter.MeasurementListDataSelectors with
        | none => simp [hs]
        | some selector =>
          simp only [Option.some.injEq, exists_and_left, exists_eq_left', hs]
          rcases hsi : selector.MeasurementId with _ | sid <;>
            rcases hii : it.MeasurementId with _ | iid <;>
            rcases hsv : selector.ValueType with _ | sv <;>
            rcases hiv : it.ValueType with _ | iv <;>
            simp [selectorFieldDiffers] <;>
            (try (by_cases h1 : sid = iid <;>
              first
              | simp [h1, show ¬ iid = sid from fun hh => h1 hh.symm]
              | simp [h1])) <;>
            (try (by_cases h2 : sv = iv <;>
              first
              | simp [h2, show ¬ iv = sv from fun hh => h2 hh.symm]
              | simp [h2]))
  · unfold MeasurementListDataType_Updater.SelectorMatch
    cases item with
    | none => simp
    | some it =>
      cases hf : r.FilterProvider.FilterForEnumType filterType with
      | none => simp
      | some filter =>
        cases hs : filter.MeasurementListDataSelectors with
        | none => simp [hs]
        | some selector =>
          simp only [Option.some.injEq, exists_and_left, exists_eq_left', hs]
          rcases hsi : selector.MeasurementId with _ | sid <;>
            rcases hii : it.MeasurementId with _ | iid <;>
            rcases hsv : selector.ValueType with _ | sv <;>
            rcases hiv : it.ValueType with _ | iv <;>
            simp [selectorFieldDiffers] <;>
            (try (by_cases h1 : sid = iid <;>
              first
              | simp [h1, show ¬ iid = sid from fun hh => h1 hh.symm]
              | simp [h1])) <;>
            (try (by_cases h2 : sv = iv <;>
              first
              | simp [h2, show ¬ iv = sv from fun hh => h2 hh.symm]
              | simp [h2]))

/-! ## Entity addresses and the check of an entity information -/

/-- The addresses of the entities after a returning step: they are as before, or the address
built from the device address and the listed path, which no entity had, is appended. -/
theorem addEntityStep_entity_addresses (period : PeriodPackage) (initialData : Bool)
    (fis : List NodeManagementDetailedDiscoveryFeatureInformationType)
    (ei : NodeManagementDetailedDiscoveryEntityInformationType)
    (d d1 : DeviceRemoteImpl) (r r1 : List Nat)
    (h : addEntityStep period initialData fis ei d r = .ok d1 r1) :
    d1.entities.map (fun e => e.address) = d.entities.map (fun e => e.address) ∨
    (listedAddress ei ∉ d.entities.map (fun e => e.address.Entity) ∧
      d1.entities.map (fun e => e.address)
        = d.entities.map (fun e => e.address)
          ++ [{ Device := d.address, Entity := listedAddress ei }]) := by
  obtain ⟨description, address, base, position, e, hd, ha, hbase, _, hget, _, rfl⟩ :=
    addEntityStep_ok period initialData fis ei d d1 r r1 h
  rw [listedAddress_of ei description address hd ha]
  have hmap : (base.set position ({ e with
        description := description.Description
        features := builtFeatures period e.address address.Entity fis })).map
        (fun e => e.address) = base.map (fun e => e.address) := by
    rw [List.map_set]
    apply List.ext_getElem?
    intro n
    by_cases hn : position = n
    · subst hn
      rw [List.getElem?_set_self']
      simp [List.getElem?_map, hget]
    · rw [List.getElem?_set_ne hn]
  simp only [hmap]
  rcases hbase with ⟨_, rfl, _⟩ | ⟨hpos, ⟨entityType, rfl⟩, _, _⟩
  · exact Or.inl rfl
  · right
    refine ⟨?_, by simp [NewEntityRemoteImpl]⟩
    intro hmem
    obtain ⟨x, hx, hxa⟩ := List.mem_map.1 hmem
    exact entityPosition_none _ _ hpos x hx hxa

/-- A returning step keeps the entity paths, and the entity addresses, pairwise distinct. -/
theorem addEntityStep_distinct (period : PeriodPackage) (initialData : Bool)
    (fis : List NodeManagementDetailedDiscoveryFeatureInformationType)
    (ei : NodeManagementDetailedDiscoveryEntityInformationType)
    (d d1 : DeviceRemoteImpl) (r r1 : List Nat)
    (h : addEntityStep period initialData fis ei d r = .ok d1 r1) :
    ((d.entities.map (fun e => e.address.Entity)).Nodup →
      (d1.entities.map (fun e => e.address.Entity)).Nodup) ∧
    ((d.entities.map (fun e => e.address)).Nodup →
      (d1.entities.map (fun e => e.address)).Nodup) := by
  constructor
  · intro hd
    rcases addEntityStep_addresses period initialData fis ei d d1 r r1 h with
      ⟨_, heq, _⟩ | ⟨hnew, heq, _⟩
    · rw [heq]
      exact hd
    · rw [heq]
      exact List.Nodup.append hd (List.nodup_singleton _)
        (List.disjoint_singleton.2 hnew)
  · intro hd
    rcases addEntityStep_entity_addresses period initialData fis ei d d1 r r1 h with
      heq | ⟨hnew, heq⟩
    · rw [heq]
      exact hd
    · rw [heq]
      refine List.Nodup.append hd (List.nodup_singleton _) (List.disjoint_singleton.2 ?_)
      intro hmem
      obtain ⟨x, hx, hxa⟩ := List.mem_map.1 hmem
      exact hnew (List.mem_map.2 ⟨x, hx, by rw [hxa]⟩)

/-- The outer loop, when it returns a value or an error, keeps the entity paths, and the
entity addresses, pairwise distinct. -/
theorem addEntitiesLoop_distinct (period : PeriodPackage) (initialData : Bool)
    (fis : List NodeManagementDetailedDiscoveryFeatureInformationType)
    (eis : List NodeManagementDetailedDiscoveryEntityInformationType)
    (d d1 : DeviceRemoteImpl) (r : List Nat)
    (h : (addEntitiesLoop period initialData fis eis d r).device? = some d1) :
    ((d.entities.map (fun e => e.address.Entity)).Nodup →
      (d1.entities.map (fun e => e.address.Entity)).Nodup) ∧
    ((d.entities.map (fun e => e.address)).Nodup →
      (d1.entities.map (fun e => e.address)).Nodup) := by
  induction eis generalizing d r with
  | nil =>
    simp only [addEntitiesLoop, Outcome.device?, Option.some.injEq] at h
    rw [← h]
    exact ⟨id, id⟩
  | cons ei rest ih =>
    unfold addEntitiesLoop at h
    cases hstep : addEntityStep period initialData fis ei d r with
    | ok d2 r2 =>
      rw [hstep] at h
      have hs := addEntityStep_distinct period initialData fis ei d d2 r r2 hstep
      have hl := ih d2 r2 h
      exact ⟨fun hd => hl.1 (hs.1 hd), fun hd => hl.2 (hs.2 hd)⟩
    | failed d2 err =>
      rw [hstep] at h
      simp only [Outcome.device?, Option.some.injEq] at h
      rw [← h, addEntityStep_failed period initialData fis ei d d2 r err hstep]
      exact ⟨id, id⟩
    | panicked =>
      rw [hstep] at h
      simp [Outcome.device?] at h

/-- C31: if the entity paths of a remote device are pairwise distinct before
`AddEntityAndFeatures`, they are pairwise distinct after it, for every detailed-discovery data
(which may list the same path more than once), whether the call returns entities or an
error; the same holds for the entity addresses, of device address and entity path. -/
theorem AddEntityAndFeatures_addresses_distinct (period : PeriodPackage)
    (d d1 : DeviceRemoteImpl) (initialData : Bool)
    (data : NodeManagementDetailedDiscoveryDataType)
    (h : (d.AddEntityAndFeatures period initialData data).device? = some d1) :
    ((d.entities.map (fun e => e.address.Entity)).Nodup →
      (d1.entities.map (fun e => e.address.Entity)).Nodup) ∧
    ((d.entities.map (fun e => e.address)).Nodup →
      (d1.entities.map (fun e => e.address)).Nodup) :=
  addEntitiesLoop_distinct period initialData data.FeatureInformation data.EntityInformation
    d d1 [] h

/-- C31 (witness): a reply that lists the path [1] twice and then an entity information without
description, on a new remote device: the call returns an error after it has added one entity
of path [1], and the paths [0] and [1] of the device are distinct. -/
theorem AddEntityAndFeatures_addresses_distinct_witness :
    ((NewDeviceRemoteImpl "ski").entities.map (fun e => e.address.Entity)).Nodup ∧
    ∃ d1 err, (NewDeviceRemoteImpl "ski").AddEntityAndFeatures samplePeriod true
        repeatedEntityData = .failed d1 err ∧
      d1.entities.map (fun e => e.address.Entity) = [some [0], some [1]] ∧
      (d1.entities.map (fun e => e.address.Entity)).Nodup ∧
      (d1.entities.map (fun e => e.address)).Nodup := by
  have hd : ((NewDeviceRemoteImpl "ski").entities.map (fun e => e.address.Entity)).Nodup := by
    decide
  have hd2 : ((NewDeviceRemoteImpl "ski").entities.map (fun e => e.address)).Nodup := by
    decide
  have h : (NewDeviceRemoteImpl "ski").AddEntityAndFeatures samplePeriod true
      repeatedEntityData
      = .failed (match ((NewDeviceRemoteImpl "ski").AddEntityAndFeatures samplePeriod true
          repeatedEntityData).device? with
        | some d1 => d1
        | none => NewDeviceRemoteImpl "ski")
        "nodemanagement.replyDetailedDiscoveryData: invalid EntityInformation.Description" := by
    decide
  have hw := AddEntityAndFeatures_addresses_distinct samplePeriod (NewDeviceRemoteImpl "ski")
    _ true repeatedEntityData (by rw [h]; rfl)
  exact ⟨hd, _, _, h, by decide, hw.1 hd, hw.2 hd2⟩

/-- C32: `CheckEntityInformation` returns an error if and only if the description of the
entity information, the entity address of the description, or the entity path of that
address is absent, or `initialData` is false and the device address of the description and
the device's own address are both present and differ.  With `initialData` true it returns no
error whenever description, entity address and entity path are present, whatever the device
addresses are. -/
theorem CheckEntityInformation_error_iff (d : DeviceRemoteImpl) (initialData : Bool)
    (entity : NodeManagementDetailedDiscoveryEntityInformationType) :
    ((d.CheckEntityInformation initialData entity).isSome ↔
      (entity.Description = none ∨
        (∃ description, entity.Description = some description ∧
          description.EntityAddress = none) ∨
        (∃ description address, entity.Description = some description ∧
          description.EntityAddress = some address ∧ address.Entity = none) ∨
        (initialData = false ∧
          ∃ description address device own, entity.Description = some description ∧
            description.EntityAddress = some address ∧ address.Device = some device ∧
            d.address = some own ∧ device ≠ own))) ∧
    (initialData = true →
      ∀ description address path, entity.Description = some description →
        description.EntityAddress = some address → address.Entity = some path →
        d.CheckEntityInformation initialData entity = none) ∧
    ({ NewDeviceRemoteImpl "ski" with address := some "d:_i:remote" }
        : DeviceRemoteImpl).CheckEntityInformation false
      (entityInformationOfDevice (some "d:_i:other"))
      = some "nodemanagement.replyDetailedDiscoveryData: device address mismatch" ∧
    ({ NewDeviceRemoteImpl "ski" with address := some "d:_i:remote" }
        : DeviceRemoteImpl).CheckEntityInformation true
      (entityInformationOfDevice (some "d:_i:other")) = none := by
  refine ⟨?_, ?_, by decide, by decide⟩
  · unfold DeviceRemoteImpl.CheckEntityInformation
    cases hdesc : entity.Description with
    | none => simp
    | some description =>
      cases haddr : description.EntityAddress with
      | none => simp [haddr]
      | some address =>
        cases hpath : address.Entity with
        | none => simp [haddr, hpath]
        | some path =>
          cases initialData with
          | true => simp [haddr, hpath]
          | false =>
            cases hdev : address.Device with
            | none => simp [haddr, hpath, hdev]
            | some device =>
              cases hown : d.address with
              | none => simp [haddr, hpath, hdev]
              | some own =>
                by_cases hne : device = own <;> simp [haddr, hpath, hdev, hne]
  · intro hi description address path hdesc haddr hpath
    subst hi
    unfold DeviceRemoteImpl.CheckEntityInformation
    simp [hdesc, haddr, hpath]

end Spine

namespace Features

open Spine (FunctionDataMap AnyData DeviceClassificationManufacturerDataType)

/-! ## Manufacturer details -/

/-- C22: on a DeviceClassification wrapper whose remote feature has a store for the
manufacturer data (holding the nil interface or a pointer to manufacturer data),
`GetManufacturerDetails` returns no data and `ErrDataNotAvailable` whenever the store holds
no manufacturer data, and otherwise the stored data and no error; and on every wrapper, when
it returns, it does not return a nil data pointer together with a nil error. -/
theorem GetManufacturerDetails_result (d : DeviceClassification)
    (functionDataMap : FunctionDataMap) (fd : Spine.FunctionData)
    (hm : d.featureRemote = some functionDataMap)
    (hfd : Spine.functionData functionDataMap
      Spine.FunctionTypeDeviceClassificationManufacturerData = some fd)
    (htype : fd.data = .nilInterface ∨ ∃ pointer, fd.data = .manufacturerData pointer) :
    (storedManufacturerData fd = none →
      d.GetManufacturerDetails = some (none, some ErrDataNotAvailable)) ∧
    (∀ data, storedManufacturerData fd = some data →
      d.GetManufacturerDetails = some (some data, none)) ∧
    (∀ (d2 : DeviceClassification) data err, d2.GetManufacturerDetails = some (data, err) →
      ¬ (data = none ∧ err = none) ∧ (data.isSome ↔ err = none) ∧
      (err = none ∨ err = some ErrDataNotAvailable)) := by
  have hdata : Spine.Data functionDataMap Spine.FunctionTypeDeviceClassificationManufacturerData
      = some fd.data := by
    unfold Spine.Data
    rw [hfd]
    rfl
  refine ⟨?_, ?_, ?_⟩
  · intro hnone
    unfold DeviceClassification.GetManufacturerDetails
    rw [hm]
    simp only [hdata]
    rcases htype with h | ⟨pointer, h⟩
    · rw [h]
    · rw [h]
      cases pointer with
      | none => rfl
      | some data => simp [storedManufacturerData, h] at hnone
  · intro data hsome
    unfold DeviceClassification.GetManufacturerDetails
    rw [hm]
    simp only [hdata]
    rcases htype with h | ⟨pointer, h⟩
    · simp [storedManufacturerData, h] at hsome
    · rw [h]
      cases pointer with
      | none => simp [storedManufacturerData, h] at hsome
      | some data2 =>
        simp only [storedManufacturerData, h, Option.some.injEq] at hsome
        subst hsome
        rfl
  · intro d2 data err hret
    unfold DeviceClassification.GetManufacturerDetails at hret
    split at hret
    · cases hret
    · split at hret
      · cases hret
      · simp only [Option.some.injEq, Prod.mk.injEq] at hret
        obtain ⟨rfl, rfl⟩ := hret
        simp
      · simp only [Option.some.injEq, Prod.mk.injEq] at hret
        obtain ⟨rfl, rfl⟩ := hret
        simp
      · simp only [Option.some.injEq, Prod.mk.injEq] at hret
        obtain ⟨rfl, rfl⟩ := hret
        simp
      · cases hret

/-- C22 (witness): a remote feature whose store holds a nil pointer, so no manufacturer data
(as after detailed discovery), and one whose store holds the sample data (as after a
reply). -/
theorem GetManufacturerDetails_result_witness :
    (sampleDeviceClassification none).GetManufacturerDetails
      = some (none, some ErrDataNotAvailable) ∧
    (sampleDeviceClassification (some sampleManufacturerData)).GetManufacturerDetails
      = some (some sampleManufacturerData, none) :=
  ⟨(GetManufacturerDetails_result (sampleDeviceClassification none) _ _ rfl rfl
      (Or.inr ⟨none, rfl⟩)).1 rfl,
    (GetManufacturerDetails_result (sampleDeviceClassification (some sampleManufacturerData))
      _ _ rfl rfl (Or.inr ⟨some sampleManufacturerData, rfl⟩)).2.1 sampleManufacturerData rfl⟩

end Features

namespace Service

/-! ## The service configuration -/

/-- Go's `len` of a string is zero exactly for the empty string. -/
theorem len_eq_zero_iff (s : String) : len s = 0 ↔ s = "" := by
  obtain ⟨l⟩ := s
  cases l with
  | nil => exact ⟨fun _ => rfl, fun _ => rfl⟩
  | cons c cs =>
    constructor
    · intro h
      have hpos := Char.utf8Size_pos c
      simp only [len, String.utf8ByteSize, String.utf8ByteSize.go] at h
      have h2 : String.utf8ByteSize.go cs + c.utf8Size = 0 := h
      omega
    · intro h
      have h2 := congrArg String.data h
      simp at h2

/-- What `NewConfiguration` returns when the five texts are not empty. -/
theorem NewConfiguration_ok (vendorCode deviceBrand deviceModel serialNumber deviceType : String)
    (port : Int) (certificate : Certificate) (voltage : Float)
    (h1 : vendorCode ≠ "") (h2 : deviceBrand ≠ "") (h3 : deviceModel ≠ "")
    (h4 : serialNumber ≠ "") (h5 : deviceType ≠ "") :
    NewConfiguration vendorCode deviceBrand deviceModel serialNumber deviceType port
        certificate voltage
      = .ok
        { vendorCode := vendorCode
          deviceBrand := deviceBrand
          deviceModel := deviceModel
          deviceSerialNumber := serialNumber
          alternateIdentifier := ""
          alternateMdnsServiceName := ""
          deviceType := deviceType
          featureSet := NetworkManagementFeatureSetTypeSmart
          interfaces := none
          port := port
          certificate := certificate
          registerAutoAccept := false
          voltage := voltage } := by
  simp [NewConfiguration, len_eq_zero_iff, h1, h2, h3, h4, h5]

/-- An empty vendor code makes `NewConfiguration` fail, whatever the other values are. -/
theorem NewConfiguration_empty_vendorCode (deviceBrand deviceModel serialNumber
    deviceType : String) (port : Int) (certificate : Certificate) (voltage : Float) :
    NewConfiguration "" deviceBrand deviceModel serialNumber deviceType port certificate voltage
      = .error "vendorCode is required" := by
  simp [NewConfiguration, len_eq_zero_iff]

/-- C26: `NewConfiguration` returns an error if and only if at least one of vendorCode,
deviceBrand, deviceModel, serialNumber and deviceType is empty, and the error names the
first empty one in that order; otherwise it returns a configuration that holds the five given
values, the given port, certificate and voltage, the feature set smart, and the zero value
in every other field. -/
theorem NewConfiguration_result (vendorCode deviceBrand deviceModel serialNumber
    deviceType : String) (port : Int) (certificate : Certificate) (voltage : Float) :
    ((∃ err, NewConfiguration vendorCode deviceBrand deviceModel serialNumber deviceType port
        certificate voltage = .error err)
      ↔ (vendorCode = "" ∨ deviceBrand = "" ∨ deviceModel = "" ∨ serialNumber = "" ∨
          deviceType = "")) ∧
    (vendorCode = "" →
      NewConfiguration vendorCode deviceBrand deviceModel serialNumber deviceType port
        certificate voltage = .error "vendorCode is required") ∧
    (vendorCode ≠ "" → deviceBrand = "" →
      NewConfiguration vendorCode deviceBrand deviceModel serialNumber deviceType port
        certificate voltage = .error "brand is required") ∧
    (vendorCode ≠ "" → deviceBrand ≠ "" → deviceModel = "" →
      NewConfiguration vendorCode deviceBrand deviceModel serialNumber deviceType port
        certificate voltage = .error "model is required") ∧
    (vendorCode ≠ "" → deviceBrand ≠ "" → deviceModel ≠ "" → serialNumber = "" →
      NewConfiguration vendorCode deviceBrand deviceModel serialNumber deviceType port
        certificate voltage = .error "serialNumber is required") ∧
    (vendorCode ≠ "" → deviceBrand ≠ "" → deviceModel ≠ "" → serialNumber ≠ "" →
        deviceType = "" →
      NewConfiguration vendorCode deviceBrand deviceModel serialNumber deviceType port
        certificate voltage = .error "deviceType is required") ∧
    (vendorCode ≠ "" → deviceBrand ≠ "" → deviceModel ≠ "" → serialNumber ≠ "" →
        deviceType ≠ "" →
      NewConfiguration vendorCode deviceBrand deviceModel serialNumber deviceType port
          certificate voltage
        = .ok
          { vendorCode := vendorCode
            deviceBrand := deviceBrand
            deviceModel := deviceModel
            deviceSerialNumber := serialNumber
            alternateIdentifier := ""
            alternateMdnsServiceName := ""
            deviceType := deviceType
            featureSet := "smart"
            interfaces := none
            port := port
            certificate := certificate
            registerAutoAccept := false
            voltage := voltage }) := by
  have e1 : "vendorCode " ++ "is required" = "vendorCode is required" := rfl
  have e2 : "brand " ++ "is required" = "brand is required" := rfl
  have e3 : "model " ++ "is required" = "model is required" := rfl
  have e4 : "serialNumber " ++ "is required" = "serialNumber is required" := rfl
  have e5 : "deviceType " ++ "is required" = "deviceType is required" := rfl
  have hok := NewConfiguration_ok vendorCode deviceBrand deviceModel serialNumber deviceType
    port certificate voltage
  refine ⟨?_, ?_, ?_, ?_, ?_, ?_, hok⟩
  · by_cases h1 : vendorCode = ""
    · simp [NewConfiguration, len_eq_zero_iff, h1]
    · by_cases h2 : deviceBrand = ""
      · simp [NewConfiguration, len_eq_zero_iff, h1, h2]
      · by_cases h3 : deviceModel = ""
        · simp [NewConfiguration, len_eq_zero_iff, h1, h2, h3]
        · by_cases h4 : serialNumber = ""
          · simp [NewConfiguration, len_eq_zero_iff, h1, h2, h3, h4]
          · by_cases h5 : deviceType = ""
            · simp [NewConfiguration, len_eq_zero_iff, h1, h2, h3, h4, h5]
            · rw [hok h1 h2 h3 h4 h5]
              simp [h1, h2, h3, h4, h5]
  · intro h1
    simp [NewConfiguration, len_eq_zero_iff, h1, e1]
  · intro h1 h2
    simp [NewConfiguration, len_eq_zero_iff, h1, h2, e2]
  · intro h1 h2 h3
    simp [NewConfiguration, len_eq_zero_iff, h1, h2, h3, e3]
  · intro h1 h2 h3 h4
    simp [NewConfiguration, len_eq_zero_iff, h1, h2, h3, h4, e4]
  · intro h1 h2 h3 h4 h5
    simp [NewConfiguration, len_eq_zero_iff, h1, h2, h3, h4, h5, e5]

/-- C27 (what the code does): `NewConfiguration` called with an empty vendorCode fails with
the error "vendorCode is required" and returns no configuration, whatever the other values
are; so it does with the brand "Brand", the model "Model", the serial number "Serial" and the
device type "EnergyManagementSystem", none of which is empty. -/
theorem NewConfiguration_requires_vendorCode (deviceBrand deviceModel serialNumber
    deviceType : String) (port : Int) (certificate : Certificate) (voltage : Float) :
    NewConfiguration "" deviceBrand deviceModel serialNumber deviceType port certificate voltage
      = .error "vendorCode is required" ∧
    (∀ configuration, NewConfiguration "" deviceBrand deviceModel serialNumber deviceType port
      certificate voltage ≠ .ok configuration) ∧
    NewConfiguration "" "Brand" "Model" "Serial" "EnergyManagementSystem" defaultPort
      sampleCertificate 230 = .error "vendorCode is required" ∧
    (∃ configuration, NewConfiguration "Vendor" "Brand" "Model" "Serial"
      "EnergyManagementSystem" defaultPort sampleCertificate 230 = .ok configuration) := by
  have h := NewConfiguration_empty_vendorCode deviceBrand deviceModel serialNumber deviceType
    port certificate voltage
  refine ⟨h, ?_, NewConfiguration_empty_vendorCode _ _ _ _ _ _ _, ?_⟩
  · intro configuration hc
    rw [h] at hc
    cases hc
  · exact ⟨_, NewConfiguration_ok _ _ _ _ _ _ _ _ (by decide) (by decide) (by decide)
      (by decide) (by decide)⟩

/-- C28 (what the code does): when no alternate mDNS service name is set, `MdnsServiceName` is
the generated "Brand-Model-SerialNumber", whether an alternate identifier is set or not (the
alternate identifier is what `Identifier` returns when one is set); when an alternate mDNS
service name is set, `MdnsServiceName` returns it. -/
theorem MdnsServiceName_ignores_alternateIdentifier (s : Configuration)
    (h : s.alternateMdnsServiceName = "") :
    s.MdnsServiceName = s.deviceBrand ++ "-" ++ s.deviceModel ++ "-" ++ s.deviceSerialNumber ∧
    (∀ identifier, identifier ≠ "" →
      (s.SetAlternateIdentifier identifier).MdnsServiceName
        = s.deviceBrand ++ "-" ++ s.deviceModel ++ "-" ++ s.deviceSerialNumber ∧
      (s.SetAlternateIdentifier identifier).Identifier = identifier) ∧
    (∀ name, name ≠ "" → (s.SetAlternateMdnsServiceName name).MdnsServiceName = name) := by
  have hpos : ∀ t : String, len t > 0 ↔ t ≠ "" := by
    intro t
    rw [← not_iff_not, not_not, ← len_eq_zero_iff]
    omega
  refine ⟨?_, ?_, ?_⟩
  · simp [Configuration.MdnsServiceName, Configuration.generateIdentifier, hpos, h]
  · intro identifier hid
    constructor
    · simp [Configuration.MdnsServiceName, Configuration.generateIdentifier,
        Configuration.SetAlternateIdentifier, hpos, h]
    · simp [Configuration.Identifier, Configuration.SetAlternateIdentifier, hpos, hid]
  · intro name hname
    simp [Configuration.MdnsServiceName, Configuration.SetAlternateMdnsServiceName, hpos, hname]

/-- C28 (failing input): the sample configuration with the alternate identifier "alt" and no
alternate mDNS service name; `MdnsServiceName` is "Brand-Model-Serial", not "alt". -/
theorem MdnsServiceName_ignores_alternateIdentifier_witness :
    (sampleConfiguration.SetAlternateIdentifier "alt").alternateMdnsServiceName = "" ∧
    (sampleConfiguration.SetAlternateIdentifier "alt").alternateIdentifier = "alt" ∧
    (sampleConfiguration.SetAlternateIdentifier "alt").MdnsServiceName = "Brand-Model-Serial" ∧
    (sampleConfiguration.SetAlternateIdentifier "alt").Identifier = "alt" := by
  have hs : sampleConfiguration
      = { vendorCode := "Vendor"
          deviceBrand := "Brand"
          deviceModel := "Model"
          deviceSerialNumber := "Serial"
          alternateIdentifier := ""
          alternateMdnsServiceName := ""
          deviceType := "EnergyManagementSystem"
          featureSet := NetworkManagementFeatureSetTypeSmart
          interfaces := none
          port := defaultPort
          certificate := sampleCertificate
          registerAutoAccept := false
          voltage := 230 } := by
    unfold sampleConfiguration
    rw [NewConfiguration_ok _ _ _ _ _ _ _ _ (by decide) (by decide) (by decide) (by decide)
      (by decide)]
  have hw := MdnsServiceName_ignores_alternateIdentifier
    (sampleConfiguration.SetAlternateIdentifier "alt") (by rw [hs]; rfl)
  refine ⟨by rw [hs]; rfl, by rw [hs]; rfl, ?_, ?_⟩
  · rw [hw.1, hs]
    decide
  · have := (MdnsServiceName_ignores_alternateIdentifier sampleConfiguration
      (by rw [hs])).2.1 "alt" (by decide)
    exact this.2

end Service
